import Mathlib

/-!
# wde2: disk/partition discovery and VSS snapshot orchestration

A shallow embedding of `src/wde2.h` (`BuildDeviceList`, `enumerate`),
`src/structs.h` (`PartitionInfo`, `DiskInfo`) and `src/w32_vss.h`
(`ComInit`, `VSSWrapper`), followed by theorems about them.

Conventions.
* Win32 `DWORD` values are natural numbers, `LONGLONG`/`HRESULT`/`int` values
  are integers; the one narrowing conversion in the code (`DWORD` to the `int`
  key of the device map) is written out as `toInt32`.
* The answers of the operating system are inputs of the model: a `Device`
  holds what the platform returns for one enumerated disk interface, a
  `Script` holds the answer to the n-th platform call of a snapshot session.
* `std::map` is a key-sorted association list (`StdMap`), so two maps with the
  same content are equal.
-/

namespace wde2

/-! ## `std::map` -/

/-- A `std::map<κ, α>`: its entries in ascending key order. -/
abbrev StdMap (κ : Type) (α : Type) := List (κ × α)

/-- The statement `m[k] = v` of `std::map`: overwrite the entry with key `k`
or insert a new one at its sorted position. -/
def StdMap.assign {κ α : Type} [LinearOrder κ] (k : κ) (v : α) : StdMap κ α → StdMap κ α
  | [] => [(k, v)]
  | (k', v') :: rest =>
    if k < k' then (k, v) :: (k', v') :: rest
    else if k = k' then (k, v) :: rest
    else (k', v') :: StdMap.assign k v rest

/-- The lookup `m.find(k)` of `std::map`. -/
def StdMap.find {κ α : Type} [DecidableEq κ] (k : κ) : StdMap κ α → Option α
  | [] => none
  | (k', v') :: rest => if k = k' then some v' else StdMap.find k rest

/-! ## Win32 structures (winioctl.h, guiddef.h) -/

/-- A 128-bit `GUID`: `Data1` (32 bit), `Data2`, `Data3` (16 bit), `Data4` (8 bytes). -/
structure GUID where
  Data1 : Nat
  Data2 : Nat
  Data3 : Nat
  Data4 : List Nat
deriving DecidableEq, Repr

/-- The value of `GUID g = { 0 }`. -/
def GUID.zero : GUID := ⟨0, 0, 0, [0, 0, 0, 0, 0, 0, 0, 0]⟩

/-- The constant `PARTITION_STYLE_MBR` of the `PARTITION_STYLE` enumeration. -/
def PARTITION_STYLE_MBR : Nat := 0
/-- The constant `PARTITION_STYLE_GPT` of the `PARTITION_STYLE` enumeration. -/
def PARTITION_STYLE_GPT : Nat := 1
/-- The constant `PARTITION_STYLE_RAW` of the `PARTITION_STYLE` enumeration. -/
def PARTITION_STYLE_RAW : Nat := 2
/-- The constant `FILE_DEVICE_DISK` device type. -/
def FILE_DEVICE_DISK : Nat := 7

/-- The structure `PARTITION_INFORMATION_MBR`. -/
structure PARTITION_INFORMATION_MBR where
  PartitionType : Nat
  BootIndicator : Bool
  RecognizedPartition : Bool
  HiddenSectors : Nat
  PartitionId : GUID
deriving DecidableEq, Repr

/-- The structure `PARTITION_INFORMATION_GPT`. -/
structure PARTITION_INFORMATION_GPT where
  PartitionType : GUID
  PartitionId : GUID
  Attributes : Nat
  Name : String
deriving DecidableEq, Repr

/-- The structure `PARTITION_INFORMATION_EX`.  In C the members `Mbr` and `Gpt` form a union;
the embedding keeps the two views as two fields, so a read of either member is
defined whatever `PartitionStyle` says (every value the union can hold is a
value of this record). `PartitionLength` and `StartingOffset` are signed
64-bit (`LARGE_INTEGER::QuadPart`). -/
structure PARTITION_INFORMATION_EX where
  PartitionStyle : Nat
  StartingOffset : Int
  PartitionLength : Int
  PartitionNumber : Nat
  RewritePartition : Bool
  Mbr : PARTITION_INFORMATION_MBR
  Gpt : PARTITION_INFORMATION_GPT
deriving DecidableEq, Repr

/-- A zero-filled `PARTITION_INFORMATION_EX`. -/
def PARTITION_INFORMATION_EX.zeroed : PARTITION_INFORMATION_EX :=
  { PartitionStyle := 0, StartingOffset := 0, PartitionLength := 0, PartitionNumber := 0,
    RewritePartition := false,
    Mbr := ⟨0, false, false, 0, GUID.zero⟩,
    Gpt := ⟨GUID.zero, GUID.zero, 0, ""⟩ }

/-- The structure `DRIVE_LAYOUT_INFORMATION_MBR`. -/
structure DRIVE_LAYOUT_INFORMATION_MBR where
  Signature : Nat
  CheckSum : Nat
deriving DecidableEq, Repr

/-- The structure `DRIVE_LAYOUT_INFORMATION_GPT`. -/
structure DRIVE_LAYOUT_INFORMATION_GPT where
  DiskId : GUID
  StartingUsableOffset : Int
  UsableLength : Int
  MaxPartitionCount : Nat
deriving DecidableEq, Repr

/-- The structure `DRIVE_LAYOUT_INFORMATION_EX` as it lies in the query buffer:
`PartitionEntry i` is what is found at array position `i` behind the header
(the array is variable-sized in C; positions 128 and beyond lie outside the
buffer `propQueryOut3`). -/
structure DRIVE_LAYOUT_INFORMATION_EX where
  PartitionStyle : Nat
  PartitionCount : Nat
  Mbr : DRIVE_LAYOUT_INFORMATION_MBR
  Gpt : DRIVE_LAYOUT_INFORMATION_GPT
  PartitionEntry : Nat → PARTITION_INFORMATION_EX

/-- The structure `STORAGE_DEVICE_NUMBER`. -/
structure STORAGE_DEVICE_NUMBER where
  DeviceType : Nat
  DeviceNumber : Nat
  PartitionNumber : Nat
deriving DecidableEq, Repr

/-- The structure `DISK_GEOMETRY`. -/
structure DISK_GEOMETRY where
  Cylinders : Int
  MediaType : Nat
  TracksPerCylinder : Nat
  SectorsPerTrack : Nat
  BytesPerSector : Nat
deriving DecidableEq, Repr

/-! ## structs.h -/

/-- The structure `wde2::PartitionInfo`. -/
structure PartitionInfo where
  volumeID : String
  piex : PARTITION_INFORMATION_EX
deriving DecidableEq, Repr

/-- The structure `wde2::DiskInfo`. -/
structure DiskInfo where
  StorageDeviceNumber : STORAGE_DEVICE_NUMBER
  DevicePath : String
  DeviceName : String
  SerialNumber : String
  VendorId : String
  ProductId : String
  ProductRevision : String
  canBePartitioned : Bool
  Geometry : DISK_GEOMETRY
  DiskSize : Int
  DriveLayout : DRIVE_LAYOUT_INFORMATION_EX
  partitions : StdMap Nat PartitionInfo

/-! ## wde2.h: BuildDeviceList -/

/-- The conversion of a `DWORD` to `int` (32-bit two's complement), as done
when `StorageDeviceNumber.DeviceNumber` is used as key of `std::map<int, DiskInfo>`. -/
def toInt32 (n : Nat) : Int :=
  if n % 2 ^ 32 < 2 ^ 31 then ((n % 2 ^ 32 : Nat) : Int) else ((n % 2 ^ 32 : Nat) : Int) - 2 ^ 32

/-- The text `key << _T("\\\\?\\Volume") << guidVolume << _T("\\")` accumulates;
`fmt` is the string form `nv2::acc` gives a `GUID` (library code outside the
repository, taken as a parameter). -/
def volumeKey (fmt : GUID → String) (guidVolume : GUID) : String :=
  "\\\\?\\Volume" ++ fmt guidVolume ++ "\\"

/-- The local `guidVolume` of `getDOSNamesFromPartitionInfo(arg)`: initialised
to `{ 0 }` and set from the stored entry according to the entry's own style
tag, `arg.piex.PartitionStyle`. -/
def getDOSNamesFromPartitionInfo.guidVolume (arg : PartitionInfo) : GUID :=
  let piex := arg.piex
  if piex.PartitionStyle = PARTITION_STYLE_MBR then piex.Mbr.PartitionId
  else if piex.PartitionStyle = PARTITION_STYLE_GPT then piex.Gpt.PartitionId
  else GUID.zero

/-- The local `guidVolume` of the partition loop of `BuildDeviceList`:
initialised to `{ 0 }` and set from the entry `piex` according to the style
tag of the drive layout, `pDriveLayout->PartitionStyle`. -/
def BuildDeviceList.guidVolume (pDriveLayout : DRIVE_LAYOUT_INFORMATION_EX)
    (piex : PARTITION_INFORMATION_EX) : GUID :=
  if pDriveLayout.PartitionStyle = PARTITION_STYLE_MBR then piex.Mbr.PartitionId
  else if pDriveLayout.PartitionStyle = PARTITION_STYLE_GPT then piex.Gpt.PartitionId
  else GUID.zero

/-- The body of the loop `for (DWORD iPart = 0; iPart < maxPart; iPart++)`
of `BuildDeviceList` for one `iPart`, acting on `diskInfo.partitions`. -/
def partitionStep (fmt : GUID → String) (pDriveLayout : DRIVE_LAYOUT_INFORMATION_EX)
    (partitions : StdMap Nat PartitionInfo) (iPart : Nat) : StdMap Nat PartitionInfo :=
  let piex := pDriveLayout.PartitionEntry iPart
  if piex.PartitionLength > 0 then
    let guidVolume : GUID := BuildDeviceList.guidVolume pDriveLayout piex
    let partitionInfo : PartitionInfo := { volumeID := volumeKey fmt guidVolume, piex := piex }
    StdMap.assign iPart partitionInfo partitions
  else partitions

/-- The partition loop of `BuildDeviceList`:
`maxPart = min(pDriveLayout->PartitionCount, 128)` and `iPart` runs over `0 .. maxPart-1`. -/
def buildPartitions (fmt : GUID → String) (pDriveLayout : DRIVE_LAYOUT_INFORMATION_EX) :
    StdMap Nat PartitionInfo :=
  let maxPart := min pDriveLayout.PartitionCount 128
  (List.range maxPart).foldl (partitionStep fmt pDriveLayout) []

/-- What the platform answers for one device interface enumerated by
`SetupDiEnumDeviceInterfaces`: its path and the contents of the output
buffers of the four `DeviceIoControl` queries of `BuildDeviceList`.
`numberOk` is the `BOOL` returned by `IOCTL_STORAGE_GET_DEVICE_NUMBER` (false
also when `CreateFile` gave no handle), `lastError` the text of
`nv2::s_error(::GetLastError())`, `propString off` the NUL-terminated string
at offset `off` of `propQueryOut` after `nv2::n2w`. -/
structure Device where
  DevicePath : String
  numberOk : Bool
  lastError : String
  StorageDeviceNumber : STORAGE_DEVICE_NUMBER
  VendorIdOffset : Nat
  ProductIdOffset : Nat
  ProductRevisionOffset : Nat
  SerialNumberOffset : Nat
  propString : Nat → String
  Geometry : DISK_GEOMETRY
  DiskSize : Int
  DriveLayout : DRIVE_LAYOUT_INFORMATION_EX

/-- The structure copy `diskInfo.DriveLayout = *pDriveLayout`: the header and
the one declared array element `PartitionEntry[0]`. -/
def copyLayout (pDriveLayout : DRIVE_LAYOUT_INFORMATION_EX) : DRIVE_LAYOUT_INFORMATION_EX :=
  { pDriveLayout with
    PartitionEntry := fun i =>
      if i = 0 then pDriveLayout.PartitionEntry 0 else PARTITION_INFORMATION_EX.zeroed }

/-- The block `if (ok) { ... }` of `BuildDeviceList`: the `DiskInfo` built for one device. -/
def buildDiskInfo (fmt : GUID → String) (d : Device) : DiskInfo :=
  { StorageDeviceNumber := d.StorageDeviceNumber
    DevicePath := d.DevicePath
    DeviceName :=
      if d.StorageDeviceNumber.DeviceType = FILE_DEVICE_DISK then
        "\\\\.\\PhysicalDrive" ++ toString d.StorageDeviceNumber.DeviceNumber
      else ""
    SerialNumber := if d.SerialNumberOffset ≠ 0 then d.propString d.SerialNumberOffset else ""
    VendorId := if d.VendorIdOffset ≠ 0 then d.propString d.VendorIdOffset else ""
    ProductId := if d.ProductIdOffset ≠ 0 then d.propString d.ProductIdOffset else ""
    ProductRevision :=
      if d.ProductRevisionOffset ≠ 0 then d.propString d.ProductRevisionOffset else ""
    canBePartitioned := false
    Geometry := d.Geometry
    DiskSize := d.DiskSize
    DriveLayout := copyLayout d.DriveLayout
    partitions := buildPartitions fmt d.DriveLayout }

/-- The function `nv2::throw_if(cond, msg)`: raises `msg` when `cond` holds (library code
outside the repository; `main` uses it as
`throw_if(!IsProcessElevated(), "This application requires administrative privileges...")`). -/
def throw_if (cond : Bool) (msg : String) : Except String Unit :=
  if cond then .error msg else .ok ()

/-- The `while (SetupDiEnumDeviceInterfaces(...))` loop of `BuildDeviceList`
over the devices the platform enumerates, in enumeration order; `vdi` is the
map built so far. -/
def deviceLoop (fmt : GUID → String) : List Device → StdMap Int DiskInfo →
    Except String (StdMap Int DiskInfo)
  | [], vdi => .ok vdi
  | d :: rest, vdi => do
    let ok := d.numberOk
    throw_if (!ok) ("DeviceIoControl:" ++ d.lastError)
    if ok then
      let diskInfo := buildDiskInfo fmt d
      deviceLoop fmt rest
        (StdMap.assign (toInt32 diskInfo.StorageDeviceNumber.DeviceNumber) diskInfo vdi)
    else
      deviceLoop fmt rest vdi

/-- The function `wde2::BuildDeviceList`. -/
def BuildDeviceList (fmt : GUID → String) (devices : List Device) :
    Except String (StdMap Int DiskInfo) :=
  deviceLoop fmt devices []

/-- The function `wde2::enumerate`. -/
def enumerate (fmt : GUID → String) (devices : List Device) :
    Except String (StdMap Int DiskInfo) :=
  BuildDeviceList fmt devices

/-! ## `std::map` with a comparator -/

/-- The member `insert` of `std::map` with comparator `lt`, as used when a map
is built from an initializer list: the entry is put at its sorted position
unless an equivalent key (neither below nor above) is present already. -/
def StdMap.insertBy {κ α : Type} (lt : κ → κ → Bool) (k : κ) (v : α) : StdMap κ α → StdMap κ α
  | [] => [(k, v)]
  | (k', v') :: rest =>
    if lt k k' then (k, v) :: (k', v') :: rest
    else if lt k' k then (k', v') :: StdMap.insertBy lt k v rest
    else (k', v') :: rest

/-- The construction of a `std::map` from an initializer list. -/
def StdMap.ofList {κ α : Type} (lt : κ → κ → Bool) (l : List (κ × α)) : StdMap κ α :=
  l.foldl (fun m kv => StdMap.insertBy lt kv.1 kv.2 m) []

/-- The member `find` of `std::map` with comparator `lt`: the first entry whose
key is not below `k` is the result if `k` is not below its key either. -/
def StdMap.findBy {κ α : Type} (lt : κ → κ → Bool) (k : κ) : StdMap κ α → Option α
  | [] => none
  | (k', v') :: rest =>
    if lt k' k then StdMap.findBy lt k rest
    else if lt k k' then none
    else some v'

/-! ## wde2.h: the classification tables -/

/-- The `width` bytes of an unsigned integer as they lie in memory (little-endian). -/
def leBytes (width : Nat) (n : Nat) : List Nat :=
  (List.range width).map (fun i => n / 256 ^ i % 256)

/-- The sixteen bytes of a `GUID` as they lie in memory: `Data1`, `Data2`,
`Data3` little-endian, then the eight bytes of `Data4`. -/
def GUID.bytes (g : GUID) : List Nat :=
  leBytes 4 g.Data1 ++ leBytes 2 g.Data2 ++ leBytes 2 g.Data3
    ++ (List.range 8).map (fun i => g.Data4.getD i 0 % 256)

/-- The function `memcmp` on two byte sequences of the same length: zero when they are
equal, else the difference of the first two bytes that differ. -/
def memcmp : List Nat → List Nat → Int
  | a :: as, b :: bs => if a = b then memcmp as bs else (a : Int) - (b : Int)
  | _, _ => 0

/-- The call operator of `w32::GUIDComparer`: `memcmp(&Left, &Right, sizeof(Right)) < 0`. -/
def w32.GUIDComparer (Left Right : GUID) : Bool :=
  decide (memcmp Left.bytes Right.bytes < 0)

/-- The constant `w32::g0`. -/
def w32.g0 : GUID := ⟨0xebd0a0a2, 0xb9e5, 0x4433, [0x87, 0xc0, 0x68, 0xb6, 0xb7, 0x26, 0x99, 0xc7]⟩
/-- The constant `w32::g1`. -/
def w32.g1 : GUID := ⟨0x00000000, 0x0000, 0x0000, [0x00, 0x00, 0x00, 0x00, 0x00, 0x00, 0x00, 0x00]⟩
/-- The constant `w32::g2`. -/
def w32.g2 : GUID := ⟨0xc12a7328, 0xf81f, 0x11d2, [0xba, 0x4b, 0x00, 0xa0, 0xc9, 0x3e, 0xc9, 0x3b]⟩
/-- The constant `w32::g3`. -/
def w32.g3 : GUID := ⟨0xe3c9e316, 0x0b5c, 0x4db8, [0x81, 0x7d, 0xf9, 0x2d, 0xf0, 0x02, 0x15, 0xae]⟩
/-- The constant `w32::g4`. -/
def w32.g4 : GUID := ⟨0x5808c8aa, 0x7e8f, 0x42e0, [0x85, 0xd2, 0xe1, 0xe9, 0x04, 0x34, 0xcf, 0xb3]⟩
/-- The constant `w32::g5`. -/
def w32.g5 : GUID := ⟨0xaf9b60a0, 0x1431, 0x4f62, [0xbc, 0x68, 0x33, 0x11, 0x71, 0x4a, 0x69, 0xad]⟩
/-- The constant `w32::g6`. -/
def w32.g6 : GUID := ⟨0xde94bba4, 0x06d1, 0x4d40, [0xa1, 0x6a, 0xbf, 0xd5, 0x01, 0x79, 0xd6, 0xac]⟩

/-- The initializer list of `w32::mapper`. -/
def w32.mapperInit : List (GUID × String) :=
  [(w32.g0, "PARTITION_BASIC_DATA_GUID"),
   (w32.g1, "PARTITION_ENTRY_UNUSED_GUID"),
   (w32.g2, "PARTITION_SYSTEM_GUID"),
   (w32.g3, "PARTITION_MSFT_RESERVED_GUID"),
   (w32.g4, "PARTITION_LDM_METADATA_GUID"),
   (w32.g5, "PARTITION_LDM_DATA_GUID"),
   (w32.g6, "PARTITION_MSFT_RECOVERY_GUID")]

/-- The table `w32::mapper`, a `std::map<GUID, std::wstring, GUIDComparer>`. -/
def w32.mapper : StdMap GUID String := StdMap.ofList w32.GUIDComparer w32.mapperInit

/-- The function `w32::GUIDToPartitionTypeString`. -/
def w32.GUIDToPartitionTypeString (guid : GUID) : String :=
  let ret := ""
  match StdMap.findBy w32.GUIDComparer guid w32.mapper with
  | some second => second
  | none => ret

/-- The constant `PARTITION_ENTRY_UNUSED` (winioctl.h). -/
def PARTITION_ENTRY_UNUSED : Int := 0x00
/-- The constant `PARTITION_FAT_12` (winioctl.h). -/
def PARTITION_FAT_12 : Int := 0x01
/-- The constant `PARTITION_FAT_16` (winioctl.h). -/
def PARTITION_FAT_16 : Int := 0x04
/-- The constant `PARTITION_EXTENDED` (winioctl.h). -/
def PARTITION_EXTENDED : Int := 0x05
/-- The constant `PARTITION_IFS` (winioctl.h). -/
def PARTITION_IFS : Int := 0x07
/-- The constant `PARTITION_FAT32` (winioctl.h). -/
def PARTITION_FAT32 : Int := 0x0B
/-- The constant `PARTITION_MSFT_RECOVERY` (winioctl.h). -/
def PARTITION_MSFT_RECOVERY : Int := 0x27

/-- The initializer list of the local `mapper` of `partitionIDToString`. -/
def partitionIDToString.mapperInit : List (Int × String) :=
  [(PARTITION_ENTRY_UNUSED, "PARTITION_ENTRY_UNUSED"),
   (PARTITION_EXTENDED, "PARTITION_EXTENDED"),
   (PARTITION_FAT_12, "PARTITION_FAT_12"),
   (PARTITION_FAT_16, "PARTITION_FAT_16"),
   (PARTITION_FAT32, "PARTITION_FAT32"),
   (PARTITION_IFS, "PARTITION_IFS"),
   (PARTITION_MSFT_RECOVERY, "PARTITION_MSFT_RECOVERY")]

/-- The function `partitionIDToString(int id)`; its local `mapper` is a
`std::map<int, std::wstring>` with the default comparator. -/
def partitionIDToString (id : Int) : String :=
  let mapper := StdMap.ofList (fun a b => decide (a < b)) partitionIDToString.mapperInit
  match StdMap.findBy (fun a b => decide (a < b)) id mapper with
  | none => "UNKNOWN"
  | some second => second

/-! ## w32_sig.h -/

/-- What the platform answers to the calls of `UpdateMBRSignature`: whether
`CreateFile` returns a valid handle, whether the query
`IOCTL_DISK_GET_DRIVE_LAYOUT_EX` succeeds and what it leaves in the buffer,
whether `IOCTL_DISK_SET_DRIVE_LAYOUT_EX` succeeds, and the value of
`GetLastError()` after a call that failed. -/
structure SigPlatform where
  openOk : Bool
  getOk : Bool
  layout : DRIVE_LAYOUT_INFORMATION_EX
  setOk : Bool
  lastError : Nat

/-- The Win32 calls of `UpdateMBRSignature`; `SetDriveLayout` carries the
buffer that is handed to `IOCTL_DISK_SET_DRIVE_LAYOUT_EX`. -/
inductive SigCall where
  | CreateFile (diskName : String)
  | GetDriveLayout
  | SetDriveLayout (driveLayoutEx : DRIVE_LAYOUT_INFORMATION_EX)
  | CloseHandle

/-- The lines `UpdateMBRSignature` prints with `printf`, with the values that
are formatted into them. -/
inductive SigMessage where
  | FailedToOpen (diskName : String) (error : Nat)
  | FailedToGetLayout (error : Nat)
  | OriginalSignature (signature : Nat)
  | NewSignature (signature : Nat)
  | NotUsingMbr
  | Updated
  | FailedToUpdate (error : Nat)
deriving DecidableEq, Repr

/-- A run of `UpdateMBRSignature`: the value returned, the calls made and the
lines printed, each in order. -/
structure SigRun where
  ret : Int
  calls : List SigCall
  printed : List SigMessage

/-- The function `UpdateMBRSignature(int diskNumber, DWORD dwMBRSignature)`.
The parameter `fmt` is the decimal formatting of `nv2::acc`. -/
def UpdateMBRSignature (fmt : Int → String) (P : SigPlatform) (diskNumber : Int)
    (dwMBRSignature : Nat) : SigRun :=
  let diskName := "\\\\.\\PhysicalDrive" ++ fmt diskNumber
  let opened := [SigCall.CreateFile diskName]
  if !P.openOk then ⟨1, opened, [SigMessage.FailedToOpen diskName P.lastError]⟩
  else
    let driveLayoutEx := P.layout
    let queried := opened ++ [SigCall.GetDriveLayout]
    if !P.getOk then
      ⟨1, queried ++ [SigCall.CloseHandle], [SigMessage.FailedToGetLayout P.lastError]⟩
    else if dwMBRSignature = 0 then ⟨-1, queried, []⟩
    else if diskNumber = 0 then ⟨-2, queried, []⟩
    else if driveLayoutEx.PartitionStyle = PARTITION_STYLE_MBR then
      let original := SigMessage.OriginalSignature driveLayoutEx.Mbr.Signature
      let driveLayoutEx := { driveLayoutEx with
        Mbr := { driveLayoutEx.Mbr with Signature := dwMBRSignature } }
      let result := P.setOk
      ⟨0, queried ++ [SigCall.SetDriveLayout driveLayoutEx, SigCall.CloseHandle],
        [original, SigMessage.NewSignature driveLayoutEx.Mbr.Signature,
          if result then SigMessage.Updated else SigMessage.FailedToUpdate P.lastError]⟩
    else ⟨-3, queried ++ [SigCall.CloseHandle], [SigMessage.NotUsingMbr]⟩

/-! ## main.cpp: the listing -/

/-- The set `disks` of `main` after the branch `// do all disks`:
`for (int i = 0; i <= diskCount; i++) disks.insert(i);`. -/
def main.allDisks (diskCount : Int) : List Int :=
  (List.range (diskCount + 1).toNat).map Int.ofNat

/-- The listing of `main` when `disk_index` is empty: `diskCount` is
`(int)vdi.size()`, zero disks raise an error, `disks` is filled by the branch
`// do all disks`, and the loop `for (auto& id : vdi)` skips every record with
`disks.find(id.first) == disks.end()`. The result is the records that are
displayed, in order. -/
def main.listed (vdi : StdMap Int DiskInfo) : Except String (List (Int × DiskInfo)) :=
  let diskCount : Int := (vdi.length : Int)
  if diskCount = 0 then .error "Unlikely! Zero (0) disks detected"
  else
    let disks := main.allDisks diskCount
    .ok (vdi.filter (fun id => !(disks.find? (fun i => i == id.1)).isNone))

/-! ## wde2.h: getDOSNamesFromPartitionInfo -/

/-- The text `key` of `getDOSNamesFromVolumeGUID(guidVolume)`, the volume name
it hands to `GetVolumePathNamesForVolumeNameW`:
`key << _T("\\\\?\\Volume") << guidVolume << _T("\\")`. -/
def getDOSNamesFromVolumeGUID.key (fmt : GUID → String) (guidVolume : GUID) : String :=
  volumeKey fmt guidVolume

/-- The volume name that `getDOSNamesFromPartitionInfo(arg)` queries: it calls
`getDOSNamesFromVolumeGUID` with its local `guidVolume`. -/
def getDOSNamesFromPartitionInfo.key (fmt : GUID → String) (arg : PartitionInfo) : String :=
  getDOSNamesFromVolumeGUID.key fmt (getDOSNamesFromPartitionInfo.guidVolume arg)

/-! ## wde2.h: xstoi -/

/-- The value `strtol` gives a digit character: `0`-`9`, and the letters of
either case as 10 to 35. -/
def strtol.digitValue (c : Char) : Option Nat :=
  if 48 ≤ c.toNat ∧ c.toNat ≤ 57 then some (c.toNat - 48)
  else if 97 ≤ c.toNat ∧ c.toNat ≤ 122 then some (c.toNat - 87)
  else if 65 ≤ c.toNat ∧ c.toNat ≤ 90 then some (c.toNat - 55)
  else none

/-- The function `isspace` of the C locale. -/
def strtol.isspace (c : Char) : Bool :=
  decide (c.toNat = 32 ∨ (9 ≤ c.toNat ∧ c.toNat ≤ 13))

/-- The optional sign read by `strtol`: whether it is a minus, and the rest. -/
def strtol.sign : List Char → Bool × List Char
  | [] => (false, [])
  | c :: cs =>
    if c = Char.ofNat 45 then (true, cs)
    else if c = Char.ofNat 43 then (false, cs)
    else (false, c :: cs)

/-- The digits `strtol` reads in base `base`: the values of the longest run of
characters that are digits below `base`. -/
def strtol.digits (base : Nat) : List Char → List Nat
  | [] => []
  | c :: cs =>
    match strtol.digitValue c with
    | some d => if d < base then d :: strtol.digits base cs else []
    | none => []

/-- The optional `0x` or `0X` that `strtol` skips in base 16 when a hexadecimal
digit follows it. -/
def strtol.skipRadixMark (base : Nat) : List Char → List Char
  | c0 :: c1 :: rest =>
    if base = 16 ∧ c0 = Char.ofNat 48 ∧ (c1 = Char.ofNat 120 ∨ c1 = Char.ofNat 88) ∧
        strtol.digits 16 rest ≠ [] then rest
    else c0 :: c1 :: rest
  | cs => cs

/-- The function `std::stoi(str, &pos, base)` of the C++ standard library (not
part of the repository), for a base from 2 to 36: it is `strtol` on the text,
where `long` has 32 bits as on Windows; it raises `invalid_argument` when no
digit is read and `out_of_range` when the number is not a `long`. White space
and a sign may come first; reading stops at the first character that is not a
digit. -/
def stoi (str : String) (base : Nat) : Except String Int :=
  let signed := strtol.sign (str.data.dropWhile strtol.isspace)
  let digits := strtol.digits base (strtol.skipRadixMark base signed.2)
  if digits = [] then .error "invalid stoi argument"
  else
    let magnitude : Nat := digits.foldl (fun acc d => acc * base + d) 0
    let ans : Int := if signed.1 then -(magnitude : Int) else (magnitude : Int)
    if ans < -2147483648 ∨ 2147483647 < ans then .error "stoi argument out of range"
    else .ok ans

/-- The function `wde2::xstoi`: base 16 when the text begins with `0x` or `0X`
(`arg.find(...) == 0`), else base 10. -/
def xstoi (arg : String) : Except String Int :=
  let base : Nat :=
    match arg.data with
    | c0 :: c1 :: _ =>
      if c0 = Char.ofNat 48 ∧ (c1 = Char.ofNat 120 ∨ c1 = Char.ofNat 88) then 16 else 10
    | _ => 10
  stoi arg base

/-! ## main.cpp: the command `-ms` -/

/-- The conversion of an `int` to `DWORD`, as in `DWORD newSignature = wde2::xstoi(vp[1])`. -/
def toDWORD (x : Int) : Nat := (x % 4294967296).toNat

/-- A run of `main`: the values assigned to `ret` in order (the first is the
initialiser), the value `main` returns, the error caught if one was raised, and
the run of `UpdateMBRSignature` if it was called. -/
structure MainRun where
  retAssigned : List Int
  exitStatus : Int
  caught : Option String
  update : Option SigRun

/-- The statements of `main` for the command `-ms` that can raise an error,
with the positional arguments `vp`: the process must be elevated, `vp` must
have two elements, and `xstoi` converts them to `int diskNumber` and
`DWORD newSignature`. -/
def main.ms.arguments (elevated : Bool) (vp : List String) : Except String (Int × Nat) := do
  throw_if (!elevated)
    "This application requires administrative privileges. Please run as Administrator."
  if vp.length ≠ 2 then throw "Expecting disk number and signature"
  let diskNumber ← xstoi (vp.getD 0 "")
  let newSignature ← xstoi (vp.getD 1 "")
  pure (diskNumber, toDWORD newSignature)

/-- The function `main` for the command `-ms`: `ret` is initialised to -1;
inside the `try` block, after the arguments are converted,
`ret = UpdateMBRSignature(diskNumber, newSignature)`, and at the end of the
block `ret = 0`. Each `catch` prints the error and leaves `ret` as it is. -/
def main.ms (fmt : Int → String) (P : SigPlatform) (elevated : Bool) (vp : List String) :
    MainRun :=
  let ret : Int := -1
  match main.ms.arguments elevated vp with
  | .error ex => ⟨[ret], ret, some ex, none⟩
  | .ok (diskNumber, newSignature) =>
    let run := UpdateMBRSignature fmt P diskNumber newSignature
    let assigned := [ret, run.ret, 0]
    ⟨assigned, assigned.getLastD ret, none, some run⟩

/-! ## main.cpp: the command `-cs` -/

/-- The lines the check `-cs` prints for the disks: the line of an MBR drive
with its signature, and the line of a collision, which names the drive found in
`mapper` (`iter->second`), the drive visited (`di.first`) and the signature
(`iter->first`). -/
inductive CheckLine where
  | drive (index : Int) (signature : Nat)
  | collision (first : Int) (second : Int) (signature : Nat)
deriving DecidableEq, Repr

/-- The body of the loop `for (auto& di : vdi)` of the check `-cs` for one
record, acting on `mapper` (a `std::map<DWORD,int>`) and on the lines printed. -/
def main.checkStep (st : StdMap Nat Int × List CheckLine) (di : Int × DiskInfo) :
    StdMap Nat Int × List CheckLine :=
  if di.2.DriveLayout.PartitionStyle = PARTITION_STYLE_MBR then
    let printed := st.2 ++ [CheckLine.drive di.1 di.2.DriveLayout.Mbr.Signature]
    match StdMap.find di.2.DriveLayout.Mbr.Signature st.1 with
    | none => (StdMap.assign di.2.DriveLayout.Mbr.Signature di.1 st.1, printed)
    | some second =>
      (st.1, printed ++ [CheckLine.collision second di.1 di.2.DriveLayout.Mbr.Signature])
  else st

/-- The check `-cs` of `main` over the mapping `vdi`: the lines printed for the disks. -/
def main.checkMBRSignature (vdi : StdMap Int DiskInfo) : List CheckLine :=
  (vdi.foldl main.checkStep ([], [])).2

/-! ## Definitions used to state the theorems on discovery -/

/-- An upper-case hexadecimal digit. -/
def hexDigit (n : Nat) : Char :=
  if n < 10 then Char.ofNat (48 + n) else Char.ofNat (55 + n)

/-- The `width` low hexadecimal digits of `n`, most significant first. -/
def hexField : Nat → Nat → List Char
  | 0, _ => []
  | width + 1, n => hexField width (n / 16) ++ [hexDigit (n % 16)]

/-- The registry string form of a `GUID`, `{XXXXXXXX-XXXX-XXXX-XXXX-XXXXXXXXXXXX}`,
as in the comment of `w32_llc.h` (`\\?\Volume{682FA6CA-76B7-497E-9B64-7F495F731E5D}\`);
a sample for the parameter `fmt`. -/
def guidText (g : GUID) : String :=
  String.mk ([Char.ofNat 123] ++ hexField 8 g.Data1 ++ [Char.ofNat 45] ++ hexField 4 g.Data2
    ++ [Char.ofNat 45] ++ hexField 4 g.Data3 ++ [Char.ofNat 45]
    ++ ((g.Data4.take 2).map (hexField 2)).flatten ++ [Char.ofNat 45]
    ++ ((g.Data4.drop 2).map (hexField 2)).flatten ++ [Char.ofNat 125])

/-- A sample partition entry: style tag `style`, length `len`, and `id` as
partition identifier in both views. -/
def sampleEntry (style : Nat) (len : Int) (id : GUID) : PARTITION_INFORMATION_EX :=
  { PartitionStyle := style, StartingOffset := 1048576, PartitionLength := len,
    PartitionNumber := 1, RewritePartition := false,
    Mbr := ⟨7, false, true, 2048, id⟩,
    Gpt := ⟨GUID.zero, id, 0, "Basic data partition"⟩ }

/-- A sample drive layout of style `style` reporting `count` partitions, all
of which are `entry`. -/
def sampleLayout (style count : Nat) (entry : PARTITION_INFORMATION_EX) :
    DRIVE_LAYOUT_INFORMATION_EX :=
  { PartitionStyle := style, PartitionCount := count, Mbr := ⟨305419896, 0⟩,
    Gpt := ⟨GUID.zero, 17408, 1000000, 128⟩, PartitionEntry := fun _ => entry }

/-- A sample device with device number `number` whose device-number query
returns `ok`, with the given drive layout. -/
def sampleDevice (number : Nat) (ok : Bool) (layout : DRIVE_LAYOUT_INFORMATION_EX) : Device :=
  { DevicePath := "\\\\?\\scsi#disk", numberOk := ok, lastError := "Access is denied.",
    StorageDeviceNumber := ⟨FILE_DEVICE_DISK, number, 0⟩,
    VendorIdOffset := 0, ProductIdOffset := 0, ProductRevisionOffset := 0,
    SerialNumberOffset := 0, propString := fun _ => "",
    Geometry := ⟨1000, 12, 255, 63, 512⟩, DiskSize := 8225280000, DriveLayout := layout }

/-- A sample identifier. -/
def sampleId : GUID := ⟨1747953354, 30391, 18814, [155, 100, 127, 73, 95, 115, 30, 93]⟩

/-- Whether a call is the write `IOCTL_DISK_SET_DRIVE_LAYOUT_EX`. -/
def SigCall.isWrite : SigCall → Bool
  | .SetDriveLayout _ => true
  | _ => false

/-- A sample platform for `UpdateMBRSignature`: a disk of style `style` with
two partitions. -/
def samplePlatform (openOk getOk : Bool) (style : Nat) : SigPlatform :=
  { openOk := openOk, getOk := getOk,
    layout := sampleLayout style 2 (sampleEntry style 1048576 sampleId), setOk := true,
    lastError := 5 }

/-- The value of a hexadecimal digit, in either case. -/
def hexValue (c : Char) : Option Nat :=
  if 48 ≤ c.toNat ∧ c.toNat ≤ 57 then some (c.toNat - 48)
  else if 97 ≤ c.toNat ∧ c.toNat ≤ 102 then some (c.toNat - 87)
  else if 65 ≤ c.toNat ∧ c.toNat ≤ 70 then some (c.toNat - 55)
  else none

/-- The number written by a sequence of hexadecimal digits, most significant first. -/
def hexNumber (cs : List Char) : Option Nat :=
  cs.foldlM (fun acc c => (hexValue c).map (fun d => acc * 16 + d)) 0

/-- The bytes written by a sequence of pairs of hexadecimal digits. -/
def hexBytes : List Char → Option (List Nat)
  | [] => some []
  | [_] => none
  | a :: b :: rest => do
    let x ← hexValue a
    let y ← hexValue b
    let r ← hexBytes rest
    pure ((x * 16 + y) :: r)

/-- The `GUID` written in the registry form `xxxxxxxx-xxxx-xxxx-xxxx-xxxxxxxxxxxx`
used by the header comment [1] of `wde2.h`: `Data1`, `Data2`, `Data3` as
numbers, then the eight bytes of `Data4`. -/
def parseGUID (text : String) : Option GUID :=
  match text.data.splitOn (Char.ofNat 45) with
  | [a, b, c, d, e] =>
    if a.length = 8 ∧ b.length = 4 ∧ c.length = 4 ∧ d.length = 4 ∧ e.length = 12 then do
      let data1 ← hexNumber a
      let data2 ← hexNumber b
      let data3 ← hexNumber c
      let data4 ← hexBytes (d ++ e)
      pure ⟨data1, data2, data3, data4⟩
    else none
  | _ => none

/-- The partition types documented in the header comment [1] of `wde2.h`: the
identifier as written there and the name documented for it. -/
def documentedTypes : List (String × String) :=
  [("ebd0a0a2-b9e5-4433-87c0-68b6b72699c7", "PARTITION_BASIC_DATA_GUID"),
   ("00000000-0000-0000-0000-000000000000", "PARTITION_ENTRY_UNUSED_GUID"),
   ("c12a7328-f81f-11d2-ba4b-00a0c93ec93b", "PARTITION_SYSTEM_GUID"),
   ("e3c9e316-0b5c-4db8-817d-f92df00215ae", "PARTITION_MSFT_RESERVED_GUID"),
   ("5808c8aa-7e8f-42e0-85d2-e1e90434cfb3", "PARTITION_LDM_METADATA_GUID"),
   ("af9b60a0-1431-4f62-bc68-3311714a69ad", "PARTITION_LDM_DATA_GUID"),
   ("de94bba4-06d1-4d40-a16a-bfd50179d6ac", "PARTITION_MSFT_RECOVERY_GUID")]

/-- The number `v` written in hexadecimal behind the given prefix (`0x` or `0X`). -/
def hexText (pre : String) (v : Nat) : String := pre ++ String.mk (Nat.toDigits 16 v)

/-- The number `v` written in decimal. -/
def decimalText (v : Nat) : String := String.mk (Nat.toDigits 10 v)

/-- The statuses `UpdateMBRSignature` is said to return. -/
def sigStatuses : List Int := [1, -1, -2, -3, 0]

/-- The range check at the end of `stoi` for a number without sign. -/
def stoi.ranged (magnitude : Nat) : Except String Int :=
  if magnitude < 2147483648 then .ok (magnitude : Int)
  else .error "stoi argument out of range"

/-- Whether a record of the mapping is an MBR-style disk with the signature `sig`. -/
def mbrWith (sig : Nat) (di : Int × DiskInfo) : Bool :=
  decide (di.2.DriveLayout.PartitionStyle = PARTITION_STYLE_MBR ∧
    di.2.DriveLayout.Mbr.Signature = sig)

/-- Whether a record of the mapping is an MBR-style disk. -/
def isMbr (di : Int × DiskInfo) : Bool :=
  decide (di.2.DriveLayout.PartitionStyle = PARTITION_STYLE_MBR)

/-- The key of the first MBR-style disk with signature `sig` among the records `pre`. -/
def firstMbr (pre : List (Int × DiskInfo)) (sig : Nat) : Option Int :=
  (pre.find? (mbrWith sig)).map Prod.fst

/-- The lines of the check `-cs` for the records `l` that come after the records `pre`,
written without `mapper`: a collision is reported for an MBR-style disk when an
MBR-style disk among the records before it has its signature, and names the
first such disk. -/
def checkLines : List (Int × DiskInfo) → List (Int × DiskInfo) → List CheckLine
  | _, [] => []
  | pre, di :: rest =>
    (if isMbr di then
      CheckLine.drive di.1 di.2.DriveLayout.Mbr.Signature ::
        (match firstMbr pre di.2.DriveLayout.Mbr.Signature with
          | some first => [CheckLine.collision first di.1 di.2.DriveLayout.Mbr.Signature]
          | none => [])
    else []) ++ checkLines (pre ++ [di]) rest

/-- The collision lines among the lines printed. -/
def collisionLines (printed : List CheckLine) : List CheckLine :=
  printed.filter (fun line => match line with
    | .collision _ _ _ => true
    | _ => false)

/-- The signatures of the MBR-style disks of a mapping. -/
def mbrSignatures (vdi : List (Int × DiskInfo)) : List Nat :=
  (vdi.filter isMbr).map (fun di => di.2.DriveLayout.Mbr.Signature)

/-- A sample device of style `style` whose layout carries the MBR signature `sig`. -/
def sampleSigDevice (number style sig : Nat) : Device :=
  sampleDevice number true
    { sampleLayout style 1 (sampleEntry style 1000 sampleId) with Mbr := ⟨sig, 0⟩ }

/-- Four sample devices: the disks 0 and 2 are of MBR style with the signature 7,
disk 1 is of GPT style, disk 3 is of MBR style with the signature 9. -/
def sampleSigDevices : List Device :=
  [sampleSigDevice 2 PARTITION_STYLE_MBR 7, sampleSigDevice 0 PARTITION_STYLE_MBR 7,
   sampleSigDevice 1 PARTITION_STYLE_GPT 7, sampleSigDevice 3 PARTITION_STYLE_MBR 9]

/-- The mapping `enumerate` returns for the four sample devices. -/
def sampleSigDisks : StdMap Int DiskInfo :=
  [(0, buildDiskInfo guidText (sampleSigDevice 0 PARTITION_STYLE_MBR 7)),
   (1, buildDiskInfo guidText (sampleSigDevice 1 PARTITION_STYLE_GPT 7)),
   (2, buildDiskInfo guidText (sampleSigDevice 2 PARTITION_STYLE_MBR 7)),
   (3, buildDiskInfo guidText (sampleSigDevice 3 PARTITION_STYLE_MBR 9))]

end wde2


namespace vss

open wde2 (GUID)

/-! ## Platform interface of a snapshot session -/

/-- The type `HRESULT`: a signed 32-bit status. -/
abbrev HRESULT := Int

/-- The constant `S_OK`. -/
def S_OK : HRESULT := 0
/-- The constant `E_FAIL` (0x80004005). -/
def E_FAIL : HRESULT := -2147467259
/-- The constant `E_ACCESSDENIED` (0x80070005). -/
def E_ACCESSDENIED : HRESULT := -2147024891
/-- The constant `VSS_S_ASYNC_PENDING` (0x00042309). -/
def VSS_S_ASYNC_PENDING : HRESULT := 271113
/-- The constant `VSS_S_ASYNC_FINISHED` (0x0004230A). -/
def VSS_S_ASYNC_FINISHED : HRESULT := 271114
/-- The constant `VSS_S_ASYNC_CANCELLED` (0x0004230B). -/
def VSS_S_ASYNC_CANCELLED : HRESULT := 271115

/-- The asynchronous operation an `IVssAsync` object stands for, named after
the call that created it. -/
inductive AsyncOp where
  | GatherWriterMetadata
  | PrepareForBackup
  | GatherWriterStatus
  | DoSnapshotSet
  | BackupComplete
deriving DecidableEq, Repr

/-- The platform calls issued by `w32_vss.h`, with the arguments that matter,
and the heartbeat line `DBMSG("Waited " << counter / 4 << "s")` of the polling loop. -/
inductive Call where
  | CoInitializeEx
  | CoUninitialize
  | CreateVssBackupComponents
  | Release
  | InitializeForBackup
  | GatherWriterMetadata
  | QueryStatus (pStatus : AsyncOp)
  | Sleep (ms : Nat)
  | Heartbeat (seconds : Nat)
  | SetBackupState
  | StartSnapshotSet
  | AddToSnapshotSet (volume : String)
  | PrepareForBackup
  | GatherWriterStatus
  | GetWriterStatusCount
  | GetWriterStatus (i : Nat)
  | FreeWriterStatus
  | DoSnapshotSet
  | GetSnapshotProperties (snapshotId : GUID)
  | FreeWriterMetadata
  | VssFreeSnapshotProperties
  | CreateFile (path : String)
  | DeviceIoControl
  | GetFileSizeEx
  | CopyFile (src : String) (dst : String)
  | BackupComplete
deriving DecidableEq, Repr

/-- Everything a platform call can hand back: the returned `HRESULT` (`hr`),
the returned `BOOL` or handle validity (`ok`), and the out-parameters
(`async`: status of `QueryStatus`; `count`: `GetWriterStatusCount`; `id`:
snapshot set id or snapshot id; `path`: `m_pwszSnapshotDeviceObject`;
`state`, `failure`: writer state and failure code of `GetWriterStatus`).
Each call reads the fields that belong to it. -/
structure Response where
  hr : HRESULT
  ok : Bool
  async : HRESULT
  count : Nat
  id : GUID
  path : String
  state : Nat
  failure : HRESULT
deriving DecidableEq, Repr

/-- An event of a session: a platform call together with the response the
platform gave to it. -/
structure Event where
  call : Call
  resp : Response
deriving DecidableEq, Repr

/-- The behaviour of the platform during one session: the response to the
n-th event of the session (n counted from 0). Every event takes one entry,
also those that hand nothing back (`Sleep`, the heartbeat, the destructors). -/
abbrev Script := Nat → Response

/-- How a procedure ends: it returns, it raises a fatal error with a message,
or it is still polling when the fuel of the model runs out. -/
inductive Res (α : Type) where
  | ok (a : α)
  | thrown (msg : String)
  | diverged
deriving DecidableEq, Repr

/-- A run of a procedure: how it ended, the events it issued in order, and
the index of the next event of the session. -/
structure Run (α : Type) where
  res : Res α
  events : List Event
  next : Nat

/-- A procedure of the session: given the script and the index of the next
event, its run. -/
def Proc (α : Type) : Type := Script → Nat → Run α

/-- Return without any event. -/
def Proc.pure {α : Type} (a : α) : Proc α := fun _ n => ⟨.ok a, [], n⟩

/-- Sequencing: the second procedure runs only if the first one returned. -/
def Proc.bind {α β : Type} (p : Proc α) (f : α → Proc β) : Proc β := fun s n =>
  match p s n with
  | ⟨.ok a, e, n'⟩ =>
    match f a s n' with
    | ⟨r, e', n2⟩ => ⟨r, e ++ e', n2⟩
  | ⟨.thrown msg, e, n'⟩ => ⟨.thrown msg, e, n'⟩
  | ⟨.diverged, e, n'⟩ => ⟨.diverged, e, n'⟩

instance : Monad Proc where
  pure := Proc.pure
  bind := Proc.bind

/-- Issue one platform call and read its response from the script. -/
def call (c : Call) : Proc Response := fun s n => ⟨.ok (s n), [⟨c, s n⟩], n + 1⟩

/-- The function `uw32::throw_on_fail(msg, cond)`: raises `msg` when `cond` holds (library
code outside the repository; used throughout as
`throw_on_fail("X", result != S_OK)`). -/
def throw_on_fail (msg : String) (cond : Bool) : Proc Unit := fun _ n =>
  if cond then ⟨.thrown msg, [], n⟩ else ⟨.ok (), [], n⟩

/-- The function `nv2::throw_if(cond, msg)` inside a session. -/
def throw_if (cond : Bool) (msg : String) : Proc Unit := throw_on_fail msg cond

/-- The model runs out of fuel: the C++ loop is still polling. -/
def diverge {α : Type} : Proc α := fun _ n => ⟨.diverged, [], n⟩

/-- Destructors of the objects of an enclosing scope: when `body` raises and
the stack is unwound (`unwind`), the events of `dtors` follow and the error
propagates. -/
def onThrow {α : Type} (unwind : Bool) (dtors : Proc Unit) (body : Proc α) : Proc α := fun s n =>
  match body s n with
  | ⟨.thrown msg, e, n'⟩ =>
    if unwind then
      match dtors s n' with
      | ⟨_, e', n2⟩ => ⟨.thrown msg, e ++ e', n2⟩
    else ⟨.thrown msg, e, n'⟩
  | r => r

/-- The macro `LFL`: `__FILE__ "(" STRINGIZE(__LINE__) "): "`. -/
def LFL (line : Nat) : String := "w32_vss.h(" ++ toString line ++ "): "

/-! ## w32_vss.h -/

/-- The `while` loop of `VSSWrapper::CheckStatusAndCancellation`; `fuel`
bounds the number of polls of the model, `asyncResult` and `counter` are the
local variables. Returns the final `asyncResult`. -/
def CheckStatusAndCancellation.loop (pStatus : AsyncOp) (sleepMS : Nat) :
    Nat → HRESULT → Nat → Proc HRESULT
  | 0, asyncResult, _ =>
    if asyncResult ≠ VSS_S_ASYNC_CANCELLED ∧ asyncResult ≠ VSS_S_ASYNC_FINISHED then diverge
    else pure asyncResult
  | fuel + 1, asyncResult, counter =>
    if asyncResult ≠ VSS_S_ASYNC_CANCELLED ∧ asyncResult ≠ VSS_S_ASYNC_FINISHED then do
      let r ← call (.QueryStatus pStatus)
      throw_on_fail (LFL 122 ++ "Unable to query vss async status") (r.hr != S_OK)
      let _r ← call (.Sleep sleepMS)
      if counter % 4 = 0 then
        let _r ← call (.Heartbeat (counter / 4))
      CheckStatusAndCancellation.loop pStatus sleepMS fuel r.async (counter + 1)
    else pure asyncResult

/-- The method `VSSWrapper::CheckStatusAndCancellation(pStatus, sleepMS)`; every caller
leaves `sleepMS` at its default of 250. -/
def CheckStatusAndCancellation (fuel : Nat) (pStatus : AsyncOp) (sleepMS : Nat) :
    Proc Unit := do
  let asyncResult ← CheckStatusAndCancellation.loop pStatus sleepMS fuel E_FAIL 0
  throw_on_fail (LFL 129 ++ "Operation was cancelled.") (asyncResult == VSS_S_ASYNC_CANCELLED)

/-- The loop `for (UINT i = 0; i < writerCount; i++)` of `VerifyWriterStatus`,
with `remaining = writerCount - i`. -/
def VerifyWriterStatus.loop : Nat → Nat → Proc Unit
  | 0, _ => pure ()
  | remaining + 1, i => do
    let r ← call (.GetWriterStatus i)
    throw_on_fail (LFL 170 ++ "GetWriterStatus failure") (r.hr != S_OK)
    VerifyWriterStatus.loop remaining (i + 1)

/-- The function `VSSWrapper::VerifyWriterStatus`. -/
def VerifyWriterStatus (fuel : Nat) : Proc Unit := do
  let r ← call .GatherWriterStatus
  throw_on_fail (LFL 143 ++ "GatherWriterStatus failure") (r.hr != S_OK)
  CheckStatusAndCancellation fuel .GatherWriterStatus 250
  let r ← call .GetWriterStatusCount
  throw_on_fail (LFL 150 ++ "GetWriterStatusCount failure") (r.hr != S_OK)
  let writerCount := r.count
  VerifyWriterStatus.loop writerCount 0
  let r ← call .FreeWriterStatus
  throw_on_fail (LFL 179 ++ "FreeWriterStatus failure") (r.hr != S_OK)

/-- The normalisation `if (p.back() != '\\') p += '\\'` of `doCopy` (for the empty
path, where `back()` is undefined in C++, the model appends the separator). -/
def withSeparator (p : String) : String :=
  if p.back ≠ Char.ofNat 92 then p.push (Char.ofNat 92) else p

/-- The function `VSSWrapper::doCopy`. `CreateFile` stands for the construction of
`uw32::FileHandle fh(ipVolume)`, whose response field `ok` is `(bool)fh`; the
closing of the handle by the destructor of `fh` is not traced. -/
def doCopy (ipVolume : String) (opPath : String) : Proc Unit := do
  let fh ← call (.CreateFile ipVolume)
  if fh.ok then
    let success ← call .DeviceIoControl
    throw_on_fail (LFL 211 ++ "::DeviceIoControl failure") (!success.ok)
    let _r ← call .GetFileSizeEx
  let ipFQN := withSeparator ipVolume ++ "sg.zip"
  let opFQN := withSeparator opPath ++ "sg.zip"
  let ok ← call (.CopyFile ipFQN opFQN)
  throw_on_fail (LFL 242 ++ "::CopyFile failure") (!ok.ok)

/-- The constructor of `vss::ComInit`. -/
def ComInit.ctor : Proc Unit := do
  let result ← call .CoInitializeEx
  throw_if (result.hr != S_OK) (LFL 57)

/-- The destructor of `vss::ComInit` (of an object whose constructor completed). -/
def ComInit.dtor : Proc Unit := do
  let _r ← call Call.CoUninitialize

/-- The destructor of the non-null `CComPtr<IVssBackupComponents> pBackupComponents`. -/
def CComPtr.dtor : Proc Unit := do
  let _r ← call .Release

/-- Steps [2] of `doSnapshotCopy`: `CreateVssBackupComponents` and its two checks. -/
def doSnapshotCopy.create : Proc Unit := do
  let result ← call .CreateVssBackupComponents
  throw_on_fail (LFL 276 ++ "Failed to create the VSS backup components as access was denied. Is this being run with elevated permissions?") (result.hr == E_ACCESSDENIED)
  throw_on_fail (LFL 277 ++ "CreateVssBackupComponents") (result.hr != S_OK)

/-- Steps [3] to the end of `doSnapshotCopy`, with `pBackupComponents` acquired. -/
def doSnapshotCopy.session (fuel : Nat) (ipVolume : String) (opPath : String) : Proc Unit := do
  -- [3] InitializeForBackup
  let result ← call .InitializeForBackup
  throw_on_fail (LFL 282 ++ "InitializeForBackup") (result.hr != S_OK)
  -- [4] gather writer metadata
  let result ← call .GatherWriterMetadata
  throw_on_fail (LFL 288 ++ "GatherWriterMetadata") (result.hr != S_OK)
  CheckStatusAndCancellation fuel .GatherWriterMetadata 250
  -- [5] snapshot preparation
  let result ← call .SetBackupState
  throw_on_fail (LFL 295 ++ "SetBackupState") (result.hr != S_OK)
  -- [6] start a snapshot
  let result ← call .StartSnapshotSet
  throw_on_fail (LFL 302 ++ "StartSnapshotSet") (result.hr != S_OK)
  -- [7] add the volume
  let result ← call (.AddToSnapshotSet ipVolume)
  throw_on_fail (LFL 312 ++ "AddToSnapshotSet") (result.hr != S_OK)
  let snapshotId := result.id
  -- [8] notify writers of impending backup
  let result ← call .PrepareForBackup
  throw_on_fail (LFL 320 ++ "PrepareForBackup") (result.hr != S_OK)
  CheckStatusAndCancellation fuel .PrepareForBackup 250
  VerifyWriterStatus fuel
  -- [9] request shadow copy
  let result ← call .DoSnapshotSet
  throw_on_fail (LFL 337 ++ "DoSnapshotSet") (result.hr != S_OK)
  CheckStatusAndCancellation fuel .DoSnapshotSet 250
  VerifyWriterStatus fuel
  -- [10] GetSnapshotProperties to get device to copy from
  let result ← call (.GetSnapshotProperties snapshotId)
  throw_on_fail (LFL 351 ++ "GetSnapshotProperties") (result.hr != S_OK)
  let snapshotDeviceObject := result.path
  let result ← call .FreeWriterMetadata
  throw_on_fail (LFL 362 ++ "FreeWriterMetadata") (result.hr != S_OK)
  let _r ← call .VssFreeSnapshotProperties
  -- [11] actually do the copy
  doCopy snapshotDeviceObject opPath
  -- [12] set backup succeeded
  let result ← call .BackupComplete
  throw_on_fail (LFL 383 ++ "BackupComplete") (result.hr != S_OK)
  CheckStatusAndCancellation fuel .BackupComplete 250
  -- final verification of writer status
  VerifyWriterStatus fuel

/-- The function `VSSWrapper::doSnapshotCopy(ipVolume, opPath)`.
The locals with a destructor are, in declaration order, `pBackupComponents`
(a `CComPtr`, released when non-null) and `comInit`; they are destroyed in
reverse order when the scope is left: at the normal end, and on a raised error
when the stack is unwound (`unwind`; the function is declared `throw()`).
The `Release` of the short-lived `CComPtr<IVssAsync>` objects is not traced. -/
def doSnapshotCopy (unwind : Bool) (fuel : Nat) (ipVolume : String) (opPath : String) :
    Proc Unit := do
  -- [1] Initialize COM
  ComInit.ctor
  -- [2]
  onThrow unwind ComInit.dtor doSnapshotCopy.create
  onThrow unwind (do ComInit.dtor; CComPtr.dtor) (doSnapshotCopy.session fuel ipVolume opPath)
  ComInit.dtor
  CComPtr.dtor

/-! ## Definitions used to state the theorems on the snapshot session -/

/-- The event is a checked call that the platform answered with a failure:
a status other than `S_OK`, a `FALSE` of `DeviceIoControl` or `CopyFile`, or
the cancelled status of a poll. The open and size probes of `doCopy` and the
calls without a status are never failures of the session. -/
def failed (ev : Event) : Bool :=
  match ev.call with
  | .QueryStatus _ => ev.resp.hr != S_OK || ev.resp.async == VSS_S_ASYNC_CANCELLED
  | .DeviceIoControl => !ev.resp.ok
  | .CopyFile _ _ => !ev.resp.ok
  | .Sleep _ => false
  | .Heartbeat _ => false
  | Call.CoUninitialize => false
  | .Release => false
  | .VssFreeSnapshotProperties => false
  | .CreateFile _ => false
  | .GetFileSizeEx => false
  | _ => ev.resp.hr != S_OK

/-- Events that belong to no phase of their own: the sleep and heartbeat of a
polling loop and the destructors run when the scope is left. -/
def Call.isPassive : Call → Bool
  | .Sleep _ => true
  | .Heartbeat _ => true
  | Call.CoUninitialize => true
  | .Release => true
  | _ => false

/-- After the first failed event only passive events follow. -/
def FailFinal : List Event → Bool
  | [] => true
  | ev :: rest => if failed ev then rest.all (fun x => x.call.isPassive) else FailFinal rest

/-- The property of a run (result and events): it raised exactly when one of
its events failed, and then only passive events follow that event. -/
def Post {α : Type} (r : Res α) (e : List Event) : Prop :=
  (∀ m, r = .thrown m → e.any failed = true ∧ FailFinal e = true) ∧
    ((∀ m, r ≠ .thrown m) → e.any failed = false)

/-- The invariant of a procedure: every run has the property `Post`. -/
def Inv {α : Type} (p : Proc α) : Prop := ∀ s n, Post (p s n).res (p s n).events

/-- The property of a run of the polling loop: as `Post`, where returning the
cancelled status counts as the failure it is about to become. -/
def LoopPost (r : Res HRESULT) (e : List Event) : Prop :=
  (∀ a, r = .ok a → a ≠ VSS_S_ASYNC_CANCELLED → e.any failed = false) ∧
  (r = .diverged → e.any failed = false) ∧
  ((r = .ok VSS_S_ASYNC_CANCELLED ∨ ∃ m, r = .thrown m) →
    e.any failed = true ∧ FailFinal e = true)

/-- Run a monitor (a partial transition function on events) over a trace:
the state reached, or `none` when some event is rejected. -/
def runMon {σ : Type} (step : σ → Event → Option σ) : σ → List Event → Option σ
  | st, [] => some st
  | st, ev :: rest =>
    match step st ev with
    | some st' => runMon step st' rest
    | none => none

/-- The procedure `p`, started in monitor state `st`, issues only accepted
events, and when it returns `a` the monitor is in state `st' a`. -/
def Mon {σ α : Type} (step : σ → Event → Option σ) (p : Proc α) (st : σ) (st' : α → σ) : Prop :=
  ∀ s n, (∀ a, (p s n).res = .ok a → runMon step st (p s n).events = some (st' a)) ∧
    (runMon step st (p s n).events).isSome = true

/-- The phases of a snapshot session, named after the call that starts them. -/
inductive Phase where
  | CoInitializeEx
  | CreateVssBackupComponents
  | InitializeForBackup
  | GatherWriterMetadata
  | SetBackupState
  | StartSnapshotSet
  | AddToSnapshotSet
  | PrepareForBackup
  | WriterVerification
  | DoSnapshotSet
  | GetSnapshotProperties
  | DataCopy
  | BackupComplete
deriving DecidableEq, Repr

/-- The phase a call starts, if it starts one: `GatherWriterStatus` starts a
writer verification, `CopyFile` is the data copy. -/
def Call.phase : Call → Option Phase
  | .CoInitializeEx => some .CoInitializeEx
  | .CreateVssBackupComponents => some .CreateVssBackupComponents
  | .InitializeForBackup => some .InitializeForBackup
  | .GatherWriterMetadata => some .GatherWriterMetadata
  | .SetBackupState => some .SetBackupState
  | .StartSnapshotSet => some .StartSnapshotSet
  | .AddToSnapshotSet _ => some .AddToSnapshotSet
  | .PrepareForBackup => some .PrepareForBackup
  | .GatherWriterStatus => some .WriterVerification
  | .DoSnapshotSet => some .DoSnapshotSet
  | .GetSnapshotProperties _ => some .GetSnapshotProperties
  | .CopyFile _ _ => some .DataCopy
  | .BackupComplete => some .BackupComplete
  | _ => none

/-- The phase whose asynchronous operation a poll waits for. -/
def AsyncOp.phase : AsyncOp → Phase
  | .GatherWriterMetadata => .GatherWriterMetadata
  | .PrepareForBackup => .PrepareForBackup
  | .GatherWriterStatus => .WriterVerification
  | .DoSnapshotSet => .DoSnapshotSet
  | .BackupComplete => .BackupComplete

/-- The phases started by a trace, in order. -/
def phases (e : List Event) : List Phase := e.filterMap (fun ev => ev.call.phase)

/-- The state machine of the specification: the fifteen phases in order. -/
def specPhases : List Phase :=
  [.CoInitializeEx, .CreateVssBackupComponents, .InitializeForBackup, .GatherWriterMetadata,
   .SetBackupState, .StartSnapshotSet, .AddToSnapshotSet, .PrepareForBackup, .WriterVerification,
   .DoSnapshotSet, .WriterVerification, .GetSnapshotProperties, .DataCopy, .BackupComplete,
   .WriterVerification]

/-- The monitor of the phase order; its state is the number of phases started.
A call that starts a phase must start the next phase of `specPhases`; a poll
must wait for the operation of the phase started last. -/
def phaseStep (k : Nat) (ev : Event) : Option Nat :=
  match ev.call.phase with
  | some ph => if specPhases[k]? = some ph then some (k + 1) else none
  | none =>
    match ev.call with
    | .QueryStatus pStatus =>
      if 0 < k ∧ specPhases[k - 1]? = some pStatus.phase then some k else none
    | _ => some k

/-- The phases that wait for an asynchronous operation: after the call that
starts the phase, `CheckStatusAndCancellation` polls the operation until it
reports a final status. A writer verification polls its `GatherWriterStatus`. -/
def Phase.isPolled : Phase → Bool
  | .GatherWriterMetadata => true
  | .PrepareForBackup => true
  | .WriterVerification => true
  | .DoSnapshotSet => true
  | .BackupComplete => true
  | _ => false

/-- The monitor of the phase order with the polls. Its state is the number of
phases started and whether the phase started last is complete: a phase that is
not polled is complete at once, a polled phase once a poll of its operation
reported the finished status. A call that starts a phase must start the next
phase of `specPhases` and the phase before it must be complete; a poll must
wait for the operation of the phase started last, which must not be complete
yet. -/
def pollStep (st : Nat × Bool) (ev : Event) : Option (Nat × Bool) :=
  match ev.call.phase with
  | some ph =>
    if specPhases[st.1]? = some ph ∧ st.2 = true then some (st.1 + 1, !ph.isPolled) else none
  | none =>
    match ev.call with
    | .QueryStatus pStatus =>
      if 0 < st.1 ∧ specPhases[st.1 - 1]? = some pStatus.phase ∧ st.2 = false then
        some (st.1, ev.resp.async == VSS_S_ASYNC_FINISHED)
      else none
    | _ => some st

/-- The operations polled by a trace, in order. -/
def polls (e : List Event) : List AsyncOp :=
  e.filterMap (fun ev => match ev.call with
    | .QueryStatus pStatus => some pStatus
    | _ => none)

/-- The procedure `p`, started in monitor state `st`, issues only accepted events. -/
def Acc {σ α : Type} (step : σ → Event → Option σ) (p : Proc α) (st : σ) : Prop :=
  ∀ s n, (runMon step st (p s n).events).isSome = true

/-- The monitor of the data flow into the copy. Its state holds the response
to `AddToSnapshotSet` and the response to `GetSnapshotProperties`, once seen.
`AddToSnapshotSet` must name the caller's volume, `GetSnapshotProperties` must
ask for the snapshot id `AddToSnapshotSet` produced, and the data copy must
open the device path `GetSnapshotProperties` returned and copy `sg.zip` from
beneath it to beneath the destination. -/
def keyStep (ipVolume opPath : String) (st : Option Response × Option Response) (ev : Event) :
    Option (Option Response × Option Response) :=
  match ev.call with
  | .AddToSnapshotSet v => if v = ipVolume ∧ st.1 = none then some (some ev.resp, st.2) else none
  | .GetSnapshotProperties id =>
    if st.1.map (fun a => a.id) = some id then some (st.1, some ev.resp) else none
  | .CreateFile path => if st.2.map (fun g => g.path) = some path then some st else none
  | .CopyFile src dst =>
    if st.2.map (fun g => withSeparator g.path ++ "sg.zip") = some src ∧
        dst = withSeparator opPath ++ "sg.zip" then some st else none
  | _ => some st

/-- What a state of the data-flow monitor records about the events seen. -/
def KeySound (ipVolume : String) (st : Option Response × Option Response) (e : List Event) :
    Prop :=
  (∀ a, st.1 = some a → (⟨.AddToSnapshotSet ipVolume, a⟩ : Event) ∈ e) ∧
  (∀ g, st.2 = some g → ∃ a, (⟨.AddToSnapshotSet ipVolume, a⟩ : Event) ∈ e ∧
    (⟨.GetSnapshotProperties a.id, g⟩ : Event) ∈ e)

/-- Forget the volume argument of `AddToSnapshotSet`. -/
def eraseVolume (ev : Event) : Event :=
  match ev.call with
  | .AddToSnapshotSet _ => ⟨.AddToSnapshotSet "", ev.resp⟩
  | _ => ev

/-- The source paths of the `CopyFile` calls of a trace. -/
def copySources (e : List Event) : List String :=
  e.filterMap (fun ev => match ev.call with
    | .CopyFile src _ => some src
    | _ => none)

/-- Two procedures run alike up to the volume argument of `AddToSnapshotSet`. -/
def Sim {α : Type} (p q : Proc α) : Prop :=
  ∀ s n, (p s n).res = (q s n).res ∧
    (p s n).events.map eraseVolume = (q s n).events.map eraseVolume ∧
    (p s n).next = (q s n).next

/-- The procedure does not run out of fuel on a platform whose polls answer
with a final status at once. -/
def NoDiv {α : Type} (p : Proc α) : Prop :=
  ∀ s n, (∀ i, (s i).async = VSS_S_ASYNC_FINISHED ∨ (s i).async = VSS_S_ASYNC_CANCELLED) →
    (p s n).res ≠ .diverged

/-- A response reporting success in every field: `S_OK`, `TRUE`, the finished
status, no writers, and a snapshot device path. -/
def okResponse : Response :=
  { hr := S_OK, ok := true, async := VSS_S_ASYNC_FINISHED, count := 0, id := GUID.zero,
    path := "\\\\?\\GLOBALROOT\\Device\\HarddiskVolumeShadowCopy1", state := 0, failure := 0 }

/-- The platform on which every call succeeds and every poll is finished at once. -/
def allSucceed : Script := fun _ => okResponse

/-- The platform on which every call succeeds, except that event `k` carries
the cancelled status. -/
def cancelAt (k : Nat) : Script := fun i =>
  if i = k then { okResponse with async := VSS_S_ASYNC_CANCELLED } else okResponse

/-- The files copied by a sequence of events: source and destination of every
`CopyFile`, in order. -/
def copiedFiles (events : List Event) : List (String × String) :=
  events.filterMap (fun ev =>
    match ev.call with
    | .CopyFile src dst => some (src, dst)
    | _ => none)

/-- The platform on which every call succeeds, except that event `k` reports
failure (`E_FAIL`, `FALSE`). -/
def failAt (k : Nat) : Script := fun i =>
  if i = k then { okResponse with hr := E_FAIL, ok := false } else okResponse

/-- The volumes added to the snapshot set by a sequence of events: the argument
of every `AddToSnapshotSet`, in order. -/
def addedVolumes (events : List Event) : List String :=
  events.filterMap (fun ev =>
    match ev.call with
    | .AddToSnapshotSet volume => some volume
    | _ => none)

/-- The message of the fatal error that the code raises when the event `ev`
fails: the text of the `throw_on_fail` (or `throw_if`) that checks the call. -/
def failureMessage (ev : Event) : String :=
  match ev.call with
  | .CoInitializeEx => LFL 57
  | .CreateVssBackupComponents =>
    if ev.resp.hr == E_ACCESSDENIED then
      LFL 276 ++ "Failed to create the VSS backup components as access was denied. Is this being run with elevated permissions?"
    else LFL 277 ++ "CreateVssBackupComponents"
  | .QueryStatus _ =>
    if ev.resp.hr != S_OK then LFL 122 ++ "Unable to query vss async status"
    else LFL 129 ++ "Operation was cancelled."
  | .InitializeForBackup => LFL 282 ++ "InitializeForBackup"
  | .GatherWriterMetadata => LFL 288 ++ "GatherWriterMetadata"
  | .SetBackupState => LFL 295 ++ "SetBackupState"
  | .StartSnapshotSet => LFL 302 ++ "StartSnapshotSet"
  | .AddToSnapshotSet _ => LFL 312 ++ "AddToSnapshotSet"
  | .PrepareForBackup => LFL 320 ++ "PrepareForBackup"
  | .DoSnapshotSet => LFL 337 ++ "DoSnapshotSet"
  | .GetSnapshotProperties _ => LFL 351 ++ "GetSnapshotProperties"
  | .FreeWriterMetadata => LFL 362 ++ "FreeWriterMetadata"
  | .BackupComplete => LFL 383 ++ "BackupComplete"
  | .GatherWriterStatus => LFL 143 ++ "GatherWriterStatus failure"
  | .GetWriterStatusCount => LFL 150 ++ "GetWriterStatusCount failure"
  | .GetWriterStatus _ => LFL 170 ++ "GetWriterStatus failure"
  | .FreeWriterStatus => LFL 179 ++ "FreeWriterStatus failure"
  | .DeviceIoControl => LFL 211 ++ "::DeviceIoControl failure"
  | .CopyFile _ _ => LFL 242 ++ "::CopyFile failure"
  | _ => ""

/-- A run that raised has a failed event whose message is the one raised. -/
def Blamed {α : Type} (r : Res α) (e : List Event) : Prop :=
  ∀ m, r = .thrown m → ∃ ev ∈ e, failed ev = true ∧ m = failureMessage ev

/-- Every run of the procedure that raised has a failed event whose message is
the one raised. -/
def Blames {α : Type} (p : Proc α) : Prop := ∀ s n, Blamed (p s n).res (p s n).events

/-- The property of a run of the polling loop: as `Blamed`, where returning
the cancelled status counts as the failure it is about to become. -/
def LoopBlamed (r : Res HRESULT) (e : List Event) : Prop :=
  Blamed r e ∧
  (r = .ok VSS_S_ASYNC_CANCELLED →
    ∃ ev ∈ e, failed ev = true ∧ LFL 129 ++ "Operation was cancelled." = failureMessage ev)

/-- The calls of `doSnapshotCopy.session` that start a phase and are checked directly. -/
def phaseCalls (ipVolume : String) (snapshotId : GUID) : List Call :=
  [.InitializeForBackup, .GatherWriterMetadata, .SetBackupState, .StartSnapshotSet,
   .AddToSnapshotSet ipVolume, .PrepareForBackup, .DoSnapshotSet,
   .GetSnapshotProperties snapshotId, .BackupComplete]

/-- A response without what a writer reports about itself: the writer state
and the writer failure code are blanked. -/
def Response.withoutWriter (r : Response) : Response := { r with state := 0, failure := 0 }

/-- An event without what a writer reports about itself. -/
def Event.withoutWriter (ev : Event) : Event := ⟨ev.call, ev.resp.withoutWriter⟩

/-- Two platforms that differ at most in the writer states and writer failure
codes they report. -/
def SameButWriters (s s' : Script) : Prop := ∀ i, (s i).withoutWriter = (s' i).withoutWriter

/-- Two runs end alike (they return values related by `R`, or raise the same
message, or both run out of fuel), issue the same events up to the writer
states and failure codes in the responses, and stop at the same event index. -/
def Alike {α : Type} (R : α → α → Prop) (x y : Run α) : Prop :=
  (match x.res, y.res with
    | .ok a, .ok b => R a b
    | .thrown m, .thrown m' => m = m'
    | .diverged, .diverged => True
    | _, _ => False) ∧
  x.events.map Event.withoutWriter = y.events.map Event.withoutWriter ∧
  x.next = y.next

/-- The procedures `p` and `q` run alike on platforms that differ at most in
the writer states and writer failure codes. -/
def Blind {α : Type} (R : α → α → Prop) (p q : Proc α) : Prop :=
  ∀ s s' n, SameButWriters s s' → Alike R (p s n) (q s' n)

/-- The monitor that accepts every event but the two destructor calls,
`CoUninitialize` and `Release`. -/
def dtorStep (_st : Unit) (ev : Event) : Option Unit :=
  match ev.call with
  | Call.CoUninitialize => none
  | .Release => none
  | _ => some ()

/-- The number of `CoUninitialize` calls among the events. -/
def uninitCount (e : List Event) : Nat :=
  e.countP (fun ev => match ev.call with
    | Call.CoUninitialize => true
    | _ => false)

/-- The number of `Release` calls on `pBackupComponents` among the events. -/
def releaseCount (e : List Event) : Nat :=
  e.countP (fun ev => match ev.call with
    | .Release => true
    | _ => false)

/-- The calls of the poll with index `k` of `CheckStatusAndCancellation` when
its query does not fail: the query, the sleep, and on every fourth poll the
heartbeat that reports `k / 4` seconds. -/
def pollCalls (pStatus : AsyncOp) (ms k : Nat) : List Call :=
  [Call.QueryStatus pStatus, Call.Sleep ms] ++ if k % 4 = 0 then [Call.Heartbeat (k / 4)] else []

/-- The index in the session of the query that comes `k` polls after the poll
with index `c`, whose query has the index `n`: a poll takes two events, and
three when it emits the heartbeat. -/
def queryIndex : Nat → Nat → Nat → Nat
  | _, n, 0 => n
  | c, n, k + 1 => queryIndex (c + 1) (if c % 4 = 0 then n + 1 + 1 + 1 else n + 1 + 1) k

/-- The platform on which every call succeeds, the polls before event `k`
answer with the pending status and the polls from event `k` on with the
finished status. -/
def pendingUntil (k : Nat) : Script := fun i =>
  if i < k then { okResponse with async := VSS_S_ASYNC_PENDING } else okResponse

end vss

/-! # Theorems -/

namespace wde2

/-! ### `std::map` -/

theorem StdMap.mem_assign {κ α : Type} [LinearOrder κ] {k : κ} {v : α} {m : StdMap κ α}
    {x : κ × α} (h : x ∈ StdMap.assign k v m) : x = (k, v) ∨ x ∈ m := by
  induction m with
  | nil =>
    simp only [StdMap.assign, List.mem_singleton] at h
    exact Or.inl h
  | cons y rest ih =>
    rcases y with ⟨k', v'⟩
    simp only [StdMap.assign] at h
    split_ifs at h with h1 h2
    · rcases List.mem_cons.1 h with h | h
      · exact Or.inl h
      · exact Or.inr h
    · rcases List.mem_cons.1 h with h | h
      · exact Or.inl h
      · exact Or.inr (List.mem_cons_of_mem _ h)
    · rcases List.mem_cons.1 h with h | h
      · exact Or.inr (h ▸ List.mem_cons_self _ _)
      · rcases ih h with h | h
        · exact Or.inl h
        · exact Or.inr (List.mem_cons_of_mem _ h)

theorem StdMap.assign_comm {α : Type} {k1 k2 : Int} (v1 v2 : α)
    (hne : k1 ≠ k2) (m : StdMap Int α) :
    StdMap.assign k1 v1 (StdMap.assign k2 v2 m) = StdMap.assign k2 v2 (StdMap.assign k1 v1 m) := by
  induction m with
  | nil =>
    simp only [StdMap.assign]
    split_ifs <;> first | rfl | omega
  | cons y rest ih =>
    rcases y with ⟨k', v'⟩
    simp only [StdMap.assign]
    split_ifs <;> simp only [StdMap.assign] <;> split_ifs <;>
      first | rfl | omega | (rw [ih])

/-! ### The partition loop -/

/-- The identifier `BuildDeviceList` selects for the entry at position `iPart`
(its local `guidVolume`): by the style tag of the disk. -/
theorem partitionStep_mem {fmt : GUID → String} {L : DRIVE_LAYOUT_INFORMATION_EX}
    {m : StdMap Nat PartitionInfo} {i : Nat} {x : Nat × PartitionInfo}
    (h : x ∈ partitionStep fmt L m i) :
    x ∈ m ∨ (x.1 = i ∧ 0 < (L.PartitionEntry i).PartitionLength ∧
      x.2 = ⟨volumeKey fmt (BuildDeviceList.guidVolume L (L.PartitionEntry i)), L.PartitionEntry i⟩) := by
  unfold partitionStep at h
  dsimp only at h
  by_cases hlen : (L.PartitionEntry i).PartitionLength > 0
  · rw [if_pos hlen] at h
    rcases StdMap.mem_assign h with h | h
    · right
      subst h
      exact ⟨rfl, hlen, rfl⟩
    · exact Or.inl h
  · rw [if_neg hlen] at h
    exact Or.inl h

theorem foldl_partitionStep_mem {fmt : GUID → String} {L : DRIVE_LAYOUT_INFORMATION_EX} :
    ∀ (l : List Nat) (m : StdMap Nat PartitionInfo) (x : Nat × PartitionInfo),
    x ∈ l.foldl (partitionStep fmt L) m →
    x ∈ m ∨ (x.1 ∈ l ∧ 0 < (L.PartitionEntry x.1).PartitionLength ∧
      x.2 = ⟨volumeKey fmt (BuildDeviceList.guidVolume L (L.PartitionEntry x.1)),
        L.PartitionEntry x.1⟩) := by
  intro l
  induction l with
  | nil => intro m x h; exact Or.inl h
  | cons i rest ih =>
    intro m x h
    simp only [List.foldl_cons] at h
    rcases ih _ x h with h | ⟨h1, h2⟩
    · rcases partitionStep_mem h with h | ⟨h1, h2, h3⟩
      · exact Or.inl h
      · right
        subst h1
        exact ⟨List.mem_cons_self _ _, h2, h3⟩
    · exact Or.inr ⟨List.mem_cons_of_mem _ h1, h2⟩

/-- Every stored partition: its key is the 0-based array position it was
decoded from, below `min(PartitionCount, 128)`; the entry there has positive
length; and the record holds that entry and the volume path of the identifier
selected by the disk's style tag. -/
theorem buildPartitions_mem {fmt : GUID → String} {L : DRIVE_LAYOUT_INFORMATION_EX}
    {x : Nat × PartitionInfo} (h : x ∈ buildPartitions fmt L) :
    x.1 < min L.PartitionCount 128 ∧ 0 < (L.PartitionEntry x.1).PartitionLength ∧
      x.2 = ⟨volumeKey fmt (BuildDeviceList.guidVolume L (L.PartitionEntry x.1)),
        L.PartitionEntry x.1⟩ := by
  unfold buildPartitions at h
  rcases foldl_partitionStep_mem _ _ x h with h | ⟨h1, h2⟩
  · cases h
  · exact ⟨List.mem_range.1 h1, h2⟩

theorem buildPartitions_congr {fmt : GUID → String} {L L' : DRIVE_LAYOUT_INFORMATION_EX}
    (hs : L.PartitionStyle = L'.PartitionStyle) (hc : L.PartitionCount = L'.PartitionCount)
    (he : ∀ i, i < 128 → L.PartitionEntry i = L'.PartitionEntry i) :
    buildPartitions fmt L = buildPartitions fmt L' := by
  unfold buildPartitions
  rw [hc]
  have key : ∀ (l : List Nat) (m : StdMap Nat PartitionInfo), (∀ i ∈ l, i < 128) →
      l.foldl (partitionStep fmt L) m = l.foldl (partitionStep fmt L') m := by
    intro l
    induction l with
    | nil => intro m _; rfl
    | cons i rest ih =>
      intro m hl
      simp only [List.foldl_cons]
      have hi : partitionStep fmt L m i = partitionStep fmt L' m i := by
        unfold partitionStep BuildDeviceList.guidVolume
        rw [he i (hl i (List.mem_cons_self _ _)), hs]
      rw [hi]
      exact ih _ (fun j hj => hl j (List.mem_cons_of_mem _ hj))
  apply key
  intro i hi
  have := List.mem_range.1 hi
  omega

/-! ### The device loop -/

theorem deviceLoop_cons_ok {fmt : GUID → String} {d : Device} {rest : List Device}
    {vdi : StdMap Int DiskInfo} (h : d.numberOk = true) :
    deviceLoop fmt (d :: rest) vdi =
      deviceLoop fmt rest
        (StdMap.assign (toInt32 d.StorageDeviceNumber.DeviceNumber) (buildDiskInfo fmt d) vdi) := by
  simp [deviceLoop, throw_if, h, buildDiskInfo]
  rfl

theorem deviceLoop_cons_fail {fmt : GUID → String} {d : Device} {rest : List Device}
    {vdi : StdMap Int DiskInfo} (h : d.numberOk = false) :
    deviceLoop fmt (d :: rest) vdi = .error ("DeviceIoControl:" ++ d.lastError) := by
  simp [deviceLoop, throw_if, h]
  rfl

/-- The map the device loop builds when every device-number query succeeds. -/
theorem deviceLoop_ok {fmt : GUID → String} : ∀ (devices : List Device) (vdi : StdMap Int DiskInfo),
    (∀ d ∈ devices, d.numberOk = true) →
    deviceLoop fmt devices vdi = .ok (devices.foldl (fun m d =>
      StdMap.assign (toInt32 d.StorageDeviceNumber.DeviceNumber) (buildDiskInfo fmt d) m) vdi) := by
  intro devices
  induction devices with
  | nil => intro vdi _; rfl
  | cons d rest ih =>
    intro vdi h
    rw [deviceLoop_cons_ok (h d (List.mem_cons_self _ _)), List.foldl_cons]
    exact ih _ (fun x hx => h x (List.mem_cons_of_mem _ hx))

theorem deviceLoop_ok_inv {fmt : GUID → String} : ∀ (devices : List Device)
    (vdi m : StdMap Int DiskInfo), deviceLoop fmt devices vdi = .ok m →
    ∀ d ∈ devices, d.numberOk = true := by
  intro devices
  induction devices with
  | nil => intro vdi m _ d hd; cases hd
  | cons d rest ih =>
    intro vdi m h x hx
    cases hok : d.numberOk with
    | false => rw [deviceLoop_cons_fail hok] at h; cases h
    | true =>
      rw [deviceLoop_cons_ok hok] at h
      rcases List.mem_cons.1 hx with hx | hx
      · rw [hx]; exact hok
      · exact ih _ m h x hx

theorem foldl_assign_mem {fmt : GUID → String} : ∀ (devices : List Device)
    (vdi : StdMap Int DiskInfo) (x : Int × DiskInfo),
    x ∈ devices.foldl (fun m d =>
      StdMap.assign (toInt32 d.StorageDeviceNumber.DeviceNumber) (buildDiskInfo fmt d) m) vdi →
    x ∈ vdi ∨ ∃ d ∈ devices,
      x = (toInt32 d.StorageDeviceNumber.DeviceNumber, buildDiskInfo fmt d) := by
  intro devices
  induction devices with
  | nil => intro vdi x h; exact Or.inl h
  | cons d rest ih =>
    intro vdi x h
    rw [List.foldl_cons] at h
    rcases ih _ x h with h | ⟨d', hd', hx⟩
    · rcases StdMap.mem_assign h with h | h
      · exact Or.inr ⟨d, List.mem_cons_self _ _, h⟩
      · exact Or.inl h
    · exact Or.inr ⟨d', List.mem_cons_of_mem _ hd', hx⟩

/-- Every record of a returned mapping was built from one of the enumerated
devices and is stored under the `int` conversion of that device's number. -/
theorem enumerate_mem {fmt : GUID → String} {devices : List Device} {m : StdMap Int DiskInfo}
    (h : enumerate fmt devices = .ok m) {x : Int × DiskInfo} (hx : x ∈ m) :
    ∃ d ∈ devices, d.numberOk = true ∧
      x = (toInt32 d.StorageDeviceNumber.DeviceNumber, buildDiskInfo fmt d) := by
  unfold enumerate BuildDeviceList at h
  have hall := deviceLoop_ok_inv devices [] m h
  rw [deviceLoop_ok devices [] hall] at h
  simp only [Except.ok.injEq] at h
  subst h
  rcases foldl_assign_mem devices [] x hx with h | ⟨d, hd, hx⟩
  · cases h
  · exact ⟨d, hd, hall d hd, hx⟩

theorem toInt32_injOn {a b : Nat} (ha : a < 2 ^ 32) (hb : b < 2 ^ 32)
    (h : toInt32 a = toInt32 b) : a = b := by
  unfold toInt32 at h
  rw [Nat.mod_eq_of_lt ha, Nat.mod_eq_of_lt hb] at h
  split_ifs at h <;> omega

theorem StdMap.key_mem_assign {α : Type} (k : Int) (v : α) (m : StdMap Int α) (k' : Int) :
    k' ∈ (StdMap.assign k v m).map Prod.fst ↔ k' = k ∨ k' ∈ m.map Prod.fst := by
  induction m with
  | nil => simp [StdMap.assign]
  | cons y rest ih =>
    rcases y with ⟨k0, v0⟩
    simp only [StdMap.assign]
    split_ifs with h1 h2
    · simp
    · subst h2
      simp
    · simp only [List.map_cons, List.mem_cons, ih]
      tauto

theorem foldl_assign_key {fmt : GUID → String} : ∀ (devices : List Device)
    (vdi : StdMap Int DiskInfo) (k : Int),
    (k ∈ vdi.map Prod.fst ∨ ∃ d ∈ devices, k = toInt32 d.StorageDeviceNumber.DeviceNumber) →
    k ∈ (devices.foldl (fun m d =>
      StdMap.assign (toInt32 d.StorageDeviceNumber.DeviceNumber) (buildDiskInfo fmt d) m)
        vdi).map Prod.fst := by
  intro devices
  induction devices with
  | nil =>
    intro vdi k h
    rcases h with h | ⟨d, hd, _⟩
    · exact h
    · cases hd
  | cons d rest ih =>
    intro vdi k h
    rw [List.foldl_cons]
    apply ih
    rcases h with h | ⟨d', hd', hk⟩
    · exact Or.inl ((StdMap.key_mem_assign _ _ _ _).2 (Or.inr h))
    · rcases List.mem_cons.1 hd' with h | h
      · subst h
        exact Or.inl ((StdMap.key_mem_assign _ _ _ _).2 (Or.inl hk))
      · exact Or.inr ⟨d', h, hk⟩

/-! ### Theorems on `BuildDeviceList` / `enumerate` -/

/-- C1, counterexample to the claim as stated: of two present devices the
second fails its device-number query; `enumerate` raises and returns no
record, not even that of the first device. -/
theorem enumerate_bad_device_aborts :
    enumerate guidText
      [sampleDevice 0 true (sampleLayout 0 1 (sampleEntry 0 1000 sampleId)),
       sampleDevice 1 false (sampleLayout 0 1 (sampleEntry 0 1000 sampleId))]
      = .error "DeviceIoControl:Access is denied." := by
  rfl

/-- C6: in every record of a mapping returned by `enumerate`, every stored
partition has a length strictly above zero, and it is the entry found at the
array position that is its key; so an entry of length zero (or below) is
stored under no key. -/
theorem enumerate_partition_length_positive (fmt : GUID → String) (devices : List Device)
    (m : StdMap Int DiskInfo) (x : Int × DiskInfo) (p : Nat × PartitionInfo)
    (h : enumerate fmt devices = .ok m) (hx : x ∈ m) (hp : p ∈ x.2.partitions) :
    0 < p.2.piex.PartitionLength ∧
    ∃ d ∈ devices, x.2 = buildDiskInfo fmt d ∧
      p.2.piex = d.DriveLayout.PartitionEntry p.1 ∧
      ∀ i, (d.DriveLayout.PartitionEntry i).PartitionLength ≤ 0 →
        ∀ q ∈ x.2.partitions, q.1 ≠ i := by
  obtain ⟨d, hd, _, hxd⟩ := enumerate_mem h hx
  subst hxd
  have hp' := buildPartitions_mem hp
  refine ⟨?_, d, hd, rfl, ?_, ?_⟩
  · rw [hp'.2.2]; exact hp'.2.1
  · rw [hp'.2.2]
  · intro i hi q hq hqi
    have hq' := buildPartitions_mem hq
    rw [hqi] at hq'
    omega

/-- C6, witness: one MBR disk with one partition of length 1000. -/
theorem enumerate_partition_length_positive_witness :
    0 < (sampleEntry 0 1000 sampleId).PartitionLength ∧
    ∃ d ∈ [sampleDevice 0 true (sampleLayout 0 1 (sampleEntry 0 1000 sampleId))],
      buildDiskInfo guidText
          (sampleDevice 0 true (sampleLayout 0 1 (sampleEntry 0 1000 sampleId)))
        = buildDiskInfo guidText d ∧
      (sampleEntry 0 1000 sampleId) = d.DriveLayout.PartitionEntry 0 ∧
      ∀ i, (d.DriveLayout.PartitionEntry i).PartitionLength ≤ 0 →
        ∀ q ∈ (buildDiskInfo guidText
          (sampleDevice 0 true (sampleLayout 0 1 (sampleEntry 0 1000 sampleId)))).partitions,
          q.1 ≠ i :=
  enumerate_partition_length_positive guidText
    [sampleDevice 0 true (sampleLayout 0 1 (sampleEntry 0 1000 sampleId))]
    [(0, buildDiskInfo guidText
      (sampleDevice 0 true (sampleLayout 0 1 (sampleEntry 0 1000 sampleId))))]
    (0, buildDiskInfo guidText
      (sampleDevice 0 true (sampleLayout 0 1 (sampleEntry 0 1000 sampleId))))
    (0, ⟨volumeKey guidText sampleId, sampleEntry 0 1000 sampleId⟩)
    rfl (List.Mem.head _) (List.Mem.head _)

/-- C7, the code at the failing input: a disk whose layout reports one
partition, of positive length, at array position 0 gets a partitions mapping
with the single key 0 (the 0-based position), not 1. -/
theorem buildPartitions_first_key_is_zero :
    (buildPartitions guidText (sampleLayout 1 1 (sampleEntry 1 1000 sampleId))).map Prod.fst
      = [0] := by
  decide

/-- C8: in every record of a mapping returned by `enumerate`, every key of the
partitions mapping is below 128, whatever partition count the device reported;
and the record does not depend on what lies at array positions 128 and beyond:
a layout that agrees in its header and in the entries at positions below 128
gives the same record. -/
theorem enumerate_partition_keys_bounded (fmt : GUID → String) (devices : List Device)
    (m : StdMap Int DiskInfo) (x : Int × DiskInfo)
    (h : enumerate fmt devices = .ok m) (hx : x ∈ m) :
    (∀ p ∈ x.2.partitions, p.1 < 128) ∧
    ∃ d ∈ devices, x.2 = buildDiskInfo fmt d ∧
      ∀ L : DRIVE_LAYOUT_INFORMATION_EX,
        L.PartitionStyle = d.DriveLayout.PartitionStyle →
        L.PartitionCount = d.DriveLayout.PartitionCount →
        L.Mbr = d.DriveLayout.Mbr → L.Gpt = d.DriveLayout.Gpt →
        (∀ i, i < 128 → L.PartitionEntry i = d.DriveLayout.PartitionEntry i) →
        buildDiskInfo fmt { d with DriveLayout := L } = x.2 := by
  obtain ⟨d, hd, _, hxd⟩ := enumerate_mem h hx
  subst hxd
  refine ⟨?_, d, hd, rfl, ?_⟩
  · intro p hp
    have := (buildPartitions_mem hp).1
    omega
  · intro L hs hc hm hg he
    unfold buildDiskInfo
    have h1 : buildPartitions fmt L = buildPartitions fmt d.DriveLayout :=
      buildPartitions_congr hs hc he
    have h2 : copyLayout L = copyLayout d.DriveLayout := by
      unfold copyLayout
      rw [hs, hc, hm, hg, he 0 (by decide)]
    simp only [h1, h2]

/-- C8, witness: a disk that reports 200 partitions. -/
theorem enumerate_partition_keys_bounded_witness :
    (∀ p ∈ (buildDiskInfo guidText
        (sampleDevice 0 true (sampleLayout 1 200 (sampleEntry 1 1000 sampleId)))).partitions,
      p.1 < 128) ∧
    ∃ d ∈ [sampleDevice 0 true (sampleLayout 1 200 (sampleEntry 1 1000 sampleId))],
      buildDiskInfo guidText
        (sampleDevice 0 true (sampleLayout 1 200 (sampleEntry 1 1000 sampleId)))
        = buildDiskInfo guidText d ∧
      ∀ L : DRIVE_LAYOUT_INFORMATION_EX,
        L.PartitionStyle = d.DriveLayout.PartitionStyle →
        L.PartitionCount = d.DriveLayout.PartitionCount →
        L.Mbr = d.DriveLayout.Mbr → L.Gpt = d.DriveLayout.Gpt →
        (∀ i, i < 128 → L.PartitionEntry i = d.DriveLayout.PartitionEntry i) →
        buildDiskInfo guidText { d with DriveLayout := L }
          = buildDiskInfo guidText
            (sampleDevice 0 true (sampleLayout 1 200 (sampleEntry 1 1000 sampleId))) :=
  enumerate_partition_keys_bounded guidText
    [sampleDevice 0 true (sampleLayout 1 200 (sampleEntry 1 1000 sampleId))]
    [(0, buildDiskInfo guidText
      (sampleDevice 0 true (sampleLayout 1 200 (sampleEntry 1 1000 sampleId))))]
    (0, buildDiskInfo guidText
      (sampleDevice 0 true (sampleLayout 1 200 (sampleEntry 1 1000 sampleId))))
    rfl (List.Mem.head _)

theorem guidVolume_eq_of_style (L : DRIVE_LAYOUT_INFORMATION_EX) (p : PartitionInfo)
    (h : p.piex.PartitionStyle = L.PartitionStyle) :
    BuildDeviceList.guidVolume L p.piex = getDOSNamesFromPartitionInfo.guidVolume p := by
  unfold BuildDeviceList.guidVolume getDOSNamesFromPartitionInfo.guidVolume
  simp only [h]

/-- C9, as the code has it: the `volumeID` of every partition record stored in
a disk record ends with the separator and is the text `\\?\Volume`, the string
form of an identifier, and the separator, where the identifier is
`Mbr.PartitionId` or `Gpt.PartitionId` of the partition's own stored entry
according to the style tag of the layout stored in that same disk record (all
zero when the disk is neither); it can be rebuilt from the stored partition
record alone whenever the record's own style tag equals that of its disk. The
disk record is the one built from an enumerated device, whose layout carries
the same style tag. -/
theorem enumerate_volumeID (fmt : GUID → String) (devices : List Device)
    (m : StdMap Int DiskInfo) (x : Int × DiskInfo) (p : Nat × PartitionInfo)
    (h : enumerate fmt devices = .ok m) (hx : x ∈ m) (hp : p ∈ x.2.partitions) :
    p.2.volumeID.data.getLast? = some (Char.ofNat 92) ∧
    p.2.volumeID = "\\\\?\\Volume" ++ fmt (BuildDeviceList.guidVolume x.2.DriveLayout p.2.piex)
      ++ "\\" ∧
    (x.2.DriveLayout.PartitionStyle = PARTITION_STYLE_MBR →
      p.2.volumeID = "\\\\?\\Volume" ++ fmt p.2.piex.Mbr.PartitionId ++ "\\") ∧
    (x.2.DriveLayout.PartitionStyle = PARTITION_STYLE_GPT →
      p.2.volumeID = "\\\\?\\Volume" ++ fmt p.2.piex.Gpt.PartitionId ++ "\\") ∧
    (x.2.DriveLayout.PartitionStyle ≠ PARTITION_STYLE_MBR →
      x.2.DriveLayout.PartitionStyle ≠ PARTITION_STYLE_GPT →
      p.2.volumeID = "\\\\?\\Volume" ++ fmt GUID.zero ++ "\\") ∧
    (p.2.piex.PartitionStyle = x.2.DriveLayout.PartitionStyle →
      p.2.volumeID = "\\\\?\\Volume" ++ fmt (getDOSNamesFromPartitionInfo.guidVolume p.2)
        ++ "\\") ∧
    ∃ d ∈ devices,
      x = (toInt32 d.StorageDeviceNumber.DeviceNumber, buildDiskInfo fmt d) ∧
      x.2.DriveLayout.PartitionStyle = d.DriveLayout.PartitionStyle ∧
      p.2.volumeID = "\\\\?\\Volume" ++ fmt (BuildDeviceList.guidVolume d.DriveLayout p.2.piex)
        ++ "\\" ∧
      (p.2.piex.PartitionStyle = d.DriveLayout.PartitionStyle →
        p.2.volumeID = "\\\\?\\Volume" ++ fmt (getDOSNamesFromPartitionInfo.guidVolume p.2)
          ++ "\\") := by
  obtain ⟨d, hd, _, hxd⟩ := enumerate_mem h hx
  subst hxd
  have hp' := (buildPartitions_mem hp).2.2
  have hs : (buildDiskInfo fmt d).DriveLayout.PartitionStyle = d.DriveLayout.PartitionStyle := rfl
  have hg : BuildDeviceList.guidVolume (buildDiskInfo fmt d).DriveLayout p.2.piex
      = BuildDeviceList.guidVolume d.DriveLayout p.2.piex := rfl
  have hv : p.2.volumeID
      = "\\\\?\\Volume" ++ fmt (BuildDeviceList.guidVolume d.DriveLayout p.2.piex) ++ "\\" := by
    rw [hp']
    rfl
  dsimp only
  rw [hg, hs]
  refine ⟨?_, hv, ?_, ?_, ?_, ?_, d, hd, rfl, rfl, hv, ?_⟩
  · rw [hv, String.data_append]
    exact List.getLast?_concat _
  · intro hm
    rw [hv]
    unfold BuildDeviceList.guidVolume
    rw [if_pos hm]
  · intro hgpt
    have hne : ¬ d.DriveLayout.PartitionStyle = PARTITION_STYLE_MBR := by
      rw [hgpt]
      decide
    rw [hv]
    unfold BuildDeviceList.guidVolume
    rw [if_neg hne, if_pos hgpt]
  · intro h1 h2
    rw [hv]
    unfold BuildDeviceList.guidVolume
    rw [if_neg h1, if_neg h2]
  · intro hs'
    rw [hv, guidVolume_eq_of_style d.DriveLayout p.2 hs']
  · intro hs'
    rw [hv, guidVolume_eq_of_style d.DriveLayout p.2 hs']

/-- C9, witness: a GPT disk with one GPT partition; the stored `volumeID` is
the path of the entry's `Gpt.PartitionId`, the disk record is the one built
from the enumerated device. -/
theorem enumerate_volumeID_witness :
    (volumeKey guidText sampleId).data.getLast? = some (Char.ofNat 92) ∧
    volumeKey guidText sampleId
      = "\\\\?\\Volume\x7b682FA6CA-76B7-497E-9B64-7F495F731E5D\x7d\\" ∧
    volumeKey guidText sampleId
      = "\\\\?\\Volume" ++ guidText (sampleEntry 1 1000 sampleId).Gpt.PartitionId ++ "\\" ∧
    volumeKey guidText sampleId
      = "\\\\?\\Volume"
        ++ guidText (getDOSNamesFromPartitionInfo.guidVolume
          ⟨volumeKey guidText sampleId, sampleEntry 1 1000 sampleId⟩)
        ++ "\\" :=
  have hw := enumerate_volumeID guidText
    [sampleDevice 0 true (sampleLayout 1 1 (sampleEntry 1 1000 sampleId))]
    [(0, buildDiskInfo guidText
      (sampleDevice 0 true (sampleLayout 1 1 (sampleEntry 1 1000 sampleId))))]
    (0, buildDiskInfo guidText
      (sampleDevice 0 true (sampleLayout 1 1 (sampleEntry 1 1000 sampleId))))
    (0, ⟨volumeKey guidText sampleId, sampleEntry 1 1000 sampleId⟩)
    rfl (List.Mem.head _) (List.Mem.head _)
  ⟨hw.1, by decide, hw.2.2.2.1 rfl, hw.2.2.2.2.2.1 rfl⟩

/-- C9, counterexample to the claim as stated: on a disk whose layout style is
raw, an entry of positive length that carries the MBR tag and a non-zero
`Mbr.PartitionId` is stored with the `volumeID` of the all-zero identifier,
which is not the path of the record's own identifier. -/
theorem enumerate_volumeID_not_from_record :
    enumerate guidText [sampleDevice 0 true (sampleLayout 2 1 (sampleEntry 0 1000 sampleId))]
      = .ok [(0, buildDiskInfo guidText
          (sampleDevice 0 true (sampleLayout 2 1 (sampleEntry 0 1000 sampleId))))] ∧
    (buildDiskInfo guidText
        (sampleDevice 0 true (sampleLayout 2 1 (sampleEntry 0 1000 sampleId)))).partitions.map
      (fun p => (p.1, p.2.piex.PartitionStyle, p.2.volumeID,
        "\\\\?\\Volume" ++ guidText p.2.piex.Mbr.PartitionId ++ "\\"))
      = [(0, PARTITION_STYLE_MBR,
          "\\\\?\\Volume\x7b00000000-0000-0000-0000-000000000000\x7d\\",
          "\\\\?\\Volume\x7b682FA6CA-76B7-497E-9B64-7F495F731E5D\x7d\\")] := by
  constructor
  · rfl
  · decide

/-- C10, as the code has it: every record of a returned mapping is stored under
the `int` conversion of its own `StorageDeviceNumber.DeviceNumber`, which is
that number itself whenever it is below 2^31; and enumerating the same devices,
with pairwise distinct device numbers, in another order returns the same
mapping. -/
theorem enumerate_keyed_by_device_number (fmt : GUID → String) (devices devices' : List Device)
    (m : StdMap Int DiskInfo) (h : enumerate fmt devices = .ok m)
    (hperm : devices.Perm devices')
    (hnodup : (devices.map (fun d => d.StorageDeviceNumber.DeviceNumber)).Nodup)
    (hdword : ∀ d ∈ devices, d.StorageDeviceNumber.DeviceNumber < 2 ^ 32) :
    (∀ x ∈ m, x.1 = toInt32 x.2.StorageDeviceNumber.DeviceNumber ∧
      (x.2.StorageDeviceNumber.DeviceNumber < 2 ^ 31 →
        x.1 = (x.2.StorageDeviceNumber.DeviceNumber : Int))) ∧
    enumerate fmt devices' = .ok m := by
  constructor
  · intro x hx
    obtain ⟨d, _, _, hxd⟩ := enumerate_mem h hx
    subst hxd
    refine ⟨rfl, fun hlt => ?_⟩
    have hlt' : d.StorageDeviceNumber.DeviceNumber < 2 ^ 31 := hlt
    show toInt32 d.StorageDeviceNumber.DeviceNumber = _
    unfold toInt32
    have h32 : d.StorageDeviceNumber.DeviceNumber % 2 ^ 32 = d.StorageDeviceNumber.DeviceNumber :=
      Nat.mod_eq_of_lt (by omega)
    rw [h32, if_pos hlt']
    rfl
  · have hall := deviceLoop_ok_inv devices [] m h
    have hall' : ∀ d ∈ devices', d.numberOk = true :=
      fun d hd => hall d (hperm.symm.subset hd)
    unfold enumerate BuildDeviceList at h ⊢
    rw [deviceLoop_ok devices [] hall] at h
    rw [deviceLoop_ok devices' [] hall', ← h]
    congr 1
    refine (List.Perm.foldl_eq' hperm ?_ []).symm
    intro a ha b hb z
    by_cases hab : a = b
    · rw [hab]
    · apply StdMap.assign_comm
      intro hk
      have hnum := toInt32_injOn (hdword b hb) (hdword a ha) hk
      exact hab (List.inj_on_of_nodup_map hnodup ha hb hnum.symm)

/-- C10, witness: disk 1 enumerated before disk 0, and the other way round. -/
theorem enumerate_keyed_by_device_number_witness :
    (∀ x ∈ [(0, buildDiskInfo guidText
          (sampleDevice 0 true (sampleLayout 0 1 (sampleEntry 0 1000 sampleId)))),
        ((1 : Int), buildDiskInfo guidText
          (sampleDevice 1 true (sampleLayout 1 2 (sampleEntry 1 1000 sampleId))))],
      x.1 = toInt32 x.2.StorageDeviceNumber.DeviceNumber ∧
      (x.2.StorageDeviceNumber.DeviceNumber < 2 ^ 31 →
        x.1 = (x.2.StorageDeviceNumber.DeviceNumber : Int))) ∧
    enumerate guidText
      [sampleDevice 0 true (sampleLayout 0 1 (sampleEntry 0 1000 sampleId)),
       sampleDevice 1 true (sampleLayout 1 2 (sampleEntry 1 1000 sampleId))]
      = .ok [(0, buildDiskInfo guidText
          (sampleDevice 0 true (sampleLayout 0 1 (sampleEntry 0 1000 sampleId)))),
        (1, buildDiskInfo guidText
          (sampleDevice 1 true (sampleLayout 1 2 (sampleEntry 1 1000 sampleId))))] :=
  enumerate_keyed_by_device_number guidText
    [sampleDevice 1 true (sampleLayout 1 2 (sampleEntry 1 1000 sampleId)),
     sampleDevice 0 true (sampleLayout 0 1 (sampleEntry 0 1000 sampleId))]
    [sampleDevice 0 true (sampleLayout 0 1 (sampleEntry 0 1000 sampleId)),
     sampleDevice 1 true (sampleLayout 1 2 (sampleEntry 1 1000 sampleId))]
    _ rfl (List.Perm.swap _ _ _) (by decide) (by decide)

/-- C10, counterexample to the claim as stated: a device whose device number is
0xFFFFFFFF (the value the platform reports for the paths of a multipath disk)
is stored under the key -1, not under 4294967295. -/
theorem enumerate_key_wraps :
    enumerate guidText
      [sampleDevice 4294967295 true (sampleLayout 0 1 (sampleEntry 0 1000 sampleId))]
      = .ok [(-1, buildDiskInfo guidText
          (sampleDevice 4294967295 true (sampleLayout 0 1 (sampleEntry 0 1000 sampleId))))] ∧
    (buildDiskInfo guidText
      (sampleDevice 4294967295 true
        (sampleLayout 0 1 (sampleEntry 0 1000 sampleId)))).StorageDeviceNumber.DeviceNumber
      = 4294967295 := by
  constructor <;> rfl

/-! ### The classification tables -/

theorem StdMap.findBy_eq_none {κ α : Type} (lt : κ → κ → Bool) (k : κ) (m : StdMap κ α)
    (h : ∀ e ∈ m, lt e.1 k = true ∨ lt k e.1 = true) : StdMap.findBy lt k m = none := by
  induction m with
  | nil => rfl
  | cons e rest ih =>
    rcases e with ⟨k', v'⟩
    simp only [StdMap.findBy]
    by_cases h1 : lt k' k = true
    · rw [if_pos h1]
      exact ih (fun e he => h e (List.mem_cons_of_mem _ he))
    · rw [if_neg h1]
      rcases h (k', v') (List.mem_cons_self _ _) with h2 | h2
      · exact absurd h2 h1
      · rw [if_pos h2]

theorem StdMap.mem_insertBy {κ α : Type} (lt : κ → κ → Bool) {k : κ} {v : α} {m : StdMap κ α}
    {x : κ × α} (h : x ∈ StdMap.insertBy lt k v m) : x = (k, v) ∨ x ∈ m := by
  induction m with
  | nil =>
    simp only [StdMap.insertBy, List.mem_singleton] at h
    exact Or.inl h
  | cons y rest ih =>
    rcases y with ⟨k', v'⟩
    simp only [StdMap.insertBy] at h
    split_ifs at h
    · rcases List.mem_cons.1 h with h | h
      · exact Or.inl h
      · exact Or.inr h
    · rcases List.mem_cons.1 h with h | h
      · exact Or.inr (h ▸ List.mem_cons_self _ _)
      · rcases ih h with h | h
        · exact Or.inl h
        · exact Or.inr (List.mem_cons_of_mem _ h)
    · exact Or.inr h

theorem StdMap.mem_ofList {κ α : Type} (lt : κ → κ → Bool) (l : List (κ × α)) {x : κ × α}
    (h : x ∈ StdMap.ofList lt l) : x ∈ l := by
  unfold StdMap.ofList at h
  have key : ∀ (l : List (κ × α)) (m : StdMap κ α),
      x ∈ l.foldl (fun m kv => StdMap.insertBy lt kv.1 kv.2 m) m → x ∈ m ∨ x ∈ l := by
    intro l
    induction l with
    | nil => intro m h; exact Or.inl h
    | cons a rest ih =>
      intro m h
      rw [List.foldl_cons] at h
      rcases ih _ h with h | h
      · rcases StdMap.mem_insertBy lt h with h | h
        · exact Or.inr (h ▸ List.mem_cons_self _ _)
        · exact Or.inl h
      · exact Or.inr (List.mem_cons_of_mem _ h)
  rcases key l [] h with h | h
  · cases h
  · exact h

theorem memcmp_eq_of_not_lt : ∀ (a b : List Nat), a.length = b.length →
    ¬ memcmp a b < 0 → ¬ memcmp b a < 0 → a = b := by
  intro a
  induction a with
  | nil =>
    intro b hl _ _
    cases b with
    | nil => rfl
    | cons _ _ => cases hl
  | cons x xs ih =>
    intro b hl h1 h2
    cases b with
    | nil => cases hl
    | cons y ys =>
      simp only [memcmp] at h1 h2
      by_cases hxy : x = y
      · subst hxy
        simp only [if_true] at h1 h2
        rw [ih ys (by simpa using hl) h1 h2]
      · rw [if_neg hxy] at h1
        rw [if_neg (Ne.symm hxy)] at h2
        omega

theorem GUID.bytes_length (g : GUID) : g.bytes.length = 16 := by
  simp [GUID.bytes, leBytes]

theorem w32.GUIDComparer_or (a b : GUID) (h : a.bytes ≠ b.bytes) :
    w32.GUIDComparer a b = true ∨ w32.GUIDComparer b a = true := by
  unfold w32.GUIDComparer
  by_contra hne
  simp only [not_or, decide_eq_true_eq] at hne
  exact h (memcmp_eq_of_not_lt _ _ (by rw [GUID.bytes_length, GUID.bytes_length]) hne.1 hne.2)

/-- C11, as the code has it: both lookups are total and fall back on a
sentinel. For a `GUID` that is byte-wise different from every key of the modern
table `GUIDToPartitionTypeString` returns the empty string, which is the name of
no entry; for a type code that is no key of the legacy table
`partitionIDToString` returns `UNKNOWN`, which is not empty and the name of no
entry. -/
theorem lookups_default_to_sentinel :
    (∀ guid : GUID, (∀ e ∈ w32.mapperInit, guid.bytes ≠ e.1.bytes) →
      w32.GUIDToPartitionTypeString guid = "") ∧
    (∀ e ∈ w32.mapperInit, e.2 ≠ "") ∧
    (∀ id : Int, (∀ e ∈ partitionIDToString.mapperInit, id ≠ e.1) →
      partitionIDToString id = "UNKNOWN") ∧
    (∀ e ∈ partitionIDToString.mapperInit, e.2 ≠ "UNKNOWN") ∧
    "UNKNOWN" ≠ "" := by
  refine ⟨?_, by decide, ?_, by decide, by decide⟩
  · intro guid h
    unfold w32.GUIDToPartitionTypeString
    rw [StdMap.findBy_eq_none]
    intro e he
    have hne := h e (StdMap.mem_ofList _ _ he)
    rcases w32.GUIDComparer_or guid e.1 hne with h1 | h1
    · exact Or.inr h1
    · exact Or.inl h1
  · intro id h
    unfold partitionIDToString
    dsimp only
    rw [StdMap.findBy_eq_none]
    intro e he
    have hne := h e (StdMap.mem_ofList _ _ he)
    simp only [decide_eq_true_eq]
    omega

/-- C11, counterexample to the claim as stated: for an identifier that is not
in the modern table the lookup returns the empty string, not a non-empty name
for the unknown. -/
theorem GUIDToPartitionTypeString_unknown_is_empty :
    (∀ e ∈ w32.mapperInit, sampleId.bytes ≠ e.1.bytes) ∧
    w32.GUIDToPartitionTypeString sampleId = "" ∧
    (w32.GUIDToPartitionTypeString sampleId).length = 0 := by
  decide


/-! ### Theorems on `UpdateMBRSignature` -/

/-- C12, as the code has it: called with `diskNumber` 0, `UpdateMBRSignature`
never issues the write `IOCTL_DISK_SET_DRIVE_LAYOUT_EX` and returns a non-zero
status, which is 1 when the disk cannot be opened or its layout cannot be read,
else -1 when the signature is 0, and -2 otherwise. -/
theorem UpdateMBRSignature_disk_zero (fmt : Int → String) (P : SigPlatform)
    (dwMBRSignature : Nat) :
    ((UpdateMBRSignature fmt P 0 dwMBRSignature).calls.any SigCall.isWrite = false) ∧
    (UpdateMBRSignature fmt P 0 dwMBRSignature).ret =
      (if P.openOk = false ∨ P.getOk = false then 1
       else if dwMBRSignature = 0 then -1 else -2) := by
  unfold UpdateMBRSignature
  cases hO : P.openOk <;> cases hG : P.getOk <;> by_cases hs : dwMBRSignature = 0 <;>
    simp [hs, SigCall.isWrite]

/-- C12, counterexample to the claim as stated: on disk 0 with signature 0 the
status is -1, and on a disk 0 that cannot be opened the status is 1; neither is
the status -2. -/
theorem UpdateMBRSignature_disk_zero_other_status :
    (UpdateMBRSignature toString (samplePlatform true true PARTITION_STYLE_MBR) 0 0).ret = -1 ∧
    (UpdateMBRSignature toString (samplePlatform false true PARTITION_STYLE_MBR) 0 305419896).ret
      = 1 := by
  decide

/-- C13: `UpdateMBRSignature` issues the write `IOCTL_DISK_SET_DRIVE_LAYOUT_EX`
exactly when the disk was opened, its layout was read and is of MBR style,
`diskNumber` is not 0 and the signature is not 0, and then once; when
`diskNumber` is 0, or the signature is 0, or the layout is not of MBR style,
there is no write and the status returned is not zero. -/
theorem UpdateMBRSignature_write_guarded (fmt : Int → String) (P : SigPlatform)
    (diskNumber : Int) (dwMBRSignature : Nat) :
    ((UpdateMBRSignature fmt P diskNumber dwMBRSignature).calls.any SigCall.isWrite = true ↔
      (P.openOk = true ∧ P.getOk = true ∧ diskNumber ≠ 0 ∧ dwMBRSignature ≠ 0 ∧
        P.layout.PartitionStyle = PARTITION_STYLE_MBR)) ∧
    ((UpdateMBRSignature fmt P diskNumber dwMBRSignature).calls.countP SigCall.isWrite ≤ 1) ∧
    (diskNumber = 0 ∨ dwMBRSignature = 0 ∨ P.layout.PartitionStyle ≠ PARTITION_STYLE_MBR →
      (UpdateMBRSignature fmt P diskNumber dwMBRSignature).calls.any SigCall.isWrite = false ∧
      (UpdateMBRSignature fmt P diskNumber dwMBRSignature).ret ≠ 0) := by
  unfold UpdateMBRSignature
  cases hO : P.openOk <;> cases hG : P.getOk <;> by_cases hs : dwMBRSignature = 0 <;>
    by_cases hd : diskNumber = 0 <;>
    by_cases hm : P.layout.PartitionStyle = PARTITION_STYLE_MBR <;>
    simp [hs, hd, hm, SigCall.isWrite, List.countP_cons]

/-- C14: a layout that `UpdateMBRSignature` hands to the write
`IOCTL_DISK_SET_DRIVE_LAYOUT_EX` is the layout that the query before it returned,
of MBR style, with `Mbr.Signature` replaced by the requested signature: all
other fields and all partition entries are as they were read, and the write
follows the query directly. -/
theorem UpdateMBRSignature_writes_read_layout (fmt : Int → String) (P : SigPlatform)
    (diskNumber : Int) (dwMBRSignature : Nat) (written : DRIVE_LAYOUT_INFORMATION_EX)
    (h : SigCall.SetDriveLayout written ∈
      (UpdateMBRSignature fmt P diskNumber dwMBRSignature).calls) :
    written = { P.layout with Mbr := { P.layout.Mbr with Signature := dwMBRSignature } } ∧
    written.Mbr.Signature = dwMBRSignature ∧
    written.Mbr.CheckSum = P.layout.Mbr.CheckSum ∧
    written.PartitionStyle = P.layout.PartitionStyle ∧
    written.PartitionCount = P.layout.PartitionCount ∧
    (∀ i, written.PartitionEntry i = P.layout.PartitionEntry i) ∧
    P.layout.PartitionStyle = PARTITION_STYLE_MBR ∧
    (UpdateMBRSignature fmt P diskNumber dwMBRSignature).calls =
      [SigCall.CreateFile ("\\\\.\\PhysicalDrive" ++ fmt diskNumber), SigCall.GetDriveLayout,
       SigCall.SetDriveLayout written, SigCall.CloseHandle] := by
  unfold UpdateMBRSignature at h ⊢
  cases hO : P.openOk <;> cases hG : P.getOk <;> by_cases hs : dwMBRSignature = 0 <;>
    by_cases hd : diskNumber = 0 <;>
    by_cases hm : P.layout.PartitionStyle = PARTITION_STYLE_MBR <;>
    simp [hO, hG, hs, hd, hm] at h ⊢
  subst h
  simp

/-- C14, witness: disk 9 of MBR style, new signature 305419897. -/
theorem UpdateMBRSignature_writes_read_layout_witness :
    (sampleLayout PARTITION_STYLE_MBR 2 (sampleEntry PARTITION_STYLE_MBR 1048576 sampleId)).Mbr.Signature
      = 305419896 ∧
    ∃ written, written.Mbr.Signature = 305419897 ∧ written.Mbr.CheckSum = 0 ∧
      written.PartitionCount = 2 ∧
      (UpdateMBRSignature toString (samplePlatform true true PARTITION_STYLE_MBR) 9 305419897).calls
        = [SigCall.CreateFile "\\\\.\\PhysicalDrive9", SigCall.GetDriveLayout,
           SigCall.SetDriveLayout written, SigCall.CloseHandle] :=
  ⟨rfl, _, 
    (UpdateMBRSignature_writes_read_layout toString (samplePlatform true true PARTITION_STYLE_MBR)
      9 305419897 _ (List.Mem.tail _ (List.Mem.tail _ (List.Mem.head _)))).2.1,
    rfl, rfl, rfl⟩

/-! ### Emptiness of the partitions mapping, and the listing of `main` -/

theorem StdMap.assign_ne_nil {κ α : Type} [LinearOrder κ] (k : κ) (v : α) (m : StdMap κ α) :
    StdMap.assign k v m ≠ [] := by
  cases m with
  | nil => simp [StdMap.assign]
  | cons e rest =>
    rcases e with ⟨k', v'⟩
    simp only [StdMap.assign]
    split_ifs <;> simp

theorem partitionStep_eq_nil {fmt : GUID → String} {L : DRIVE_LAYOUT_INFORMATION_EX}
    {m : StdMap Nat PartitionInfo} {i : Nat} :
    partitionStep fmt L m i = [] ↔ m = [] ∧ (L.PartitionEntry i).PartitionLength ≤ 0 := by
  unfold partitionStep
  by_cases h : (L.PartitionEntry i).PartitionLength > 0
  · simp only [h, if_true]
    constructor
    · intro h'
      exact absurd h' (StdMap.assign_ne_nil _ _ _)
    · intro h'
      omega
  · simp only [h, if_false]
    constructor
    · intro h'
      exact ⟨h', by omega⟩
    · intro h'
      exact h'.1

theorem foldl_partitionStep_eq_nil {fmt : GUID → String} {L : DRIVE_LAYOUT_INFORMATION_EX} :
    ∀ (l : List Nat) (m : StdMap Nat PartitionInfo),
      l.foldl (partitionStep fmt L) m = [] ↔
        m = [] ∧ ∀ i ∈ l, (L.PartitionEntry i).PartitionLength ≤ 0 := by
  intro l
  induction l with
  | nil => intro m; simp
  | cons a rest ih =>
    intro m
    rw [List.foldl_cons, ih, partitionStep_eq_nil]
    simp only [List.mem_cons, forall_eq_or_imp]
    tauto

theorem buildPartitions_eq_nil {fmt : GUID → String} {L : DRIVE_LAYOUT_INFORMATION_EX} :
    buildPartitions fmt L = [] ↔
      ∀ i, i < min L.PartitionCount 128 → (L.PartitionEntry i).PartitionLength ≤ 0 := by
  unfold buildPartitions
  rw [foldl_partitionStep_eq_nil]
  simp only [true_and, List.mem_range]

/-- C19, as the code has it: in every record of a mapping returned by
`enumerate`, the partitions mapping is empty if and only if none of the entries
at the array positions below `min(PartitionCount, 128)` of the drive layout
has a length above zero. When the layout reports at most 128 entries and no
length is negative, this is: if and only if none of the reported entries has a
non-zero length. -/
theorem enumerate_partitions_empty_iff (fmt : GUID → String) (devices : List Device)
    (m : StdMap Int DiskInfo) (x : Int × DiskInfo)
    (h : enumerate fmt devices = .ok m) (hx : x ∈ m) :
    ∃ d ∈ devices, x.2 = buildDiskInfo fmt d ∧
      (x.2.partitions = [] ↔
        ∀ i, i < min d.DriveLayout.PartitionCount 128 →
          (d.DriveLayout.PartitionEntry i).PartitionLength ≤ 0) ∧
      (d.DriveLayout.PartitionCount ≤ 128 →
        (∀ i, i < d.DriveLayout.PartitionCount →
          0 ≤ (d.DriveLayout.PartitionEntry i).PartitionLength) →
        (x.2.partitions = [] ↔
          ∀ i, i < d.DriveLayout.PartitionCount →
            (d.DriveLayout.PartitionEntry i).PartitionLength = 0)) := by
  obtain ⟨d, hd, _, hxd⟩ := enumerate_mem h hx
  subst hxd
  refine ⟨d, hd, rfl, buildPartitions_eq_nil, ?_⟩
  intro hc hpos
  show buildPartitions fmt d.DriveLayout = [] ↔ _
  rw [buildPartitions_eq_nil, Nat.min_eq_left hc]
  constructor
  · intro h' i hi
    have h1 := h' i hi
    have h2 := hpos i hi
    omega
  · intro h' i hi
    rw [h' i hi]

/-- C19, witness: one MBR disk whose two entries have length zero. -/
theorem enumerate_partitions_empty_iff_witness :
    ∃ d ∈ [sampleDevice 3 true (sampleLayout 0 2 (sampleEntry 0 0 sampleId))],
      buildDiskInfo guidText (sampleDevice 3 true (sampleLayout 0 2 (sampleEntry 0 0 sampleId)))
        = buildDiskInfo guidText d ∧
      ((buildDiskInfo guidText
          (sampleDevice 3 true (sampleLayout 0 2 (sampleEntry 0 0 sampleId)))).partitions = [] ↔
        ∀ i, i < min d.DriveLayout.PartitionCount 128 →
          (d.DriveLayout.PartitionEntry i).PartitionLength ≤ 0) ∧
      (d.DriveLayout.PartitionCount ≤ 128 →
        (∀ i, i < d.DriveLayout.PartitionCount →
          0 ≤ (d.DriveLayout.PartitionEntry i).PartitionLength) →
        ((buildDiskInfo guidText
            (sampleDevice 3 true (sampleLayout 0 2 (sampleEntry 0 0 sampleId)))).partitions = [] ↔
          ∀ i, i < d.DriveLayout.PartitionCount →
            (d.DriveLayout.PartitionEntry i).PartitionLength = 0)) :=
  enumerate_partitions_empty_iff guidText
    [sampleDevice 3 true (sampleLayout 0 2 (sampleEntry 0 0 sampleId))]
    [(3, buildDiskInfo guidText
      (sampleDevice 3 true (sampleLayout 0 2 (sampleEntry 0 0 sampleId))))]
    (3, buildDiskInfo guidText
      (sampleDevice 3 true (sampleLayout 0 2 (sampleEntry 0 0 sampleId))))
    rfl (List.Mem.head _)

/-- C19, counterexample to the claim as stated: a disk whose layout reports one
entry, of the non-zero length -1, gets an empty partitions mapping. -/
theorem enumerate_partitions_empty_with_nonzero_length :
    enumerate guidText [sampleDevice 3 true (sampleLayout 0 1 (sampleEntry 0 (-1) sampleId))]
      = .ok [(3, buildDiskInfo guidText
          (sampleDevice 3 true (sampleLayout 0 1 (sampleEntry 0 (-1) sampleId))))] ∧
    (buildDiskInfo guidText
      (sampleDevice 3 true (sampleLayout 0 1 (sampleEntry 0 (-1) sampleId)))).partitions = [] ∧
    (sampleLayout 0 1 (sampleEntry 0 (-1) sampleId)).PartitionCount = 1 ∧
    ((sampleLayout 0 1 (sampleEntry 0 (-1) sampleId)).PartitionEntry 0).PartitionLength ≠ 0 :=
  ⟨rfl, rfl, rfl, by decide⟩

theorem main_allDisks_mem (diskCount i : Int) :
    i ∈ main.allDisks diskCount ↔ 0 ≤ i ∧ i ≤ diskCount := by
  unfold main.allDisks
  simp only [List.mem_map, List.mem_range]
  constructor
  · rintro ⟨n, hn, rfl⟩
    simp only [Int.ofNat_eq_coe]
    omega
  · intro h
    exact ⟨i.toNat, by omega, by simp only [Int.ofNat_eq_coe]; omega⟩

/-- C20, the code at the failing input: on a host with two disks, of device
numbers 0 and 5, the mapping returned by `enumerate` has the keys 0 and 5 and
the listing of `main` without a disk index displays the disk 0 only. -/
theorem main_all_disks_skips_device_number_above_count :
    ∃ vdi shown,
      enumerate guidText
        [sampleDevice 0 true (sampleLayout 0 1 (sampleEntry 0 1000 sampleId)),
         sampleDevice 5 true (sampleLayout 0 1 (sampleEntry 0 1000 sampleId))] = .ok vdi ∧
      vdi.map Prod.fst = [0, 5] ∧
      main.listed vdi = .ok shown ∧
      shown.map Prod.fst = [0] :=
  ⟨_, _, rfl, rfl, rfl, rfl⟩

/-! ### The documented partition types -/

theorem StdMap.findBy_some {κ α : Type} (lt : κ → κ → Bool) (k : κ) (v : α) :
    ∀ (m : StdMap κ α), StdMap.findBy lt k m = some v →
      ∃ e ∈ m, e.2 = v ∧ lt e.1 k = false ∧ lt k e.1 = false := by
  intro m
  induction m with
  | nil => intro h; cases h
  | cons e rest ih =>
    rcases e with ⟨k', v'⟩
    intro h
    simp only [StdMap.findBy] at h
    by_cases h1 : lt k' k = true
    · rw [if_pos h1] at h
      obtain ⟨e, he, hr⟩ := ih h
      exact ⟨e, List.mem_cons_of_mem _ he, hr⟩
    · rw [if_neg h1] at h
      by_cases h2 : lt k k' = true
      · rw [if_pos h2] at h
        cases h
      · rw [if_neg h2] at h
        simp only [Option.some.injEq] at h
        exact ⟨(k', v'), List.mem_cons_self _ _, h, by simpa using h1, by simpa using h2⟩

theorem StdMap.findBy_congr {κ α : Type} (lt : κ → κ → Bool) (k k' : κ)
    (h1 : ∀ x, lt x k = lt x k') (h2 : ∀ x, lt k x = lt k' x) :
    ∀ (m : StdMap κ α), StdMap.findBy lt k m = StdMap.findBy lt k' m := by
  intro m
  induction m with
  | nil => rfl
  | cons e rest ih =>
    rcases e with ⟨x, v⟩
    simp only [StdMap.findBy, h1, h2, ih]

theorem memcmp_self (a : List Nat) : memcmp a a = 0 := by
  induction a with
  | nil => rfl
  | cons x xs ih => simp [memcmp, ih]

theorem memcmp_trans : ∀ (a b c : List Nat), memcmp a b < 0 → memcmp b c < 0 →
    memcmp a c < 0 := by
  intro a
  induction a with
  | nil => intro b c h; simp [memcmp] at h
  | cons x xs ih =>
    intro b c h1 h2
    cases b with
    | nil => simp [memcmp] at h1
    | cons y ys =>
      cases c with
      | nil => simp [memcmp] at h2
      | cons z zs =>
        simp only [memcmp] at h1 h2 ⊢
        by_cases hxy : x = y
        · subst hxy
          simp only [if_true] at h1
          by_cases hxz : x = z
          · subst hxz
            simp only [if_true] at h2 ⊢
            exact ih _ _ h1 h2
          · rw [if_neg hxz] at h2 ⊢
            exact h2
        · rw [if_neg hxy] at h1
          by_cases hyz : y = z
          · subst hyz
            rw [if_neg hxy]
            exact h1
          · rw [if_neg hyz] at h2
            have hxz : x ≠ z := by omega
            rw [if_neg hxz]
            omega

theorem w32.GUIDComparer_of_bytes {a a' : GUID} (h : a.bytes = a'.bytes) (x : GUID) :
    w32.GUIDComparer x a = w32.GUIDComparer x a' ∧
    w32.GUIDComparer a x = w32.GUIDComparer a' x := by
  unfold w32.GUIDComparer
  rw [h]
  exact ⟨rfl, rfl⟩

theorem w32.find_key : ∀ e ∈ w32.mapperInit,
    StdMap.findBy w32.GUIDComparer e.1 w32.mapper = some e.2 := by
  decide

theorem w32.names_injective : ∀ e ∈ w32.mapperInit, ∀ e' ∈ w32.mapperInit,
    e.2 = e'.2 → e.1 = e'.1 := by
  decide

theorem w32.GUIDToPartitionTypeString_of_bytes (guid : GUID) (e : GUID × String)
    (he : e ∈ w32.mapperInit) (h : guid.bytes = e.1.bytes) :
    w32.GUIDToPartitionTypeString guid = e.2 := by
  unfold w32.GUIDToPartitionTypeString
  rw [StdMap.findBy_congr w32.GUIDComparer guid e.1
    (fun x => (w32.GUIDComparer_of_bytes h x).1) (fun x => (w32.GUIDComparer_of_bytes h x).2),
    w32.find_key e he]

theorem w32.GUIDToPartitionTypeString_ne_empty (guid : GUID)
    (h : w32.GUIDToPartitionTypeString guid ≠ "") :
    ∃ e ∈ w32.mapperInit, guid.bytes = e.1.bytes ∧ w32.GUIDToPartitionTypeString guid = e.2 := by
  unfold w32.GUIDToPartitionTypeString at h ⊢
  cases hf : StdMap.findBy w32.GUIDComparer guid w32.mapper with
  | none => rw [hf] at h; exact absurd rfl h
  | some v =>
    obtain ⟨e, he, hv, h1, h2⟩ := StdMap.findBy_some _ _ _ _ hf
    refine ⟨e, StdMap.mem_ofList _ _ he, ?_, hv.symm⟩
    by_contra hne
    rcases w32.GUIDComparer_or guid e.1 hne with h3 | h3
    · rw [h3] at h2; cases h2
    · rw [h3] at h1; cases h1

/-- C21: for each of the seven identifiers of the header comment [1],
`GUIDToPartitionTypeString` returns the name documented for it; it returns the
name of a table entry for every `GUID` that is byte for byte the key of that
entry, and only for such a `GUID`. The comparer `GUIDComparer` is a strict
total order on the sixteen bytes (irreflexive, transitive, and any two
identifiers that differ in a byte are ordered), and the seven keys differ
pairwise in their bytes. -/
theorem GUIDToPartitionTypeString_documented :
    (∀ d ∈ documentedTypes, ∃ g, parseGUID d.1 = some g ∧
      w32.GUIDToPartitionTypeString g = d.2) ∧
    (documentedTypes.map (fun d => (parseGUID d.1, d.2))
      = w32.mapperInit.map (fun e => (some e.1, e.2))) ∧
    (∀ (guid : GUID), ∀ e ∈ w32.mapperInit,
      (w32.GUIDToPartitionTypeString guid = e.2 ↔ guid.bytes = e.1.bytes)) ∧
    (∀ a : GUID, w32.GUIDComparer a a = false) ∧
    (∀ a b c : GUID, w32.GUIDComparer a b = true → w32.GUIDComparer b c = true →
      w32.GUIDComparer a c = true) ∧
    (∀ a b : GUID, a.bytes ≠ b.bytes →
      w32.GUIDComparer a b = true ∨ w32.GUIDComparer b a = true) ∧
    (w32.mapperInit.map (fun e => e.1.bytes)).Nodup := by
  refine ⟨by decide, by decide, ?_, ?_, ?_, w32.GUIDComparer_or, by decide⟩
  · intro guid e he
    constructor
    · intro h
      have hnames : ∀ e ∈ w32.mapperInit, e.2 ≠ "" := by decide
      have hne : w32.GUIDToPartitionTypeString guid ≠ "" := by
        rw [h]
        exact hnames e he
      obtain ⟨e', he', hb, hn⟩ := w32.GUIDToPartitionTypeString_ne_empty guid hne
      rw [hb, w32.names_injective e he e' he' (h.symm.trans hn)]
    · exact w32.GUIDToPartitionTypeString_of_bytes guid e he
  · intro a
    simp [w32.GUIDComparer, memcmp_self]
  · intro a b c h1 h2
    simp only [w32.GUIDComparer, decide_eq_true_eq] at h1 h2 ⊢
    exact memcmp_trans _ _ _ h1 h2

/-! ### The stored volume name and the one queried -/

/-- C29: for every partition stored by `BuildDeviceList`, the `volumeID` is the
volume name of the identifier selected by the style tag of the disk
(`Mbr.PartitionId` for MBR, `Gpt.PartitionId` for GPT, all zero otherwise, so
all zero on a raw disk), while `getDOSNamesFromPartitionInfo` selects by the
style tag of the partition. When the two tags are equal, both select the same
identifier and the volume name `getDOSNamesFromPartitionInfo` queries is the
stored `volumeID`. -/
theorem getDOSNames_queries_volumeID (fmt : GUID → String) (devices : List Device)
    (m : StdMap Int DiskInfo) (x : Int × DiskInfo) (p : Nat × PartitionInfo)
    (h : enumerate fmt devices = .ok m) (hx : x ∈ m) (hp : p ∈ x.2.partitions) :
    (p.2.volumeID = volumeKey fmt (BuildDeviceList.guidVolume x.2.DriveLayout p.2.piex)) ∧
    (BuildDeviceList.guidVolume x.2.DriveLayout p.2.piex =
      if x.2.DriveLayout.PartitionStyle = PARTITION_STYLE_MBR then p.2.piex.Mbr.PartitionId
      else if x.2.DriveLayout.PartitionStyle = PARTITION_STYLE_GPT then p.2.piex.Gpt.PartitionId
      else GUID.zero) ∧
    (getDOSNamesFromPartitionInfo.guidVolume p.2 =
      if p.2.piex.PartitionStyle = PARTITION_STYLE_MBR then p.2.piex.Mbr.PartitionId
      else if p.2.piex.PartitionStyle = PARTITION_STYLE_GPT then p.2.piex.Gpt.PartitionId
      else GUID.zero) ∧
    (p.2.piex.PartitionStyle = x.2.DriveLayout.PartitionStyle →
      getDOSNamesFromPartitionInfo.guidVolume p.2
        = BuildDeviceList.guidVolume x.2.DriveLayout p.2.piex ∧
      getDOSNamesFromPartitionInfo.key fmt p.2 = p.2.volumeID) ∧
    (x.2.DriveLayout.PartitionStyle = PARTITION_STYLE_RAW →
      p.2.volumeID = volumeKey fmt GUID.zero) := by
  obtain ⟨d, hd, _, hxd⟩ := enumerate_mem h hx
  subst hxd
  have hp' := (buildPartitions_mem hp).2.2
  have hv : p.2.volumeID
      = volumeKey fmt (BuildDeviceList.guidVolume (buildDiskInfo fmt d).DriveLayout p.2.piex) := by
    rw [hp']
    rfl
  refine ⟨hv, rfl, rfl, ?_, ?_⟩
  · intro hs
    have hg := guidVolume_eq_of_style (buildDiskInfo fmt d).DriveLayout p.2 hs
    refine ⟨hg.symm, ?_⟩
    rw [hv, hg]
    rfl
  · intro hraw
    rw [hv]
    unfold BuildDeviceList.guidVolume
    rw [hraw]
    rfl

/-- C29, witness: a GPT disk with one GPT partition. -/
theorem getDOSNames_queries_volumeID_witness :
    (sampleEntry 1 1000 sampleId).PartitionStyle
      = (buildDiskInfo guidText
          (sampleDevice 0 true (sampleLayout 1 1 (sampleEntry 1 1000 sampleId)))).DriveLayout.PartitionStyle ∧
    getDOSNamesFromPartitionInfo.key guidText
        ⟨volumeKey guidText sampleId, sampleEntry 1 1000 sampleId⟩
      = volumeKey guidText sampleId :=
  ⟨rfl, ((getDOSNames_queries_volumeID guidText
    [sampleDevice 0 true (sampleLayout 1 1 (sampleEntry 1 1000 sampleId))]
    [(0, buildDiskInfo guidText
      (sampleDevice 0 true (sampleLayout 1 1 (sampleEntry 1 1000 sampleId))))]
    (0, buildDiskInfo guidText
      (sampleDevice 0 true (sampleLayout 1 1 (sampleEntry 1 1000 sampleId))))
    (0, ⟨volumeKey guidText sampleId, sampleEntry 1 1000 sampleId⟩)
    rfl (List.Mem.head _) (List.Mem.head _)).2.2.2.1 rfl).2⟩

/-! ### Theorems on `xstoi` and the command `-ms` -/

theorem toDigitsCore_append (b : Nat) : ∀ (fuel n : Nat) (ds : List Char),
    Nat.toDigitsCore b fuel n ds = Nat.toDigitsCore b fuel n [] ++ ds := by
  intro fuel
  induction fuel with
  | zero => intro n ds; simp [Nat.toDigitsCore]
  | succ fuel ih =>
    intro n ds
    simp only [Nat.toDigitsCore]
    by_cases h : n / b = 0
    · simp [h]
    · simp only [h, if_false]
      rw [ih (n / b) (Nat.digitChar (n % b) :: ds), ih (n / b) [Nat.digitChar (n % b)]]
      simp

theorem digitValue_digitChar : ∀ d, d < 16 → strtol.digitValue (Nat.digitChar d) = some d := by
  decide

/-- The digits of a text that consists of digits below the base only. -/
theorem strtol.digits_of_map {base : Nat} : ∀ (cs : List Char) (L : List Nat),
    cs.map strtol.digitValue = L.map some → (∀ d ∈ L, d < base) →
    strtol.digits base cs = L := by
  intro cs
  induction cs with
  | nil =>
    intro L h _
    cases L with
    | nil => rfl
    | cons _ _ => simp at h
  | cons c cs ih =>
    intro L h hL
    cases L with
    | nil => simp at h
    | cons d L =>
      simp only [List.map_cons, List.cons.injEq] at h
      simp only [strtol.digits, h.1, hL d (List.mem_cons_self _ _), if_true]
      rw [ih L h.2 (fun x hx => hL x (List.mem_cons_of_mem _ hx))]

theorem toDigitsCore_value (b : Nat) (hb : 2 ≤ b) (hb16 : b ≤ 16) : ∀ (fuel n : Nat), n < fuel →
    ∃ L : List Nat, (Nat.toDigitsCore b fuel n []).map strtol.digitValue = L.map some ∧
      (∀ d ∈ L, d < b) ∧ L ≠ [] ∧ L.foldl (fun acc d => acc * b + d) 0 = n := by
  intro fuel
  induction fuel with
  | zero => intro n h; omega
  | succ fuel ih =>
    intro n hn
    have hmod : n % b < b := Nat.mod_lt _ (by omega)
    have hdig : strtol.digitValue (Nat.digitChar (n % b)) = some (n % b) :=
      digitValue_digitChar _ (by omega)
    simp only [Nat.toDigitsCore]
    by_cases h : n / b = 0
    · refine ⟨[n % b], ?_, ?_, by simp, ?_⟩
      · simp [h, hdig]
      · intro d hd
        simp only [List.mem_singleton] at hd
        omega
      · have : n < b := (Nat.div_eq_zero_iff (by omega)).1 h
        simp [Nat.mod_eq_of_lt this]
    · simp only [h, if_false]
      have hlt : n / b < fuel := by
        have : n / b < n := Nat.div_lt_self (by
          rcases Nat.eq_zero_or_pos n with h0 | h0
          · subst h0; simp at h
          · exact h0) hb
        omega
      obtain ⟨L, h1, h2, _, h4⟩ := ih (n / b) hlt
      refine ⟨L ++ [n % b], ?_, ?_, by simp, ?_⟩
      · rw [toDigitsCore_append, List.map_append, h1]
        simp [hdig]
      · intro d hd
        rcases List.mem_append.1 hd with hd | hd
        · exact h2 d hd
        · simp only [List.mem_singleton] at hd
          omega
      · rw [List.foldl_append, h4]
        simp only [List.foldl_cons, List.foldl_nil]
        exact Nat.div_add_mod' n b

theorem toDigits_value (b : Nat) (hb : 2 ≤ b) (hb16 : b ≤ 16) (n : Nat) :
    ∃ L : List Nat, (Nat.toDigits b n).map strtol.digitValue = L.map some ∧
      (∀ d ∈ L, d < b) ∧ L ≠ [] ∧ L.foldl (fun acc d => acc * b + d) 0 = n :=
  toDigitsCore_value b hb hb16 (n + 1) n (Nat.lt_succ_self n)

theorem strtol.digitValue_bounds {c : Char} {d : Nat} (h : strtol.digitValue c = some d) :
    (48 ≤ c.toNat ∧ c.toNat ≤ 57 ∧ d < 10) ∨ (97 ≤ c.toNat ∧ c.toNat ≤ 122 ∧ d = c.toNat - 87) ∨
      (65 ≤ c.toNat ∧ c.toNat ≤ 90 ∧ d = c.toNat - 55) := by
  unfold strtol.digitValue at h
  split_ifs at h with h1 h2 h3
  · simp only [Option.some.injEq] at h
    left
    omega
  · simp only [Option.some.injEq] at h
    right; left
    omega
  · simp only [Option.some.injEq] at h
    right; right
    omega

/-- A digit below 16 is no white space, no sign and neither `x` nor `X`. -/
theorem strtol.digit_plain {c : Char} {d : Nat} (h : strtol.digitValue c = some d)
    (hd : d < 16) :
    strtol.isspace c = false ∧ c ≠ Char.ofNat 45 ∧ c ≠ Char.ofNat 43 ∧
      c ≠ Char.ofNat 120 ∧ c ≠ Char.ofNat 88 := by
  have hb := strtol.digitValue_bounds h
  have h45 : (Char.ofNat 45).toNat = 45 := by decide
  have h43 : (Char.ofNat 43).toNat = 43 := by decide
  have h120 : (Char.ofNat 120).toNat = 120 := by decide
  have h88 : (Char.ofNat 88).toNat = 88 := by decide
  refine ⟨?_, ?_, ?_, ?_, ?_⟩
  · simp only [strtol.isspace, decide_eq_false_iff_not]
    omega
  · intro hc; rw [hc, h45] at hb; omega
  · intro hc; rw [hc, h43] at hb; omega
  · intro hc; rw [hc, h120] at hb; omega
  · intro hc; rw [hc, h88] at hb; omega

theorem stoi_of_digits (base : Nat) (hb16 : base ≤ 16) (cs : List Char) (L : List Nat)
    (h : cs.map strtol.digitValue = L.map some) (hL : ∀ d ∈ L, d < base) (hne : L ≠ []) :
    stoi (String.mk cs) base = stoi.ranged (L.foldl (fun acc d => acc * base + d) 0) := by
  have hdig := strtol.digits_of_map cs L h hL
  cases cs with
  | nil =>
    cases L with
    | nil => exact absurd rfl hne
    | cons _ _ => simp at h
  | cons c cs =>
    cases L with
    | nil => simp at h
    | cons d L =>
      simp only [List.map_cons, List.cons.injEq] at h
      have hc := strtol.digit_plain h.1 (by have := hL d (List.mem_cons_self _ _); omega)
      have hskip : strtol.skipRadixMark base (c :: cs) = c :: cs := by
        cases cs with
        | nil => rfl
        | cons c1 rest =>
          cases L with
          | nil => simp at h
          | cons d1 L =>
            have h1 := h.2
            simp only [List.map_cons, List.cons.injEq] at h1
            have hc1 := strtol.digit_plain h1.1 (by
              have := hL d1 (List.mem_cons_of_mem _ (List.mem_cons_self _ _)); omega)
            simp only [strtol.skipRadixMark]
            rw [if_neg]
            intro hcond
            rcases hcond.2.2.1 with hx | hx
            · exact hc1.2.2.2.1 hx
            · exact hc1.2.2.2.2 hx
      unfold stoi
      simp only [List.dropWhile_cons, hc.1, Bool.false_eq_true, if_false, strtol.sign,
        if_neg hc.2.1, if_neg hc.2.2.1, hskip, hdig]
      simp only [reduceCtorEq, if_false, stoi.ranged]
      split_ifs <;> first | rfl | omega

theorem stoi_of_hex (x : Char) (hx : x = Char.ofNat 120 ∨ x = Char.ofNat 88) (cs : List Char)
    (L : List Nat) (h : cs.map strtol.digitValue = L.map some) (hL : ∀ d ∈ L, d < 16)
    (hne : L ≠ []) :
    stoi (String.mk (Char.ofNat 48 :: x :: cs)) 16
      = stoi.ranged (L.foldl (fun acc d => acc * 16 + d) 0) := by
  have hdig := strtol.digits_of_map cs L h hL
  have h0 : strtol.digitValue (Char.ofNat 48) = some 0 := by decide
  have hc := strtol.digit_plain h0 (by decide)
  unfold stoi
  have hskip : strtol.skipRadixMark 16 (Char.ofNat 48 :: x :: cs) = cs := by
    simp only [strtol.skipRadixMark]
    rw [if_pos]
    exact ⟨trivial, trivial, hx, by rw [hdig]; exact hne⟩
  simp only [List.dropWhile_cons, hc.1, Bool.false_eq_true, if_false, strtol.sign,
    if_neg hc.2.1, if_neg hc.2.2.1, hskip, hdig]
  cases L with
  | nil => exact absurd rfl hne
  | cons d L =>
    simp only [reduceCtorEq, if_false, stoi.ranged]
    split_ifs <;> first | rfl | omega

theorem xstoi_hexText (x : Char) (hx : x = Char.ofNat 120 ∨ x = Char.ofNat 88) (v : Nat) :
    xstoi (String.mk (Char.ofNat 48 :: x :: Nat.toDigits 16 v)) = stoi.ranged v := by
  obtain ⟨L, h1, h2, h3, h4⟩ := toDigits_value 16 (by decide) (by decide) v
  unfold xstoi
  simp only [hx, and_self, if_true]
  rw [stoi_of_hex x hx _ L h1 h2 h3, h4]

theorem xstoi_decimalText (v : Nat) : xstoi (decimalText v) = stoi.ranged v := by
  obtain ⟨L, h1, h2, h3, h4⟩ := toDigits_value 10 (by decide) (by decide) v
  have hbase : (match (decimalText v).data with
      | c0 :: c1 :: _ =>
        if c0 = Char.ofNat 48 ∧ (c1 = Char.ofNat 120 ∨ c1 = Char.ofNat 88) then 16 else 10
      | _ => 10) = 10 := by
    unfold decimalText
    simp only
    cases hcs : Nat.toDigits 10 v with
    | nil => rfl
    | cons c0 cs =>
      cases cs with
      | nil => rfl
      | cons c1 rest =>
        rw [hcs] at h1
        cases L with
        | nil => simp at h1
        | cons d0 L =>
          cases L with
          | nil => simp at h1
          | cons d1 L =>
            simp only [List.map_cons, List.cons.injEq] at h1
            have hc1 := strtol.digit_plain h1.2.1 (by
              have := h2 d1 (List.mem_cons_of_mem _ (List.mem_cons_self _ _)); omega)
            simp only
            rw [if_neg]
            intro hcond
            rcases hcond.2 with hx | hx
            · exact hc1.2.2.2.1 hx
            · exact hc1.2.2.2.2 hx
  unfold xstoi
  simp only [hbase]
  unfold decimalText
  rw [stoi_of_digits 10 (by decide) _ L h1 h2 h3, h4]

theorem hexText_data (x : Char) (v : Nat) :
    hexText (String.mk [Char.ofNat 48, x]) v = String.mk (Char.ofNat 48 :: x :: Nat.toDigits 16 v) := by
  unfold hexText
  apply String.ext
  simp [String.data_append]

theorem main_ms_of_args (fmt : Int → String) (P : SigPlatform) (a b : String) (d s : Int)
    (ha : xstoi a = .ok d) (hb : xstoi b = .ok s) :
    main.ms fmt P true [a, b] =
      ⟨[-1, (UpdateMBRSignature fmt P d (toDWORD s)).ret, 0], 0, none,
        some (UpdateMBRSignature fmt P d (toDWORD s))⟩ := by
  have hargs : main.ms.arguments true [a, b] = .ok (d, toDWORD s) := by
    unfold main.ms.arguments
    simp only [throw_if, Bool.not_true, Bool.false_eq_true, if_false, List.length_cons,
      List.length_nil, ne_eq, not_true_eq_false, List.getD_cons_zero, List.getD_cons_succ,
      ha, hb]
    rfl
  unfold main.ms
  rw [hargs]
  rfl

/-- C24, the code: a signature below 2^31, written in hexadecimal behind `0x` or
`0X` or written in decimal, is converted by `xstoi` to itself, stays itself as
`DWORD` and is handed to `UpdateMBRSignature` by `main`. For a signature from
2^31 on, `xstoi` raises `out_of_range` on each of the three texts; for
`0x80000000`, `main` ends with status -1 and `UpdateMBRSignature` is not called. -/
theorem xstoi_signature (v : Nat) :
    (xstoi (hexText "0x" v) =
      if v < 2147483648 then .ok (v : Int) else .error "stoi argument out of range") ∧
    (xstoi (hexText "0X" v) =
      if v < 2147483648 then .ok (v : Int) else .error "stoi argument out of range") ∧
    (xstoi (toString v) =
      if v < 2147483648 then .ok (v : Int) else .error "stoi argument out of range") ∧
    (v < 2147483648 → toDWORD (v : Int) = v ∧
      ∀ (fmt : Int → String) (P : SigPlatform) (n : Nat), n < 2147483648 →
        ∀ text ∈ [hexText "0x" v, hexText "0X" v, toString v],
          (main.ms fmt P true [toString n, text]).update
            = some (UpdateMBRSignature fmt P (n : Int) v)) ∧
    (hexText "0x" 2147483648 = "0x80000000" ∧
      (main.ms toString (samplePlatform true true PARTITION_STYLE_MBR) true
        ["1", "0x80000000"]).caught = some "stoi argument out of range" ∧
      (main.ms toString (samplePlatform true true PARTITION_STYLE_MBR) true
        ["1", "0x80000000"]).exitStatus = -1 ∧
      (main.ms toString (samplePlatform true true PARTITION_STYLE_MBR) true
        ["1", "0x80000000"]).update.isNone = true) := by
  have hx : xstoi (hexText "0x" v) = stoi.ranged v := by
    have : hexText "0x" v = String.mk (Char.ofNat 48 :: Char.ofNat 120 :: Nat.toDigits 16 v) :=
      hexText_data (Char.ofNat 120) v
    rw [this, xstoi_hexText _ (Or.inl rfl)]
  have hX : xstoi (hexText "0X" v) = stoi.ranged v := by
    have : hexText "0X" v = String.mk (Char.ofNat 48 :: Char.ofNat 88 :: Nat.toDigits 16 v) :=
      hexText_data (Char.ofNat 88) v
    rw [this, xstoi_hexText _ (Or.inr rfl)]
  have hd : xstoi (toString v) = stoi.ranged v := xstoi_decimalText v
  refine ⟨hx, hX, hd, ?_, by decide⟩
  intro hv
  have hD : toDWORD (v : Int) = v := by
    unfold toDWORD
    omega
  refine ⟨hD, ?_⟩
  intro fmt P n hn text htext
  have hn' : xstoi (toString n) = .ok (n : Int) := by
    have := xstoi_decimalText n
    rw [stoi.ranged, if_pos hn] at this
    exact this
  have ht : xstoi text = .ok (v : Int) := by
    simp only [List.mem_cons, List.mem_singleton, List.not_mem_nil, or_false] at htext
    rcases htext with h | h | h <;> rw [h]
    · rw [hx, stoi.ranged, if_pos hv]
    · rw [hX, stoi.ranged, if_pos hv]
    · rw [hd, stoi.ranged, if_pos hv]
  rw [main_ms_of_args fmt P _ _ _ _ hn' ht, hD]

/-- C26: the value `UpdateMBRSignature` returns is 1 when the disk cannot be
opened or its layout cannot be read, else -1 when the signature is 0, else -2
when the disk number is 0, else 0 when the layout is of MBR style and -3 when
it is not; each of the five values is returned on some input. Whenever the
write `IOCTL_DISK_SET_DRIVE_LAYOUT_EX` is issued the value is 0, on a platform
on which the write succeeds as on one on which it fails: the outcome shows in
the last line printed only. -/
theorem UpdateMBRSignature_status (fmt : Int → String) (P : SigPlatform) (diskNumber : Int)
    (dwMBRSignature : Nat) :
    ((UpdateMBRSignature fmt P diskNumber dwMBRSignature).ret =
      if P.openOk = false ∨ P.getOk = false then 1
      else if dwMBRSignature = 0 then -1
      else if diskNumber = 0 then -2
      else if P.layout.PartitionStyle = PARTITION_STYLE_MBR then 0 else -3) ∧
    ((UpdateMBRSignature fmt P diskNumber dwMBRSignature).ret ∈ sigStatuses) ∧
    (∀ status ∈ sigStatuses, ∃ (Q : SigPlatform) (d : Int) (sig : Nat),
      (UpdateMBRSignature fmt Q d sig).ret = status) ∧
    ((UpdateMBRSignature fmt P diskNumber dwMBRSignature).calls.any SigCall.isWrite = true →
      (UpdateMBRSignature fmt { P with setOk := true } diskNumber dwMBRSignature).ret = 0 ∧
      (UpdateMBRSignature fmt { P with setOk := false } diskNumber dwMBRSignature).ret = 0 ∧
      (UpdateMBRSignature fmt { P with setOk := true } diskNumber dwMBRSignature).printed.getLast?
        = some SigMessage.Updated ∧
      (UpdateMBRSignature fmt { P with setOk := false } diskNumber dwMBRSignature).printed.getLast?
        = some (SigMessage.FailedToUpdate P.lastError)) := by
  refine ⟨?_, ?_, ?_, ?_⟩
  · unfold UpdateMBRSignature
    cases hO : P.openOk <;> cases hG : P.getOk <;> by_cases hs : dwMBRSignature = 0 <;>
      by_cases hd : diskNumber = 0 <;>
      by_cases hm : P.layout.PartitionStyle = PARTITION_STYLE_MBR <;>
      simp [hs, hd, hm]
  · unfold UpdateMBRSignature sigStatuses
    cases hO : P.openOk <;> cases hG : P.getOk <;> by_cases hs : dwMBRSignature = 0 <;>
      by_cases hd : diskNumber = 0 <;>
      by_cases hm : P.layout.PartitionStyle = PARTITION_STYLE_MBR <;>
      simp [hs, hd, hm]
  · intro status hstatus
    simp only [sigStatuses, List.mem_cons, List.mem_singleton, List.not_mem_nil, or_false]
      at hstatus
    rcases hstatus with h | h | h | h | h <;> subst h
    · exact ⟨samplePlatform false true PARTITION_STYLE_MBR, 1, 1, rfl⟩
    · exact ⟨samplePlatform true true PARTITION_STYLE_MBR, 1, 0, rfl⟩
    · exact ⟨samplePlatform true true PARTITION_STYLE_MBR, 0, 1, rfl⟩
    · exact ⟨samplePlatform true true PARTITION_STYLE_GPT, 1, 1, rfl⟩
    · exact ⟨samplePlatform true true PARTITION_STYLE_MBR, 1, 1, rfl⟩
  · unfold UpdateMBRSignature
    cases hO : P.openOk <;> cases hG : P.getOk <;> by_cases hs : dwMBRSignature = 0 <;>
      by_cases hd : diskNumber = 0 <;>
      by_cases hm : P.layout.PartitionStyle = PARTITION_STYLE_MBR <;>
      simp [hs, hd, hm, SigCall.isWrite]

/-- C27: for the command `-ms`, `main` returns 0 whenever no error is raised,
whatever `UpdateMBRSignature` returned: the value assigned from it is
overwritten by the `ret = 0` at the end of the `try` block. When an error is
raised (not elevated, not two arguments, or `xstoi` fails) `UpdateMBRSignature`
is not called and `main` returns the -1 that `ret` was initialised with. Each of
the statuses 1, -1, -2, -3 and 0 of `UpdateMBRSignature` occurs in a run in
which `main` returns 0. -/
theorem main_ms_exit_status (fmt : Int → String) (P : SigPlatform) (elevated : Bool)
    (vp : List String) :
    ((main.ms fmt P elevated vp).caught = none →
      (main.ms fmt P elevated vp).exitStatus = 0 ∧
      ∃ run, (main.ms fmt P elevated vp).update = some run ∧
        (main.ms fmt P elevated vp).retAssigned = [-1, run.ret, 0]) ∧
    (∀ ex, (main.ms fmt P elevated vp).caught = some ex →
      (main.ms fmt P elevated vp).exitStatus = -1 ∧
      (main.ms fmt P elevated vp).update.isNone = true ∧
      (main.ms fmt P elevated vp).retAssigned = [-1]) ∧
    (∀ status ∈ sigStatuses, ∃ (Q : SigPlatform) (args : List String) (run : SigRun),
      (main.ms toString Q true args).update = some run ∧ run.ret = status ∧
      (main.ms toString Q true args).exitStatus = 0) := by
  refine ⟨?_, ?_, ?_⟩
  · intro h
    unfold main.ms at h ⊢
    cases hargs : main.ms.arguments elevated vp with
    | error ex => rw [hargs] at h; cases h
    | ok a => exact ⟨rfl, _, rfl, rfl⟩
  · intro ex h
    unfold main.ms at h ⊢
    cases hargs : main.ms.arguments elevated vp with
    | error ex => exact ⟨rfl, rfl, rfl⟩
    | ok a => rw [hargs] at h; cases h
  · intro status hstatus
    simp only [sigStatuses, List.mem_cons, List.mem_singleton, List.not_mem_nil, or_false]
      at hstatus
    rcases hstatus with h | h | h | h | h <;> subst h
    · exact ⟨samplePlatform false true PARTITION_STYLE_MBR, ["1", "1"], _, rfl, rfl, rfl⟩
    · exact ⟨samplePlatform true true PARTITION_STYLE_MBR, ["1", "0"], _, rfl, rfl, rfl⟩
    · exact ⟨samplePlatform true true PARTITION_STYLE_MBR, ["0", "1"], _, rfl, rfl, rfl⟩
    · exact ⟨samplePlatform true true PARTITION_STYLE_GPT, ["1", "1"], _, rfl, rfl, rfl⟩
    · exact ⟨samplePlatform true true PARTITION_STYLE_MBR, ["1", "0x12345678"], _, rfl, rfl, rfl⟩

/-! ### Theorems on the command `-cs` -/

theorem StdMap.find_assign {κ α : Type} [LinearOrder κ] (k : κ) (v : α) (k2 : κ) :
    ∀ (m : StdMap κ α),
      StdMap.find k2 (StdMap.assign k v m) = if k2 = k then some v else StdMap.find k2 m := by
  intro m
  induction m with
  | nil => simp [StdMap.assign, StdMap.find]
  | cons e rest ih =>
    rcases e with ⟨k', v'⟩
    simp only [StdMap.assign]
    by_cases h1 : k < k'
    · rw [if_pos h1]
      simp only [StdMap.find]
    · rw [if_neg h1]
      by_cases h2 : k = k'
      · subst h2
        rw [if_pos rfl]
        simp only [StdMap.find]
        by_cases h3 : k2 = k
        · simp [h3]
        · simp [h3]
      · rw [if_neg h2]
        simp only [StdMap.find, ih]
        by_cases h3 : k2 = k'
        · subst h3
          have : ¬ k2 = k := fun h => h2 h.symm
          simp [this]
        · simp [h3]

theorem firstMbr_append_singleton (pre : List (Int × DiskInfo)) (di : Int × DiskInfo)
    (sig : Nat) :
    firstMbr (pre ++ [di]) sig =
      match firstMbr pre sig with
      | some a => some a
      | none => if mbrWith sig di = true then some di.1 else none := by
  unfold firstMbr
  rw [List.find?_append]
  cases h : pre.find? (mbrWith sig) with
  | some x => rfl
  | none =>
    simp only [Option.none_or, Option.map_none']
    by_cases hm : mbrWith sig di = true
    · simp [List.find?, hm]
    · simp [List.find?, hm]

/-- The loop of the check and its description without `mapper` print the same lines. -/
theorem foldl_checkStep : ∀ (l pre : List (Int × DiskInfo)) (st : StdMap Nat Int × List CheckLine),
    (∀ sig, StdMap.find sig st.1 = firstMbr pre sig) →
    (l.foldl main.checkStep st).2 = st.2 ++ checkLines pre l := by
  intro l
  induction l with
  | nil => intro pre st _; simp [checkLines]
  | cons di rest ih =>
    intro pre st hinv
    rw [List.foldl_cons, checkLines]
    by_cases hm : di.2.DriveLayout.PartitionStyle = PARTITION_STYLE_MBR
    · have hmb : isMbr di = true := by simp [isMbr, hm]
      cases hf : firstMbr pre di.2.DriveLayout.Mbr.Signature with
      | none =>
        have hfind : StdMap.find di.2.DriveLayout.Mbr.Signature st.1 = none := by
          rw [hinv, hf]
        have hstep : main.checkStep st di =
            (StdMap.assign di.2.DriveLayout.Mbr.Signature di.1 st.1,
              st.2 ++ [CheckLine.drive di.1 di.2.DriveLayout.Mbr.Signature]) := by
          simp only [main.checkStep, hm, if_true, hfind]
        rw [hstep, ih (pre ++ [di])]
        · simp [hmb]
        · intro sig
          rw [StdMap.find_assign, firstMbr_append_singleton, hinv]
          by_cases hs : sig = di.2.DriveLayout.Mbr.Signature
          · subst hs
            simp [hf, mbrWith, hm]
          · have : mbrWith sig di = false := by
              simp only [mbrWith, decide_eq_false_iff_not]
              intro h
              exact hs h.2.symm
            simp only [hs, if_false, this, Bool.false_eq_true]
            cases firstMbr pre sig <;> rfl
      | some a =>
        have hfind : StdMap.find di.2.DriveLayout.Mbr.Signature st.1 = some a := by
          rw [hinv, hf]
        have hstep : main.checkStep st di =
            (st.1, st.2 ++ [CheckLine.drive di.1 di.2.DriveLayout.Mbr.Signature] ++
              [CheckLine.collision a di.1 di.2.DriveLayout.Mbr.Signature]) := by
          simp only [main.checkStep, hm, if_true, hfind]
        rw [hstep, ih (pre ++ [di])]
        · simp [hmb]
        · intro sig
          rw [firstMbr_append_singleton, hinv]
          by_cases hs : sig = di.2.DriveLayout.Mbr.Signature
          · subst hs
            simp [hf]
          · have : mbrWith sig di = false := by
              simp only [mbrWith, decide_eq_false_iff_not]
              intro h
              exact hs h.2.symm
            simp only [this, Bool.false_eq_true, if_false]
            cases firstMbr pre sig <;> rfl
    · have hmb : isMbr di = false := by simp [isMbr, hm]
      have hstep : main.checkStep st di = st := by
        simp only [main.checkStep, hm, if_false]
      rw [hstep, ih (pre ++ [di])]
      · simp [hmb]
      · intro sig
        rw [firstMbr_append_singleton, hinv]
        have : mbrWith sig di = false := by
          simp only [mbrWith, decide_eq_false_iff_not]
          intro h
          exact hm h.1
        simp only [this, Bool.false_eq_true, if_false]
        cases firstMbr pre sig <;> rfl

theorem checkMBRSignature_eq (vdi : StdMap Int DiskInfo) :
    main.checkMBRSignature vdi = checkLines [] vdi := by
  unfold main.checkMBRSignature
  rw [foldl_checkStep vdi [] ([], []) (fun sig => rfl)]
  rfl

theorem StdMap.assign_sorted {α : Type} (k : Int) (v : α) : ∀ (m : StdMap Int α),
    m.Pairwise (fun a b => a.1 < b.1) →
    (StdMap.assign k v m).Pairwise (fun a b => a.1 < b.1) := by
  intro m
  induction m with
  | nil => intro _; simp [StdMap.assign]
  | cons e rest ih =>
    rcases e with ⟨k', v'⟩
    intro h
    have h' := List.pairwise_cons.1 h
    simp only [StdMap.assign]
    by_cases h1 : k < k'
    · rw [if_pos h1]
      refine List.pairwise_cons.2 ⟨?_, h⟩
      intro x hx
      rcases List.mem_cons.1 hx with hx | hx
      · rw [hx]; exact h1
      · exact lt_trans h1 (h'.1 x hx)
    · rw [if_neg h1]
      by_cases h2 : k = k'
      · subst h2
        rw [if_pos rfl]
        exact List.pairwise_cons.2 ⟨h'.1, h'.2⟩
      · rw [if_neg h2]
        refine List.pairwise_cons.2 ⟨?_, ih h'.2⟩
        intro x hx
        rcases StdMap.mem_assign hx with hx | hx
        · rw [hx]
          exact lt_of_le_of_ne (not_lt.1 h1) (fun h => h2 h.symm)
        · exact h'.1 x hx

theorem enumerate_sorted {fmt : GUID → String} {devices : List Device} {m : StdMap Int DiskInfo}
    (h : enumerate fmt devices = .ok m) : m.Pairwise (fun a b => a.1 < b.1) := by
  unfold enumerate BuildDeviceList at h
  have hall := deviceLoop_ok_inv devices [] m h
  rw [deviceLoop_ok devices [] hall] at h
  simp only [Except.ok.injEq] at h
  subst h
  have key : ∀ (l : List Device) (vdi : StdMap Int DiskInfo),
      vdi.Pairwise (fun a b => a.1 < b.1) →
      (l.foldl (fun m d => StdMap.assign (toInt32 d.StorageDeviceNumber.DeviceNumber)
        (buildDiskInfo fmt d) m) vdi).Pairwise (fun a b => a.1 < b.1) := by
    intro l
    induction l with
    | nil => intro vdi hv; exact hv
    | cons d rest ih =>
      intro vdi hv
      rw [List.foldl_cons]
      exact ih _ (StdMap.assign_sorted _ _ _ hv)
  exact key devices [] List.Pairwise.nil

theorem mem_checkLines (a b : Int) (sig : Nat) : ∀ (l pre : List (Int × DiskInfo)),
    CheckLine.collision a b sig ∈ checkLines pre l ↔
      ∃ l1 di l2, l = l1 ++ di :: l2 ∧ mbrWith sig di = true ∧ di.1 = b ∧
        firstMbr (pre ++ l1) sig = some a := by
  intro l
  induction l with
  | nil =>
    intro pre
    simp [checkLines]
  | cons d rest ih =>
    intro pre
    rw [checkLines, List.mem_append, ih (pre ++ [d])]
    constructor
    · rintro (h | ⟨l1, di, l2, h1, h2, h3, h4⟩)
      · by_cases hm : isMbr d = true
        · rw [if_pos hm] at h
          rcases List.mem_cons.1 h with h | h
          · cases h
          · cases hf : firstMbr pre d.2.DriveLayout.Mbr.Signature with
            | none => rw [hf] at h; cases h
            | some first =>
              rw [hf] at h
              simp only [List.mem_singleton, CheckLine.collision.injEq] at h
              obtain ⟨ha, hb, hs⟩ := h
              subst ha hb hs
              refine ⟨[], d, rest, rfl, ?_, rfl, by simpa using hf⟩
              simp only [isMbr, decide_eq_true_eq] at hm
              simp [mbrWith, hm]
        · rw [if_neg hm] at h
          cases h
      · exact ⟨d :: l1, di, l2, by rw [h1]; rfl, h2, h3, by simpa using h4⟩
    · rintro ⟨l1, di, l2, h1, h2, h3, h4⟩
      cases l1 with
      | nil =>
        simp only [List.nil_append, List.cons.injEq] at h1
        obtain ⟨hd, _⟩ := h1
        subst hd
        left
        simp only [mbrWith, decide_eq_true_eq] at h2
        have hm : isMbr d = true := by simp [isMbr, h2.1]
        rw [if_pos hm, h2.2]
        simp only [List.append_nil] at h4
        rw [h4, h3]
        simp
      | cons x l1 =>
        simp only [List.cons_append, List.cons.injEq] at h1
        obtain ⟨hx, hr⟩ := h1
        subst hx
        right
        exact ⟨l1, di, l2, hr, h2, h3, by simpa using h4⟩

theorem firstMbr_mem {pre : List (Int × DiskInfo)} {sig : Nat} {a : Int}
    (h : firstMbr pre sig = some a) :
    ∃ as x bs, pre = as ++ x :: bs ∧ x.1 = a ∧ mbrWith sig x = true ∧
      ∀ y ∈ as, mbrWith sig y = false := by
  unfold firstMbr at h
  cases hf : pre.find? (mbrWith sig) with
  | none => rw [hf] at h; cases h
  | some x =>
    rw [hf] at h
    simp only [Option.map_some', Option.some.injEq] at h
    obtain ⟨hp, as, bs, hl, hn⟩ := List.find?_eq_some.1 hf
    exact ⟨as, x, bs, hl, h, hp, fun y hy => by simpa using hn y hy⟩

theorem firstMbr_isSome {pre : List (Int × DiskInfo)} {sig : Nat} {x : Int × DiskInfo}
    (hx : x ∈ pre) (hm : mbrWith sig x = true) : ∃ a, firstMbr pre sig = some a := by
  unfold firstMbr
  cases hf : pre.find? (mbrWith sig) with
  | none =>
    have := List.find?_eq_none.1 hf x hx
    exact absurd hm this
  | some y => exact ⟨y.1, rfl⟩

/-- On a mapping with ascending keys: which collision lines are printed. -/
theorem collision_mem_iff (vdi : StdMap Int DiskInfo)
    (hs : vdi.Pairwise (fun a b => a.1 < b.1)) (a b : Int) (sig : Nat) :
    CheckLine.collision a b sig ∈ checkLines [] vdi ↔
      ∃ da db, (a, da) ∈ vdi ∧ (b, db) ∈ vdi ∧ a < b ∧ mbrWith sig (a, da) = true ∧
        mbrWith sig (b, db) = true ∧ ∀ x ∈ vdi, mbrWith sig x = true → a ≤ x.1 := by
  rw [mem_checkLines]
  constructor
  · rintro ⟨l1, di, l2, h1, h2, h3, h4⟩
    simp only [List.nil_append] at h4
    obtain ⟨as, x, bs, hl, hxa, hxm, hno⟩ := firstMbr_mem h4
    subst hl
    rw [h1] at hs
    simp only [List.append_assoc, List.cons_append] at hs h1
    have hsplit := List.pairwise_append.1 hs
    have hx_tail := List.pairwise_cons.1 hsplit.2.1
    rcases x with ⟨xa, xd⟩
    rcases di with ⟨dk, dd⟩
    simp only at hxa h3
    subst hxa h3
    refine ⟨xd, dd, ?_, ?_, ?_, hxm, h2, ?_⟩
    · rw [h1]; simp
    · rw [h1]; simp
    · exact hx_tail.1 (dk, dd) (by simp)
    · intro y hy hym
      rw [h1] at hy
      rcases List.mem_append.1 hy with hy | hy
      · rw [hno y hy] at hym; cases hym
      · rcases List.mem_cons.1 hy with hy | hy
        · rw [hy]
        · exact le_of_lt (hx_tail.1 y hy)
  · rintro ⟨da, db, ha, hb, hab, hma, hmb, hmin⟩
    obtain ⟨l1, l2, hl⟩ := List.append_of_mem hb
    refine ⟨l1, (b, db), l2, hl, hmb, rfl, ?_⟩
    simp only [List.nil_append]
    rw [hl] at hs ha
    have hsplit := List.pairwise_append.1 hs
    have hb_tail := List.pairwise_cons.1 hsplit.2.1
    have ha1 : (a, da) ∈ l1 := by
      rcases List.mem_append.1 ha with h | h
      · exact h
      · rcases List.mem_cons.1 h with h | h
        · have : a = b := congrArg Prod.fst h
          omega
        · have := hb_tail.1 _ h
          simp only at this
          omega
    obtain ⟨c, hc⟩ := firstMbr_isSome ha1 hma
    obtain ⟨as, x, bs, hl1, hxc, hxm, hno⟩ := firstMbr_mem hc
    have hxmem : x ∈ vdi := by rw [hl, hl1]; simp
    have h1 : a ≤ c := by rw [← hxc]; exact hmin x hxmem hxm
    have h2 : c ≤ a := by
      rw [hl1] at ha1
      have hs1 := List.pairwise_append.1 (hl1 ▸ hsplit.1)
      rcases List.mem_append.1 ha1 with h | h
      · rw [hno _ h] at hma; cases hma
      · rcases List.mem_cons.1 h with h | h
        · rw [← hxc, ← h]
        · have := (List.pairwise_cons.1 hs1.2.1).1 _ h
          simp only at this
          omega
    rw [hc]
    congr 1
    omega

theorem firstMbr_eq_none_iff (pre : List (Int × DiskInfo)) (sig : Nat) :
    firstMbr pre sig = none ↔ sig ∉ mbrSignatures pre := by
  unfold firstMbr mbrSignatures
  simp only [Option.map_eq_none', List.find?_eq_none, List.mem_map, List.mem_filter, not_exists,
    not_and, and_imp]
  constructor
  · intro h x hx hm hsig
    apply h x hx
    simp only [isMbr, decide_eq_true_eq] at hm
    simp [mbrWith, hm, hsig]
  · intro h x hx hm
    simp only [mbrWith, decide_eq_true_eq] at hm
    exact h x hx (by simp [isMbr, hm.1]) hm.2

theorem mbrSignatures_append_singleton (pre : List (Int × DiskInfo)) (di : Int × DiskInfo) :
    mbrSignatures (pre ++ [di]) =
      mbrSignatures pre ++ (if isMbr di = true then [di.2.DriveLayout.Mbr.Signature] else []) := by
  unfold mbrSignatures
  rw [List.filter_append, List.map_append]
  by_cases h : isMbr di = true
  · simp [List.filter, h]
  · simp [List.filter, h]

theorem collisionLines_count : ∀ (l pre : List (Int × DiskInfo)),
    (collisionLines (checkLines pre l)).length + (mbrSignatures (pre ++ l)).toFinset.card
      = (mbrSignatures pre).toFinset.card + (l.filter isMbr).length := by
  intro l
  induction l with
  | nil => intro pre; simp [checkLines, collisionLines]
  | cons di rest ih =>
    intro pre
    have h := ih (pre ++ [di])
    rw [List.append_assoc, List.singleton_append, mbrSignatures_append_singleton] at h
    rw [checkLines]
    unfold collisionLines at h ⊢
    rw [List.filter_append, List.length_append]
    by_cases hm : isMbr di = true
    · have hfil : (di :: rest).filter isMbr = di :: rest.filter isMbr :=
        List.filter_cons_of_pos hm
      rw [hfil, List.length_cons, if_pos hm]
      rw [if_pos hm] at h
      cases hf : firstMbr pre di.2.DriveLayout.Mbr.Signature with
      | none =>
        have hnot := (firstMbr_eq_none_iff _ _).1 hf
        have hcard : (mbrSignatures pre ++ [di.2.DriveLayout.Mbr.Signature]).toFinset.card
            = (mbrSignatures pre).toFinset.card + 1 := by
          rw [List.toFinset_append, List.toFinset_cons, List.toFinset_nil,
            Finset.union_comm, Finset.insert_union, Finset.empty_union,
            Finset.card_insert_of_not_mem (by simpa using hnot)]
        rw [hcard] at h
        have e1 : (List.filter (fun line => match line with
            | CheckLine.collision _ _ _ => true
            | _ => false)
            [CheckLine.drive di.1 di.2.DriveLayout.Mbr.Signature]).length = 0 := rfl
        simp only [e1]
        omega
      | some first =>
        have hin : di.2.DriveLayout.Mbr.Signature ∈ mbrSignatures pre := by
          by_contra hc
          rw [(firstMbr_eq_none_iff _ _).2 hc] at hf
          cases hf
        have hcard : (mbrSignatures pre ++ [di.2.DriveLayout.Mbr.Signature]).toFinset.card
            = (mbrSignatures pre).toFinset.card := by
          rw [List.toFinset_append, List.toFinset_cons, List.toFinset_nil,
            Finset.union_comm, Finset.insert_union, Finset.empty_union,
            Finset.insert_eq_of_mem (by simpa using hin)]
        rw [hcard] at h
        have e1 : (List.filter (fun line => match line with
            | CheckLine.collision _ _ _ => true
            | _ => false)
            [CheckLine.drive di.1 di.2.DriveLayout.Mbr.Signature,
              CheckLine.collision first di.1 di.2.DriveLayout.Mbr.Signature]).length = 1 := rfl
        simp only [e1]
        omega
    · have hfil : (di :: rest).filter isMbr = rest.filter isMbr :=
        List.filter_cons_of_neg hm
      rw [hfil, if_neg hm]
      rw [if_neg hm, List.append_nil] at h
      simp only [List.filter_nil, List.length_nil]
      omega

theorem sorted_key_unique {vdi : StdMap Int DiskInfo}
    (hs : vdi.Pairwise (fun a b => a.1 < b.1)) {k : Int} {d d' : DiskInfo}
    (h : (k, d) ∈ vdi) (h' : (k, d') ∈ vdi) : d = d' := by
  induction vdi with
  | nil => cases h
  | cons e rest ih =>
    have hp := List.pairwise_cons.1 hs
    rcases List.mem_cons.1 h with h1 | h1 <;> rcases List.mem_cons.1 h' with h2 | h2
    · rw [← h2] at h1
      exact (Prod.mk.injEq _ _ _ _ ▸ h1).2
    · have := hp.1 _ h2
      rw [← h1] at this
      simp only [lt_self_iff_false] at this
    · have := hp.1 _ h1
      rw [← h2] at this
      simp only [lt_self_iff_false] at this
    · exact ih hp.2 h1 h2

/-- C23: over a mapping returned by `enumerate`, the check `-cs` prints a
collision line naming the disks `a` and `b` and the signature `sig` exactly
when `a` and `b` are MBR-style disks of the mapping with the signature `sig`,
`a` is below `b`, and `a` is the smallest key of an MBR-style disk with that
signature. A disk gets a collision line exactly when it is of MBR style and an
MBR-style disk with a smaller key has its signature; disks of any other style
neither cause nor appear in a line. The number of collision lines is the number
of MBR-style disks minus the number of distinct signatures among them. -/
theorem checkMBRSignature_collisions (fmt : GUID → String) (devices : List Device)
    (vdi : StdMap Int DiskInfo) (h : enumerate fmt devices = .ok vdi) :
    (∀ (a b : Int) (sig : Nat),
      CheckLine.collision a b sig ∈ main.checkMBRSignature vdi ↔
        ∃ da db, (a, da) ∈ vdi ∧ (b, db) ∈ vdi ∧ a < b ∧ mbrWith sig (a, da) = true ∧
          mbrWith sig (b, db) = true ∧ ∀ x ∈ vdi, mbrWith sig x = true → a ≤ x.1) ∧
    (∀ (b : Int) (db : DiskInfo), (b, db) ∈ vdi →
      ((∃ a sig, CheckLine.collision a b sig ∈ main.checkMBRSignature vdi) ↔
        isMbr (b, db) = true ∧ ∃ c dc, (c, dc) ∈ vdi ∧ c < b ∧
          mbrWith db.DriveLayout.Mbr.Signature (c, dc) = true)) ∧
    ((collisionLines (main.checkMBRSignature vdi)).length
      = (vdi.filter isMbr).length - (mbrSignatures vdi).toFinset.card) ∧
    ((mbrSignatures vdi).toFinset.card ≤ (vdi.filter isMbr).length) := by
  have hs := enumerate_sorted h
  have hcount := collisionLines_count vdi []
  simp only [List.nil_append, mbrSignatures, List.filter_nil, List.map_nil, List.toFinset_nil,
    Finset.card_empty, Nat.zero_add] at hcount
  rw [checkMBRSignature_eq]
  refine ⟨collision_mem_iff vdi hs, ?_, ?_, ?_⟩
  · intro b db hb
    constructor
    · rintro ⟨a, sig, hline⟩
      obtain ⟨da, db', ha, hb', hab, hma, hmb, _⟩ := (collision_mem_iff vdi hs a b sig).1 hline
      have hdb := sorted_key_unique hs hb hb'
      subst hdb
      simp only [mbrWith, decide_eq_true_eq] at hmb
      refine ⟨by simp [isMbr, hmb.1], a, da, ha, hab, ?_⟩
      rw [hmb.2]
      exact hma
    · rintro ⟨hm, c, dc, hc, hcb, hmc⟩
      obtain ⟨l1, l2, hl⟩ := List.append_of_mem hb
      have hs' := hs
      rw [hl] at hs' hc
      have hsplit := List.pairwise_append.1 hs'
      have hb_tail := List.pairwise_cons.1 hsplit.2.1
      have hc1 : (c, dc) ∈ l1 := by
        rcases List.mem_append.1 hc with h1 | h1
        · exact h1
        · rcases List.mem_cons.1 h1 with h1 | h1
          · have : c = b := congrArg Prod.fst h1
            omega
          · have := hb_tail.1 _ h1
            simp only at this
            omega
      obtain ⟨a, ha⟩ := firstMbr_isSome hc1 hmc
      refine ⟨a, db.DriveLayout.Mbr.Signature, (mem_checkLines _ _ _ vdi []).2
        ⟨l1, (b, db), l2, hl, ?_, rfl, by simpa using ha⟩⟩
      simp only [isMbr, decide_eq_true_eq] at hm
      simp [mbrWith, hm]
  · unfold mbrSignatures
    omega
  · unfold mbrSignatures
    omega

/-- C23, witness: the four sample disks; the disks 0 and 2 collide. -/
theorem checkMBRSignature_collisions_witness :
    enumerate guidText sampleSigDevices = .ok sampleSigDisks ∧
    main.checkMBRSignature sampleSigDisks =
      [CheckLine.drive 0 7, CheckLine.drive 2 7, CheckLine.collision 0 2 7, CheckLine.drive 3 9] ∧
    (collisionLines (main.checkMBRSignature sampleSigDisks)).length
      = (sampleSigDisks.filter isMbr).length - (mbrSignatures sampleSigDisks).toFinset.card ∧
    (sampleSigDisks.filter isMbr).length = 3 ∧ (mbrSignatures sampleSigDisks).toFinset.card = 2 :=
  ⟨rfl, by decide,
    (checkMBRSignature_collisions guidText sampleSigDevices sampleSigDisks rfl).2.2.1,
    by decide, by decide⟩

/-! ### The records of a returned mapping -/

theorem StdMap.mem_of_find {κ α : Type} [DecidableEq κ] {k : κ} {v : α} :
    ∀ {m : StdMap κ α}, StdMap.find k m = some v → (k, v) ∈ m := by
  intro m
  induction m with
  | nil => intro h; cases h
  | cons e rest ih =>
    rcases e with ⟨k', v'⟩
    intro h
    simp only [StdMap.find] at h
    by_cases hk : k = k'
    · rw [if_pos hk] at h
      simp only [Option.some.injEq] at h
      rw [hk, h]
      exact List.mem_cons_self _ _
    · rw [if_neg hk] at h
      exact List.mem_cons_of_mem _ (ih h)

/-- The device loop keeps the record found under a key that no later device
assigns. -/
theorem foldl_assign_find {fmt : GUID → String} (k : Int) (v : DiskInfo) :
    ∀ (post : List Device) (vdi : StdMap Int DiskInfo),
      (∀ x ∈ post, toInt32 x.StorageDeviceNumber.DeviceNumber ≠ k) →
      StdMap.find k vdi = some v →
      StdMap.find k (post.foldl (fun m d =>
        StdMap.assign (toInt32 d.StorageDeviceNumber.DeviceNumber) (buildDiskInfo fmt d) m) vdi)
        = some v := by
  intro post
  induction post with
  | nil => intro vdi _ h; exact h
  | cons d rest ih =>
    intro vdi hne h
    rw [List.foldl_cons]
    refine ih _ (fun x hx => hne x (List.mem_cons_of_mem _ hx)) ?_
    rw [StdMap.find_assign, if_neg (fun e => hne d (List.mem_cons_self _ _) e.symm)]
    exact h

/-- C1, as the code has it: a failing device-number query is fatal. At the
first device whose query fails `enumerate` raises `"DeviceIoControl:"` followed
by the error text and returns no mapping; a mapping is returned exactly when
the query succeeds for every device. The returned mapping then holds one
record under each key, every record is built from an enumerated device, the
key of every device is present, and the record found under the key of a device
is the record built from that device whenever no device enumerated after it
has the same number (`vdi[n] = diskInfo` assigns: a later device with the same
number replaces the earlier record); so with pairwise distinct device numbers
every device has its own record under its key. -/
theorem enumerate_device_number_failure (fmt : GUID → String) (devices : List Device) :
    ((∃ m, enumerate fmt devices = .ok m) ↔ ∀ d ∈ devices, d.numberOk = true) ∧
    (∀ m, enumerate fmt devices = .ok m →
      ∀ d ∈ devices, toInt32 d.StorageDeviceNumber.DeviceNumber ∈ m.map Prod.fst) ∧
    (∀ pre d post, devices = pre ++ d :: post → (∀ x ∈ pre, x.numberOk = true) →
      d.numberOk = false → enumerate fmt devices = .error ("DeviceIoControl:" ++ d.lastError)) ∧
    (∀ m, enumerate fmt devices = .ok m →
      m.Pairwise (fun a b => a.1 < b.1) ∧
      (∀ x ∈ m, ∃ d ∈ devices,
        x = (toInt32 d.StorageDeviceNumber.DeviceNumber, buildDiskInfo fmt d)) ∧
      (∀ pre d post, devices = pre ++ d :: post →
        (∀ x ∈ post, toInt32 x.StorageDeviceNumber.DeviceNumber
          ≠ toInt32 d.StorageDeviceNumber.DeviceNumber) →
        StdMap.find (toInt32 d.StorageDeviceNumber.DeviceNumber) m = some (buildDiskInfo fmt d) ∧
        (toInt32 d.StorageDeviceNumber.DeviceNumber, buildDiskInfo fmt d) ∈ m) ∧
      (devices.Pairwise (fun a b => toInt32 a.StorageDeviceNumber.DeviceNumber
          ≠ toInt32 b.StorageDeviceNumber.DeviceNumber) →
        ∀ d ∈ devices,
          StdMap.find (toInt32 d.StorageDeviceNumber.DeviceNumber) m
            = some (buildDiskInfo fmt d) ∧
          (toInt32 d.StorageDeviceNumber.DeviceNumber, buildDiskInfo fmt d) ∈ m)) := by
  have hlast : ∀ m, enumerate fmt devices = .ok m →
      ∀ pre d post, devices = pre ++ d :: post →
        (∀ x ∈ post, toInt32 x.StorageDeviceNumber.DeviceNumber
          ≠ toInt32 d.StorageDeviceNumber.DeviceNumber) →
        StdMap.find (toInt32 d.StorageDeviceNumber.DeviceNumber) m
          = some (buildDiskInfo fmt d) := by
    intro m h pre d post hdev hne
    have hall := deviceLoop_ok_inv devices [] m h
    unfold enumerate BuildDeviceList at h
    rw [deviceLoop_ok devices [] hall] at h
    simp only [Except.ok.injEq] at h
    subst h
    subst hdev
    rw [List.foldl_append, List.foldl_cons]
    refine foldl_assign_find _ _ post _ hne ?_
    rw [StdMap.find_assign, if_pos rfl]
  refine ⟨⟨fun ⟨m, h⟩ => deviceLoop_ok_inv devices [] m h,
    fun h => ⟨_, deviceLoop_ok devices [] h⟩⟩, ?_, ?_, ?_⟩
  · intro m h d hd
    have hall := deviceLoop_ok_inv devices [] m h
    unfold enumerate BuildDeviceList at h
    rw [deviceLoop_ok devices [] hall] at h
    simp only [Except.ok.injEq] at h
    subst h
    exact foldl_assign_key devices [] _ (Or.inr ⟨d, hd, rfl⟩)
  · intro pre d post hdev hpre hd
    clear hlast
    subst hdev
    unfold enumerate BuildDeviceList
    generalize ([] : StdMap Int DiskInfo) = vdi
    induction pre generalizing vdi with
    | nil => exact deviceLoop_cons_fail hd
    | cons a rest ih =>
      rw [List.cons_append, deviceLoop_cons_ok (hpre a (List.mem_cons_self _ _))]
      exact ih (fun x hx => hpre x (List.mem_cons_of_mem _ hx)) _
  · intro m h
    refine ⟨enumerate_sorted h, ?_, ?_, ?_⟩
    · intro x hx
      obtain ⟨d, hd, _, hxd⟩ := enumerate_mem h hx
      exact ⟨d, hd, hxd⟩
    · intro pre d post hdev hne
      have hf := hlast m h pre d post hdev hne
      exact ⟨hf, StdMap.mem_of_find hf⟩
    · intro hpw d hd
      obtain ⟨pre, post, hdev⟩ := List.append_of_mem hd
      have hne : ∀ x ∈ post, toInt32 x.StorageDeviceNumber.DeviceNumber
          ≠ toInt32 d.StorageDeviceNumber.DeviceNumber := by
        rw [hdev] at hpw
        have h2 := (List.pairwise_append.1 hpw).2.1
        intro x hx e
        exact (List.pairwise_cons.1 h2).1 x hx e.symm
      have hf := hlast m h pre d post hdev hne
      exact ⟨hf, StdMap.mem_of_find hf⟩

/-- Two devices that report one device number leave one record, that of the
device enumerated last. -/
theorem enumerate_same_number_overwrites :
    enumerate guidText
      [sampleDevice 7 true (sampleLayout 1 1 (sampleEntry 1 1000 sampleId)),
       sampleDevice 7 true (sampleLayout 0 1 (sampleEntry 0 2000 sampleId))]
      = .ok [(7, buildDiskInfo guidText
          (sampleDevice 7 true (sampleLayout 0 1 (sampleEntry 0 2000 sampleId))))] := rfl

end wde2

namespace vss

open wde2 (GUID)

/-! ### Running procedures -/

theorem bind_run {α β : Type} (p : Proc α) (f : α → Proc β) (s : Script) (n : Nat) :
    (p >>= f) s n =
      match p s n with
      | ⟨.ok a, e, n'⟩ => ⟨(f a s n').res, e ++ (f a s n').events, (f a s n').next⟩
      | ⟨.thrown msg, e, n'⟩ => ⟨.thrown msg, e, n'⟩
      | ⟨.diverged, e, n'⟩ => ⟨.diverged, e, n'⟩ := rfl

theorem proc_bind_run {α β : Type} (p : Proc α) (f : α → Proc β) (s : Script) (n : Nat) :
    Proc.bind p f s n =
      match p s n with
      | ⟨.ok a, e, n'⟩ => ⟨(f a s n').res, e ++ (f a s n').events, (f a s n').next⟩
      | ⟨.thrown msg, e, n'⟩ => ⟨.thrown msg, e, n'⟩
      | ⟨.diverged, e, n'⟩ => ⟨.diverged, e, n'⟩ := rfl

theorem pure_run {α : Type} (a : α) (s : Script) (n : Nat) :
    (pure a : Proc α) s n = ⟨.ok a, [], n⟩ := rfl

theorem call_run (c : Call) (s : Script) (n : Nat) :
    call c s n = ⟨.ok (s n), [⟨c, s n⟩], n + 1⟩ := rfl

theorem throw_on_fail_run (msg : String) (cond : Bool) (s : Script) (n : Nat) :
    throw_on_fail msg cond s n = if cond then ⟨.thrown msg, [], n⟩ else ⟨.ok (), [], n⟩ := rfl

theorem diverge_run {α : Type} (s : Script) (n : Nat) :
    (diverge : Proc α) s n = ⟨.diverged, [], n⟩ := rfl

theorem failed_of_isPassive {ev : Event} (h : ev.call.isPassive = true) : failed ev = false := by
  rcases ev with ⟨c, r⟩
  cases c <;> simp_all [Call.isPassive, failed]

theorem any_failed_of_all_isPassive {e : List Event}
    (h : e.all (fun x => x.call.isPassive) = true) : e.any failed = false := by
  induction e with
  | nil => rfl
  | cons ev rest ih =>
    simp only [List.all_cons, Bool.and_eq_true] at h
    simp [failed_of_isPassive h.1, ih h.2]

theorem FailFinal_append_right {e e' : List Event} (h : e.any failed = false) :
    FailFinal (e ++ e') = FailFinal e' := by
  induction e with
  | nil => rfl
  | cons ev rest ih =>
    simp only [List.any_cons, Bool.or_eq_false_iff] at h
    simp [FailFinal, h.1, ih h.2]

theorem FailFinal_append_passive {e e' : List Event} (h : FailFinal e = true)
    (h' : e'.all (fun x => x.call.isPassive) = true) : FailFinal (e ++ e') = true := by
  induction e with
  | nil =>
    induction e' with
    | nil => rfl
    | cons ev rest ih =>
      simp only [List.all_cons, Bool.and_eq_true] at h'
      simp only [List.nil_append, FailFinal, failed_of_isPassive h'.1]
      simpa using ih h'.2
  | cons ev rest ih =>
    simp only [FailFinal, List.cons_append] at h ⊢
    by_cases hf : failed ev = true
    · rw [if_pos hf] at h ⊢
      have h3 : (rest ++ e').all (fun x => x.call.isPassive) = true := by
        rw [List.all_append, h, h']
        rfl
      exact h3
    · rw [if_neg hf] at h ⊢
      exact ih h

theorem FailFinal_split {pre post : List Event} {ev : Event}
    (h : FailFinal (pre ++ ev :: post) = true) (hf : failed ev = true) :
    ∀ x ∈ post, x.call.isPassive = true := by
  induction pre with
  | nil =>
    simp only [List.nil_append, FailFinal, hf, if_true, List.all_eq_true] at h
    exact h
  | cons a rest ih =>
    simp only [List.cons_append, FailFinal] at h
    by_cases ha : failed a = true
    · rw [if_pos ha] at h
      have h3 : ev.call.isPassive = true := by
        rw [List.all_eq_true] at h
        exact h ev (by simp)
      rw [failed_of_isPassive h3] at hf
      exact absurd hf (by simp)
    · rw [if_neg ha] at h
      exact ih h

theorem post_extend {α : Type} {r : Res α} {e pre : List Event}
    (hpre : pre.any failed = false) (h : Post r e) : Post r (pre ++ e) := by
  unfold Post at h ⊢
  simp only [List.any_append, hpre, Bool.false_or, FailFinal_append_right hpre]
  exact h

theorem post_thrown {α β : Type} {m : String} {e : List Event}
    (h : Post (Res.thrown m : Res α) e) : Post (Res.thrown m : Res β) e :=
  ⟨fun _ _ => h.1 m rfl, fun hne => absurd rfl (hne m)⟩

theorem post_diverged {α β : Type} {e : List Event}
    (h : Post (Res.diverged : Res α) e) : Post (Res.diverged : Res β) e :=
  ⟨fun _ hm => (by cases hm), fun _ => h.2 (by simp)⟩

theorem inv_pure {α : Type} (a : α) : Inv (pure a : Proc α) := by
  intro s n
  simp [pure_run, Post]

theorem inv_diverge {α : Type} : Inv (diverge : Proc α) := by
  intro s n
  simp [diverge_run, Post]

theorem inv_bind {α β : Type} {p : Proc α} {f : α → Proc β} (hp : Inv p) (hf : ∀ a, Inv (f a)) :
    Inv (p >>= f) := by
  intro s n
  rw [bind_run]
  have h1 := hp s n
  rcases hpe : p s n with ⟨r, e, n'⟩
  rw [hpe] at h1
  cases r with
  | ok a => exact post_extend (h1.2 (by simp)) (hf a s n')
  | thrown m => exact post_thrown h1
  | diverged => exact post_diverged h1

theorem inv_call {c : Call} (h : ∀ r, failed ⟨c, r⟩ = false) : Inv (call c) := by
  intro s n
  simp [call_run, h, Post]

theorem inv_checked {β : Type} {c : Call} {msg : String} {cond : Response → Bool}
    {k : Response → Proc β} (h : ∀ r, failed ⟨c, r⟩ = cond r) (hk : ∀ r, Inv (k r)) :
    Inv (call c >>= fun r => throw_on_fail msg (cond r) >>= fun _ => k r) := by
  intro s n
  simp only [bind_run, call_run, throw_on_fail_run]
  by_cases hc : cond (s n) = true
  · simp [hc, h, FailFinal, Post]
  · simp only [hc]
    have he : failed ⟨c, s n⟩ = false := by rw [h]; simpa using hc
    exact post_extend (by simp [he]) (post_extend (by simp) (hk (s n) s _))

theorem inv_checked_last {c : Call} {msg : String} {cond : Response → Bool}
    (h : ∀ r, failed ⟨c, r⟩ = cond r) :
    Inv (call c >>= fun r => throw_on_fail msg (cond r)) := by
  intro s n
  simp only [bind_run, call_run, throw_on_fail_run]
  by_cases hc : cond (s n) = true
  · simp [hc, h, FailFinal, Post]
  · have he : failed ⟨c, s n⟩ = false := by rw [h]; simpa using hc
    simp [hc, he, Post]

theorem inv_onThrow {α : Type} {unwind : Bool} {dtors : Proc Unit} {body : Proc α}
    (hb : Inv body) (hd : ∀ s n, (dtors s n).events.all (fun x => x.call.isPassive) = true) :
    Inv (onThrow unwind dtors body) := by
  intro s n
  have h1 := hb s n
  unfold vss.onThrow
  rcases hpe : body s n with ⟨r, e, n'⟩
  rw [hpe] at h1
  cases r with
  | ok a => exact h1
  | diverged => exact h1
  | thrown m =>
    have h2 := h1.1 m rfl
    cases unwind with
    | false => exact h1
    | true =>
      have h3 := hd s n'
      dsimp only at h2 h3 ⊢
      simp only [if_true, Post, List.any_append, h2.1, Bool.true_or,
        FailFinal_append_passive h2.2 h3]
      simp

/-- A finished poll returns at once. -/
theorem loop_done (pStatus : AsyncOp) (ms fuel : Nat) (a : HRESULT) (counter : Nat)
    (s : Script) (n : Nat) (h : ¬ (a ≠ VSS_S_ASYNC_CANCELLED ∧ a ≠ VSS_S_ASYNC_FINISHED)) :
    CheckStatusAndCancellation.loop pStatus ms fuel a counter s n = ⟨.ok a, [], n⟩ := by
  cases fuel <;> rw [CheckStatusAndCancellation.loop, if_neg h] <;> rfl

theorem loopPost_extend {r : Res HRESULT} {e : List Event} (pre : List Event)
    (hpre : pre.any failed = false) (h : LoopPost r e) : LoopPost r (pre ++ e) := by
  unfold LoopPost at h ⊢
  simp only [List.any_append, hpre, Bool.false_or, FailFinal_append_right hpre]
  exact h

theorem loop_spec (pStatus : AsyncOp) (ms : Nat) : ∀ (fuel : Nat) (a : HRESULT) (counter : Nat)
    (s : Script) (n : Nat), a ≠ VSS_S_ASYNC_CANCELLED →
    LoopPost (CheckStatusAndCancellation.loop pStatus ms fuel a counter s n).res
      (CheckStatusAndCancellation.loop pStatus ms fuel a counter s n).events := by
  intro fuel
  induction fuel with
  | zero =>
    intro a counter s n ha
    rw [CheckStatusAndCancellation.loop]
    by_cases hc : a ≠ VSS_S_ASYNC_CANCELLED ∧ a ≠ VSS_S_ASYNC_FINISHED
    · rw [if_pos hc]
      simp [diverge_run, LoopPost]
    · rw [if_neg hc]
      simp [pure_run, LoopPost, ha]
  | succ fuel ih =>
    intro a counter s n ha
    rw [CheckStatusAndCancellation.loop]
    by_cases hc : a ≠ VSS_S_ASYNC_CANCELLED ∧ a ≠ VSS_S_ASYNC_FINISHED
    · rw [if_pos hc]
      by_cases hr : ((s n).hr != S_OK) = true
      · simp [bind_run, call_run, throw_on_fail_run, hr, failed, FailFinal, LoopPost]
      · by_cases hb : (s n).async = VSS_S_ASYNC_CANCELLED
        · by_cases h4 : counter % 4 = 0
          · simp [bind_run, proc_bind_run, call_run, throw_on_fail_run, pure_run, hr, h4, hb, loop_done, failed,
              FailFinal, LoopPost, Call.isPassive]
          · simp [bind_run, proc_bind_run, call_run, throw_on_fail_run, pure_run, hr, h4, hb, loop_done, failed,
              FailFinal, LoopPost, Call.isPassive]
        · have hq : failed ⟨Call.QueryStatus pStatus, s n⟩ = false := by
            simp only [failed, Bool.or_eq_false_iff]
            exact ⟨by simpa using hr, by simpa using hb⟩
          by_cases h4 : counter % 4 = 0
          · have := loopPost_extend
              [⟨Call.QueryStatus pStatus, s n⟩, ⟨Call.Sleep ms, s (n + 1)⟩,
                ⟨Call.Heartbeat (counter / 4), s (n + 1 + 1)⟩]
              (by simp only [List.any_cons, List.any_nil, hq]; rfl)
              (ih (s n).async (counter + 1) s (n + 1 + 1 + 1) hb)
            simpa [bind_run, proc_bind_run, call_run, throw_on_fail_run, pure_run, hr, h4] using this
          · have := loopPost_extend
              [⟨Call.QueryStatus pStatus, s n⟩, ⟨Call.Sleep ms, s (n + 1)⟩]
              (by simp only [List.any_cons, List.any_nil, hq]; rfl)
              (ih (s n).async (counter + 1) s (n + 1 + 1) hb)
            simpa [bind_run, proc_bind_run, call_run, throw_on_fail_run, pure_run, hr, h4] using this
    · rw [if_neg hc]
      simp [pure_run, LoopPost, ha]

theorem inv_CheckStatusAndCancellation (fuel : Nat) (pStatus : AsyncOp) (ms : Nat) :
    Inv (CheckStatusAndCancellation fuel pStatus ms) := by
  intro s n
  unfold CheckStatusAndCancellation
  rw [bind_run]
  have h := loop_spec pStatus ms fuel E_FAIL 0 s n (by decide)
  rcases hR : CheckStatusAndCancellation.loop pStatus ms fuel E_FAIL 0 s n with ⟨r, e, n'⟩
  rw [hR] at h
  cases r with
  | ok a =>
    by_cases ha : a = VSS_S_ASYNC_CANCELLED
    · subst ha
      have h3 := h.2.2 (Or.inl rfl)
      simp only [throw_on_fail_run, beq_self_eq_true, if_true, List.append_nil, Post]
      exact ⟨fun _ _ => h3, fun hne => absurd rfl (hne _)⟩
    · have h1 := h.1 a rfl ha
      have hb : (a == VSS_S_ASYNC_CANCELLED) = false := by simpa using ha
      simp only [throw_on_fail_run, hb, List.append_nil, Post]
      simp [h1]
  | thrown m =>
    have h3 := h.2.2 (Or.inr ⟨m, rfl⟩)
    exact ⟨fun _ _ => h3, fun hne => absurd rfl (hne m)⟩
  | diverged =>
    have h2 := h.2.1 rfl
    exact ⟨fun _ hm => (by cases hm), fun _ => h2⟩

theorem inv_VerifyWriterStatus_loop : ∀ (remaining i : Nat),
    Inv (VerifyWriterStatus.loop remaining i) := by
  intro remaining
  induction remaining with
  | zero => intro i; rw [VerifyWriterStatus.loop]; exact inv_pure _
  | succ k ih => intro i; rw [VerifyWriterStatus.loop]; exact inv_checked (fun _ => rfl) (fun _ => ih _)

theorem inv_VerifyWriterStatus (fuel : Nat) : Inv (VerifyWriterStatus fuel) := by
  unfold VerifyWriterStatus
  refine inv_checked (fun _ => rfl) (fun _ => ?_)
  refine inv_bind (inv_CheckStatusAndCancellation _ _ _) (fun _ => ?_)
  refine inv_checked (fun _ => rfl) (fun _ => ?_)
  refine inv_bind (inv_VerifyWriterStatus_loop _ _) (fun _ => ?_)
  exact inv_checked_last (fun _ => rfl)

theorem inv_doCopy (ipVolume opPath : String) : Inv (doCopy ipVolume opPath) := by
  unfold doCopy
  refine inv_bind (inv_call (fun _ => rfl)) (fun fh => ?_)
  dsimp only
  split
  · refine inv_checked (fun _ => rfl) (fun _ => ?_)
    refine inv_bind (inv_call (fun _ => rfl)) (fun _ => ?_)
    refine inv_bind (inv_pure _) (fun _ => ?_)
    exact inv_checked_last (fun _ => rfl)
  · refine inv_bind (inv_pure _) (fun _ => ?_)
    exact inv_checked_last (fun _ => rfl)

theorem inv_ComInit_ctor : Inv ComInit.ctor := by
  unfold ComInit.ctor throw_if
  exact inv_checked_last (fun _ => rfl)

theorem inv_create : Inv doSnapshotCopy.create := by
  intro s n
  unfold doSnapshotCopy.create
  have hf : failed ⟨Call.CreateVssBackupComponents, s n⟩ = ((s n).hr != S_OK) := rfl
  simp only [bind_run, call_run, throw_on_fail_run]
  cases e1 : ((s n).hr == E_ACCESSDENIED) <;> cases e2 : ((s n).hr != S_OK)
  · simp [Post, hf, e2]
  · simp [Post, hf, e2, FailFinal]
  · exfalso
    have h1 : (s n).hr = E_ACCESSDENIED := by simpa using e1
    have h2 : (s n).hr = S_OK := by simpa using e2
    rw [h1] at h2
    exact absurd h2 (by decide)
  · simp [Post, hf, e2, FailFinal]

theorem inv_session (fuel : Nat) (ipVolume opPath : String) :
    Inv (doSnapshotCopy.session fuel ipVolume opPath) := by
  unfold doSnapshotCopy.session
  repeat first
    | exact inv_checked_last (fun _ => rfl)
    | exact inv_CheckStatusAndCancellation _ _ _
    | exact inv_VerifyWriterStatus _
    | exact inv_doCopy _ _
    | exact inv_call (fun _ => rfl)
    | refine inv_checked (fun _ => rfl) (fun _ => ?_)
    | refine inv_bind ?_ (fun _ => ?_)

theorem inv_doSnapshotCopy (unwind : Bool) (fuel : Nat) (ipVolume opPath : String) :
    Inv (doSnapshotCopy unwind fuel ipVolume opPath) := by
  unfold doSnapshotCopy
  refine inv_bind inv_ComInit_ctor (fun _ => ?_)
  refine inv_bind (inv_onThrow inv_create (fun _ _ => rfl)) (fun _ => ?_)
  refine inv_bind (inv_onThrow (inv_session _ _ _) (fun _ _ => rfl)) (fun _ => ?_)
  refine inv_bind (inv_bind (inv_call (fun _ => rfl)) (fun _ => inv_pure _)) (fun _ => ?_)
  exact inv_bind (inv_call (fun _ => rfl)) (fun _ => inv_pure _)

/-! ### Trace monitors -/

theorem runMon_append {σ : Type} (step : σ → Event → Option σ) (st : σ) (e e' : List Event) :
    runMon step st (e ++ e') = (runMon step st e).bind (fun st' => runMon step st' e') := by
  induction e generalizing st with
  | nil => rfl
  | cons ev rest ih =>
    simp only [List.cons_append, runMon]
    cases step st ev with
    | none => rfl
    | some st' => exact ih st'

theorem mon_pure {σ α : Type} (step : σ → Event → Option σ) (st : σ) (a : α) :
    Mon step (pure a : Proc α) st (fun _ => st) := by
  intro s n
  simp [pure_run, runMon]

theorem mon_diverge {σ α : Type} (step : σ → Event → Option σ) (st : σ) (st' : α → σ) :
    Mon step (diverge : Proc α) st st' := by
  intro s n
  simp [diverge_run, runMon]

theorem mon_throw_on_fail {σ : Type} (step : σ → Event → Option σ) (st : σ) (msg : String)
    (cond : Bool) : Mon step (throw_on_fail msg cond) st (fun _ => st) := by
  intro s n
  cases cond <;> simp [throw_on_fail_run, runMon]

theorem mon_call {σ : Type} {step : σ → Event → Option σ} {st : σ} {c : Call}
    {g : Response → σ} (h : ∀ r, step st ⟨c, r⟩ = some (g r)) : Mon step (call c) st g := by
  intro s n
  simp [call_run, runMon, h]

theorem mon_bind {σ α β : Type} {step : σ → Event → Option σ} {p : Proc α} {f : α → Proc β}
    {st : σ} {st1 : α → σ} {st2 : β → σ} (hp : Mon step p st st1)
    (hf : ∀ a, Mon step (f a) (st1 a) st2) : Mon step (p >>= f) st st2 := by
  intro s n
  rw [bind_run]
  have h1 := hp s n
  rcases hpe : p s n with ⟨r, e, n'⟩
  rw [hpe] at h1
  cases r with
  | ok a =>
    have h2 := hf a s n'
    have h3 := h1.1 a rfl
    dsimp only at h3 ⊢
    simp only [runMon_append, h3, Option.some_bind]
    exact h2
  | thrown m => exact ⟨fun _ hm => (by cases hm), h1.2⟩
  | diverged => exact ⟨fun _ hm => (by cases hm), h1.2⟩

theorem mon_onThrow {σ α : Type} {step : σ → Event → Option σ} {unwind : Bool}
    {dtors : Proc Unit} {body : Proc α} {st : σ} {st' : α → σ} (hb : Mon step body st st')
    (hd : ∀ st s n, (runMon step st (dtors s n).events).isSome = true) :
    Mon step (onThrow unwind dtors body) st st' := by
  intro s n
  have h1 := hb s n
  unfold vss.onThrow
  rcases hpe : body s n with ⟨r, e, n'⟩
  rw [hpe] at h1
  cases r with
  | ok a => exact h1
  | diverged => exact h1
  | thrown m =>
    cases unwind with
    | false => exact h1
    | true =>
      refine ⟨fun _ hm => (by cases hm), ?_⟩
      have h2 := h1.2
      dsimp only at h2 ⊢
      rw [if_pos rfl]
      dsimp only
      rw [runMon_append]
      cases h3 : runMon step st e with
      | none => rw [h3] at h2; cases h2
      | some st1 => exact hd st1 s _

theorem mon_loop {σ : Type} {step : σ → Event → Option σ} {st : σ} {pStatus : AsyncOp} {ms : Nat}
    (hQ : ∀ r, step st ⟨.QueryStatus pStatus, r⟩ = some st)
    (hS : ∀ r, step st ⟨.Sleep ms, r⟩ = some st)
    (hH : ∀ k r, step st ⟨.Heartbeat k, r⟩ = some st) :
    ∀ (fuel : Nat) (a : HRESULT) (counter : Nat),
      Mon step (CheckStatusAndCancellation.loop pStatus ms fuel a counter) st (fun _ => st) := by
  intro fuel
  induction fuel with
  | zero =>
    intro a counter
    rw [CheckStatusAndCancellation.loop]
    split
    · exact mon_diverge _ _ _
    · exact mon_pure _ _ _
  | succ fuel ih =>
    intro a counter
    rw [CheckStatusAndCancellation.loop]
    split
    · refine mon_bind (mon_call hQ) (fun _ => ?_)
      refine mon_bind (mon_throw_on_fail _ _ _ _) (fun _ => ?_)
      refine mon_bind (mon_call hS) (fun _ => ?_)
      dsimp only
      split
      · refine mon_bind (mon_call (hH _)) (fun _ => ?_)
        exact mon_bind (mon_pure _ _ _) (fun _ => ih _ _)
      · exact mon_bind (mon_pure _ _ _) (fun _ => ih _ _)
    · exact mon_pure _ _ _

theorem mon_VerifyWriterStatus_loop {σ : Type} {step : σ → Event → Option σ} {st : σ}
    (hG : ∀ i r, step st ⟨.GetWriterStatus i, r⟩ = some st) :
    ∀ (remaining i : Nat), Mon step (VerifyWriterStatus.loop remaining i) st (fun _ => st) := by
  intro remaining
  induction remaining with
  | zero => intro i; rw [VerifyWriterStatus.loop]; exact mon_pure _ _ _
  | succ k ih =>
    intro i
    rw [VerifyWriterStatus.loop]
    refine mon_bind (mon_call (hG i)) (fun _ => ?_)
    exact mon_bind (mon_throw_on_fail _ _ _ _) (fun _ => ih _)

/-! ### The order of the phases -/

theorem phaseMon_CheckStatusAndCancellation (fuel : Nat) (pStatus : AsyncOp) (ms k : Nat)
    (h : ∀ r, phaseStep k ⟨.QueryStatus pStatus, r⟩ = some k) :
    Mon phaseStep (CheckStatusAndCancellation fuel pStatus ms) k (fun _ => k) := by
  unfold CheckStatusAndCancellation
  refine mon_bind (mon_loop h (fun _ => rfl) (fun _ _ => rfl) _ _ _) (fun _ => ?_)
  exact mon_throw_on_fail _ _ _ _

theorem phaseMon_VerifyWriterStatus (fuel k : Nat)
    (h : ∀ r, phaseStep k ⟨.GatherWriterStatus, r⟩ = some (k + 1)) :
    Mon phaseStep (VerifyWriterStatus fuel) k (fun _ => k + 1) := by
  have h' : specPhases[k]? = some Phase.WriterVerification := by
    have := h ⟨0, false, 0, 0, GUID.zero, "", 0, 0⟩
    simp only [phaseStep, Call.phase] at this
    by_contra hne
    rw [if_neg hne] at this
    cases this
  unfold VerifyWriterStatus
  refine mon_bind (mon_call h) (fun _ => ?_)
  refine mon_bind (mon_throw_on_fail _ _ _ _) (fun _ => ?_)
  refine mon_bind (phaseMon_CheckStatusAndCancellation _ _ _ _ (fun _ => ?_)) (fun _ => ?_)
  · simp [phaseStep, Call.phase, AsyncOp.phase, h']
  refine mon_bind (mon_call (fun _ => rfl)) (fun _ => ?_)
  refine mon_bind (mon_throw_on_fail _ _ _ _) (fun _ => ?_)
  refine mon_bind (mon_VerifyWriterStatus_loop (fun _ _ => rfl) _ _) (fun _ => ?_)
  refine mon_bind (mon_call (fun _ => rfl)) (fun _ => ?_)
  exact mon_throw_on_fail _ _ _ _

theorem phaseMon_doCopy (ipVolume opPath : String) :
    Mon phaseStep (doCopy ipVolume opPath) 12 (fun _ => 13) := by
  unfold doCopy
  refine mon_bind (mon_call (fun _ => rfl)) (fun fh => ?_)
  dsimp only
  split
  · refine mon_bind (mon_call (fun _ => rfl)) (fun _ => ?_)
    refine mon_bind (mon_throw_on_fail _ _ _ _) (fun _ => ?_)
    refine mon_bind (mon_call (fun _ => rfl)) (fun _ => ?_)
    refine mon_bind (mon_pure _ _ _) (fun _ => ?_)
    refine mon_bind (mon_call (fun _ => rfl)) (fun _ => ?_)
    exact mon_throw_on_fail _ _ _ _
  · refine mon_bind (mon_pure _ _ _) (fun _ => ?_)
    refine mon_bind (mon_call (fun _ => rfl)) (fun _ => ?_)
    exact mon_throw_on_fail _ _ _ _

theorem phaseMon_session (fuel : Nat) (ipVolume opPath : String) :
    Mon phaseStep (doSnapshotCopy.session fuel ipVolume opPath) 2 (fun _ => 15) := by
  unfold doSnapshotCopy.session
  repeat first
    | exact mon_throw_on_fail _ _ _ _
    | exact phaseMon_VerifyWriterStatus _ _ (fun _ => rfl)
    | refine mon_bind (mon_throw_on_fail _ _ _ _) (fun _ => ?_)
    | refine mon_bind (phaseMon_CheckStatusAndCancellation _ _ _ _ (fun _ => rfl)) (fun _ => ?_)
    | refine mon_bind (phaseMon_VerifyWriterStatus _ _ (fun _ => rfl)) (fun _ => ?_)
    | refine mon_bind (phaseMon_doCopy _ _) (fun _ => ?_)
    | refine mon_bind (mon_call (fun _ => rfl)) (fun _ => ?_)

theorem phaseMon_doSnapshotCopy (unwind : Bool) (fuel : Nat) (ipVolume opPath : String) :
    Mon phaseStep (doSnapshotCopy unwind fuel ipVolume opPath) 0 (fun _ => 15) := by
  unfold doSnapshotCopy ComInit.ctor doSnapshotCopy.create ComInit.dtor CComPtr.dtor throw_if
  refine mon_bind (mon_bind (mon_call (fun _ => rfl)) (fun _ => mon_throw_on_fail _ _ _ _))
    (fun _ => ?_)
  refine mon_bind (mon_onThrow (mon_bind (mon_call (fun _ => rfl)) (fun _ =>
    mon_bind (mon_throw_on_fail _ _ _ _) (fun _ => mon_throw_on_fail _ _ _ _)))
    (fun _ _ _ => rfl)) (fun _ => ?_)
  refine mon_bind (mon_onThrow (phaseMon_session _ _ _) (fun _ _ _ => rfl)) (fun _ => ?_)
  refine mon_bind (mon_bind (mon_call (fun _ => rfl)) (fun _ => mon_pure _ _ _)) (fun _ => ?_)
  exact mon_bind (mon_call (fun _ => rfl)) (fun _ => mon_pure _ _ _)

theorem phases_of_runMon : ∀ (e : List Event) (k j : Nat), runMon phaseStep k e = some j →
    specPhases.take k ++ phases e = specPhases.take j := by
  intro e
  induction e with
  | nil =>
    intro k j h
    simp only [runMon, Option.some.injEq] at h
    simp [phases, h]
  | cons ev rest ih =>
    intro k j h
    simp only [runMon] at h
    cases hs : phaseStep k ev with
    | none => rw [hs] at h; cases h
    | some k1 =>
      rw [hs] at h
      have h1 := ih k1 j h
      unfold phaseStep at hs
      cases hp : ev.call.phase with
      | some ph =>
        rw [hp] at hs
        dsimp only at hs
        by_cases hk : specPhases[k]? = some ph
        · rw [if_pos hk] at hs
          simp only [Option.some.injEq] at hs
          subst hs
          rw [← h1, List.take_succ, hk]
          simp [phases, hp]
        · rw [if_neg hk] at hs; cases hs
      | none =>
        rw [hp] at hs
        have hk : k1 = k := by
          cases hc : ev.call <;> rw [hc] at hs <;> simp_all
        subst hk
        rw [← h1]
        simp [phases, hp]

theorem poll_phase_cases (k : Nat) (pStatus : AsyncOp)
    (h : specPhases[k - 1]? = some pStatus.phase) (h0 : 0 < k)
    (hd : Phase.DataCopy ∈ specPhases.take k) :
    pStatus = .BackupComplete ∨ (pStatus = .GatherWriterStatus ∧ k = 15) := by
  have hk : k ≤ 15 := by
    by_contra hlt
    have : specPhases[k - 1]? = none := by
      apply List.getElem?_eq_none
      simp only [specPhases, List.length_cons, List.length_nil]
      omega
    rw [this] at h
    cases h
  interval_cases k <;> cases pStatus <;> simp_all [specPhases, AsyncOp.phase]

/-! ### Where the data copy reads from -/

theorem acc_of_mon {σ α : Type} {step : σ → Event → Option σ} {p : Proc α} {st : σ}
    {st' : α → σ} (h : Mon step p st st') : Acc step p st :=
  fun s n => (h s n).2

theorem acc_bind {σ α β : Type} {step : σ → Event → Option σ} {p : Proc α} {f : α → Proc β}
    {st : σ} {st1 : α → σ} (hp : Mon step p st st1) (hf : ∀ a, Acc step (f a) (st1 a)) :
    Acc step (p >>= f) st := by
  intro s n
  rw [bind_run]
  have h1 := hp s n
  rcases hpe : p s n with ⟨r, e, n'⟩
  rw [hpe] at h1
  cases r with
  | ok a =>
    have h3 := h1.1 a rfl
    dsimp only at h3 ⊢
    rw [runMon_append, h3]
    exact hf a s n'
  | thrown m => exact h1.2
  | diverged => exact h1.2

theorem acc_bind_any {σ α β : Type} {step : σ → Event → Option σ} {p : Proc α}
    {f : α → Proc β} {st : σ} (hp : Acc step p st) (hf : ∀ a st', Acc step (f a) st') :
    Acc step (p >>= f) st := by
  intro s n
  rw [bind_run]
  have h1 := hp s n
  rcases hpe : p s n with ⟨r, e, n'⟩
  rw [hpe] at h1
  cases r with
  | ok a =>
    dsimp only at h1 ⊢
    rw [runMon_append]
    cases h3 : runMon step st e with
    | none => rw [h3] at h1; cases h1
    | some st1 => exact hf a st1 s n'
  | thrown m => exact h1
  | diverged => exact h1

theorem acc_onThrow {σ α : Type} {step : σ → Event → Option σ} {unwind : Bool}
    {dtors : Proc Unit} {body : Proc α} {st : σ} (hb : Acc step body st)
    (hd : ∀ st s n, (runMon step st (dtors s n).events).isSome = true) :
    Acc step (onThrow unwind dtors body) st := by
  intro s n
  have h1 := hb s n
  unfold vss.onThrow
  rcases hpe : body s n with ⟨r, e, n'⟩
  rw [hpe] at h1
  cases r with
  | ok a => exact h1
  | diverged => exact h1
  | thrown m =>
    cases unwind with
    | false => exact h1
    | true =>
      dsimp only at h1 ⊢
      rw [if_pos rfl]
      dsimp only
      rw [runMon_append]
      cases h3 : runMon step st e with
      | none => rw [h3] at h1; cases h1
      | some st1 => exact hd st1 s _

theorem runMon_split {σ : Type} {step : σ → Event → Option σ} {st : σ} {pre post : List Event}
    {ev : Event} (h : (runMon step st (pre ++ ev :: post)).isSome = true) :
    ∃ st1 st2, runMon step st pre = some st1 ∧ step st1 ev = some st2 := by
  rw [runMon_append] at h
  cases h1 : runMon step st pre with
  | none => rw [h1] at h; cases h
  | some st1 =>
    rw [h1] at h
    simp only [Option.some_bind, runMon] at h
    cases h2 : step st1 ev with
    | none => rw [h2] at h; cases h
    | some st2 => exact ⟨st1, st2, rfl, h2⟩

theorem keyStep_AddToSnapshotSet (ipVolume opPath : String) (r : Response) :
    keyStep ipVolume opPath (none, none) ⟨.AddToSnapshotSet ipVolume, r⟩ = some (some r, none) := by
  simp [keyStep]

theorem keyStep_GetSnapshotProperties (ipVolume opPath : String) (a r : Response) :
    keyStep ipVolume opPath (some a, none) ⟨.GetSnapshotProperties a.id, r⟩
      = some (some a, some r) := by
  simp [keyStep]

theorem keyStep_CreateFile (ipVolume opPath : String) (a g r : Response) :
    keyStep ipVolume opPath (some a, some g) ⟨.CreateFile g.path, r⟩ = some (some a, some g) := by
  simp [keyStep]

theorem keyStep_CopyFile (ipVolume opPath : String) (a g r : Response) :
    keyStep ipVolume opPath (some a, some g)
      ⟨.CopyFile (withSeparator g.path ++ "sg.zip") (withSeparator opPath ++ "sg.zip"), r⟩
      = some (some a, some g) := by
  simp [keyStep]

theorem keyMon_CheckStatusAndCancellation (ipVolume opPath : String)
    (st : Option Response × Option Response) (fuel : Nat) (pStatus : AsyncOp) (ms : Nat) :
    Mon (keyStep ipVolume opPath) (CheckStatusAndCancellation fuel pStatus ms) st (fun _ => st) := by
  unfold CheckStatusAndCancellation
  refine mon_bind (mon_loop (fun _ => rfl) (fun _ => rfl) (fun _ _ => rfl) _ _ _) (fun _ => ?_)
  exact mon_throw_on_fail _ _ _ _

theorem keyMon_VerifyWriterStatus (ipVolume opPath : String)
    (st : Option Response × Option Response) (fuel : Nat) :
    Mon (keyStep ipVolume opPath) (VerifyWriterStatus fuel) st (fun _ => st) := by
  unfold VerifyWriterStatus
  refine mon_bind (mon_call (fun _ => rfl)) (fun _ => ?_)
  refine mon_bind (mon_throw_on_fail _ _ _ _) (fun _ => ?_)
  refine mon_bind (keyMon_CheckStatusAndCancellation _ _ _ _ _ _) (fun _ => ?_)
  refine mon_bind (mon_call (fun _ => rfl)) (fun _ => ?_)
  refine mon_bind (mon_throw_on_fail _ _ _ _) (fun _ => ?_)
  refine mon_bind (mon_VerifyWriterStatus_loop (fun _ _ => rfl) _ _) (fun _ => ?_)
  refine mon_bind (mon_call (fun _ => rfl)) (fun _ => ?_)
  exact mon_throw_on_fail _ _ _ _

theorem keyMon_doCopy (ipVolume opPath : String) (a g : Response) :
    Mon (keyStep ipVolume opPath) (doCopy g.path opPath) (some a, some g)
      (fun _ => (some a, some g)) := by
  unfold doCopy
  refine mon_bind (mon_call (keyStep_CreateFile _ _ _ _)) (fun fh => ?_)
  dsimp only
  split
  · refine mon_bind (mon_call (fun _ => rfl)) (fun _ => ?_)
    refine mon_bind (mon_throw_on_fail _ _ _ _) (fun _ => ?_)
    refine mon_bind (mon_call (fun _ => rfl)) (fun _ => ?_)
    refine mon_bind (mon_pure _ _ _) (fun _ => ?_)
    refine mon_bind (mon_call (keyStep_CopyFile _ _ _ _)) (fun _ => ?_)
    exact mon_throw_on_fail _ _ _ _
  · refine mon_bind (mon_pure _ _ _) (fun _ => ?_)
    refine mon_bind (mon_call (keyStep_CopyFile _ _ _ _)) (fun _ => ?_)
    exact mon_throw_on_fail _ _ _ _

theorem keyAcc_session (fuel : Nat) (ipVolume opPath : String) :
    Acc (keyStep ipVolume opPath) (doSnapshotCopy.session fuel ipVolume opPath) (none, none) := by
  unfold doSnapshotCopy.session
  repeat first
    | exact acc_of_mon (keyMon_VerifyWriterStatus _ _ _ _)
    | refine acc_bind (mon_throw_on_fail _ _ _ _) (fun _ => ?_)
    | refine acc_bind (keyMon_CheckStatusAndCancellation _ _ _ _ _ _) (fun _ => ?_)
    | refine acc_bind (keyMon_VerifyWriterStatus _ _ _ _) (fun _ => ?_)
    | refine acc_bind (keyMon_doCopy _ _ _ _) (fun _ => ?_)
    | refine acc_bind (mon_call (keyStep_AddToSnapshotSet _ _)) (fun _ => ?_)
    | refine acc_bind (mon_call (keyStep_GetSnapshotProperties _ _ _)) (fun _ => ?_)
    | refine acc_bind (mon_call (fun _ => rfl)) (fun _ => ?_)

theorem keyAcc_doSnapshotCopy (unwind : Bool) (fuel : Nat) (ipVolume opPath : String) :
    Acc (keyStep ipVolume opPath) (doSnapshotCopy unwind fuel ipVolume opPath) (none, none) := by
  unfold doSnapshotCopy ComInit.ctor doSnapshotCopy.create ComInit.dtor CComPtr.dtor throw_if
  refine acc_bind (mon_bind (mon_call (fun _ => rfl)) (fun _ => mon_throw_on_fail _ _ _ _))
    (fun _ => ?_)
  refine acc_bind (mon_onThrow (mon_bind (mon_call (fun _ => rfl)) (fun _ =>
    mon_bind (mon_throw_on_fail _ _ _ _) (fun _ => mon_throw_on_fail _ _ _ _)))
    (fun _ _ _ => rfl)) (fun _ => ?_)
  refine acc_bind_any (acc_onThrow (keyAcc_session _ _ _) (fun _ _ _ => rfl)) (fun _ _ => ?_)
  refine acc_bind (mon_bind (mon_call (fun _ => rfl)) (fun _ => mon_pure _ _ _)) (fun _ => ?_)
  exact acc_of_mon (mon_bind (mon_call (fun _ => rfl)) (fun _ => mon_pure _ _ _))

theorem keySound_step {ipVolume opPath : String} {st st1 : Option Response × Option Response}
    {e : List Event} {ev : Event} (h : keyStep ipVolume opPath st ev = some st1)
    (hs : KeySound ipVolume st e) : KeySound ipVolume st1 (e ++ [ev]) := by
  have hmono : KeySound ipVolume st (e ++ [ev]) := by
    refine ⟨fun a ha => List.mem_append_left _ (hs.1 a ha), fun g hg => ?_⟩
    obtain ⟨a, h1, h2⟩ := hs.2 g hg
    exact ⟨a, List.mem_append_left _ h1, List.mem_append_left _ h2⟩
  rcases ev with ⟨c, r⟩
  rcases st with ⟨sa, sg⟩
  cases c
  case AddToSnapshotSet v =>
    simp only [keyStep] at h
    by_cases hc : v = ipVolume ∧ sa = none
    · rw [if_pos hc] at h
      simp only [Option.some.injEq] at h
      subst h
      obtain ⟨hv, hsa⟩ := hc
      subst hv hsa
      refine ⟨fun a ha => ?_, fun g hg => ?_⟩
      · simp only [Option.some.injEq] at ha
        subst ha
        simp
      · exact hmono.2 g hg
    · rw [if_neg hc] at h; cases h
  case GetSnapshotProperties id =>
    simp only [keyStep] at h
    by_cases hc : Option.map (fun a => a.id) sa = some id
    · rw [if_pos hc] at h
      simp only [Option.some.injEq] at h
      subst h
      cases sa with
      | none => simp at hc
      | some a =>
        simp only [Option.map_some', Option.some.injEq] at hc
        subst hc
        refine ⟨fun a' ha' => hmono.1 a' ha', fun g hg => ?_⟩
        simp only [Option.some.injEq] at hg
        subst hg
        exact ⟨a, hmono.1 a rfl, by simp⟩
    · rw [if_neg hc] at h; cases h
  all_goals first
    | (simp only [keyStep] at h
       split at h
       · simp only [Option.some.injEq] at h
         subst h
         exact hmono
       · cases h)
    | (simp only [keyStep, Option.some.injEq] at h
       subst h
       exact hmono)

theorem keySound_run {ipVolume opPath : String} : ∀ (e' e : List Event)
    (st st1 : Option Response × Option Response),
    runMon (keyStep ipVolume opPath) st e' = some st1 → KeySound ipVolume st e →
    KeySound ipVolume st1 (e ++ e') := by
  intro e'
  induction e' with
  | nil =>
    intro e st st1 h hs
    simp only [runMon, Option.some.injEq] at h
    subst h
    simpa using hs
  | cons ev rest ih =>
    intro e st st1 h hs
    simp only [runMon] at h
    cases h2 : keyStep ipVolume opPath st ev with
    | none => rw [h2] at h; cases h
    | some st2 =>
      rw [h2] at h
      have := ih (e ++ [ev]) st2 st1 h (keySound_step h2 hs)
      simpa using this

/-! ### Independence of the source volume -/

theorem copySources_eraseVolume (e : List Event) :
    copySources (e.map eraseVolume) = copySources e := by
  induction e with
  | nil => rfl
  | cons ev rest ih =>
    rcases ev with ⟨c, r⟩
    simp only [copySources, List.map_cons] at ih ⊢
    cases c <;> simp [eraseVolume, List.filterMap_cons, ih]

theorem sim_refl {α : Type} (p : Proc α) : Sim p p := fun _ _ => ⟨rfl, rfl, rfl⟩

theorem sim_call_AddToSnapshotSet (v v' : String) :
    Sim (call (.AddToSnapshotSet v)) (call (.AddToSnapshotSet v')) :=
  fun _ _ => ⟨rfl, rfl, rfl⟩

theorem sim_bind {α β : Type} {p q : Proc α} {f g : α → Proc β} (hp : Sim p q)
    (hf : ∀ a, Sim (f a) (g a)) : Sim (p >>= f) (q >>= g) := by
  intro s n
  rw [bind_run, bind_run]
  have h1 := hp s n
  rcases hpe : p s n with ⟨r, e, n1⟩
  rcases hqe : q s n with ⟨r', e', n2⟩
  rw [hpe, hqe] at h1
  obtain ⟨hr, he, hn⟩ := h1
  dsimp only at hr he hn
  subst hr hn
  cases r with
  | ok a =>
    have h2 := hf a s n1
    dsimp only
    refine ⟨h2.1, ?_, h2.2.2⟩
    rw [List.map_append, List.map_append, he, h2.2.1]
  | thrown m => exact ⟨rfl, he, rfl⟩
  | diverged => exact ⟨rfl, he, rfl⟩

theorem sim_onThrow {α : Type} {unwind : Bool} {dtors : Proc Unit} {p q : Proc α}
    (hp : Sim p q) : Sim (onThrow unwind dtors p) (onThrow unwind dtors q) := by
  intro s n
  unfold vss.onThrow
  have h1 := hp s n
  rcases hpe : p s n with ⟨r, e, n1⟩
  rcases hqe : q s n with ⟨r', e', n2⟩
  rw [hpe, hqe] at h1
  obtain ⟨hr, he, hn⟩ := h1
  dsimp only at hr he hn
  subst hr hn
  cases r with
  | ok a => exact ⟨rfl, he, rfl⟩
  | diverged => exact ⟨rfl, he, rfl⟩
  | thrown m =>
    cases unwind with
    | false => exact ⟨rfl, he, rfl⟩
    | true =>
      dsimp only
      rw [if_pos rfl, if_pos rfl]
      dsimp only
      refine ⟨rfl, ?_, rfl⟩
      rw [List.map_append, List.map_append, he]

theorem sim_session (fuel : Nat) (v v' opPath : String) :
    Sim (doSnapshotCopy.session fuel v opPath) (doSnapshotCopy.session fuel v' opPath) := by
  unfold doSnapshotCopy.session
  iterate 9 refine sim_bind (sim_refl _) (fun _ => ?_)
  refine sim_bind (sim_call_AddToSnapshotSet _ _) (fun _ => ?_)
  exact sim_refl _

theorem sim_doSnapshotCopy (unwind : Bool) (fuel : Nat) (v v' opPath : String) :
    Sim (doSnapshotCopy unwind fuel v opPath) (doSnapshotCopy unwind fuel v' opPath) := by
  unfold doSnapshotCopy
  refine sim_bind (sim_refl _) (fun _ => ?_)
  refine sim_bind (sim_refl _) (fun _ => ?_)
  refine sim_bind (sim_onThrow (sim_session _ _ _ _)) (fun _ => ?_)
  exact sim_refl _

/-! ### Termination of the polls -/

theorem noDiv_pure {α : Type} (a : α) : NoDiv (pure a : Proc α) := by
  intro s n _ h
  cases h

theorem noDiv_call (c : Call) : NoDiv (call c) := by
  intro s n _ h
  cases h

theorem noDiv_throw_on_fail (msg : String) (cond : Bool) : NoDiv (throw_on_fail msg cond) := by
  intro s n _ h
  cases cond <;> cases h

theorem noDiv_bind {α β : Type} {p : Proc α} {f : α → Proc β} (hp : NoDiv p)
    (hf : ∀ a, NoDiv (f a)) : NoDiv (p >>= f) := by
  intro s n hs
  rw [bind_run]
  have h1 := hp s n hs
  rcases hpe : p s n with ⟨r, e, n'⟩
  rw [hpe] at h1
  cases r with
  | ok a => exact hf a s n' hs
  | thrown m => intro h; cases h
  | diverged => exact absurd rfl h1

theorem noDiv_onThrow {α : Type} {unwind : Bool} {dtors : Proc Unit} {body : Proc α}
    (hb : NoDiv body) : NoDiv (onThrow unwind dtors body) := by
  intro s n hs
  have h1 := hb s n hs
  unfold vss.onThrow
  rcases hpe : body s n with ⟨r, e, n'⟩
  rw [hpe] at h1
  cases r with
  | ok a => intro h; cases h
  | diverged => exact absurd rfl h1
  | thrown m =>
    cases unwind with
    | false => intro h; cases h
    | true => intro h; cases h

theorem noDiv_loop (pStatus : AsyncOp) (ms fuel : Nat) (a : HRESULT) (counter : Nat) :
    NoDiv (CheckStatusAndCancellation.loop pStatus ms (fuel + 1) a counter) := by
  intro s n hs
  rw [CheckStatusAndCancellation.loop]
  split
  · have hdone : ¬ ((s n).async ≠ VSS_S_ASYNC_CANCELLED ∧ (s n).async ≠ VSS_S_ASYNC_FINISHED) := by
      rcases hs n with h | h <;> simp [h]
    by_cases hr : ((s n).hr != S_OK) = true
    · simp [bind_run, call_run, throw_on_fail_run, hr]
    · by_cases h4 : counter % 4 = 0
      · simp [bind_run, proc_bind_run, call_run, throw_on_fail_run, pure_run, hr, h4,
          loop_done _ _ _ _ _ _ _ hdone]
      · simp [bind_run, proc_bind_run, call_run, throw_on_fail_run, pure_run, hr, h4,
          loop_done _ _ _ _ _ _ _ hdone]
  · intro h
    cases h

theorem noDiv_CheckStatusAndCancellation (fuel : Nat) (pStatus : AsyncOp) (ms : Nat) :
    NoDiv (CheckStatusAndCancellation (fuel + 1) pStatus ms) := by
  unfold CheckStatusAndCancellation
  exact noDiv_bind (noDiv_loop _ _ _ _ _) (fun _ => noDiv_throw_on_fail _ _)

theorem noDiv_VerifyWriterStatus_loop : ∀ (remaining i : Nat),
    NoDiv (VerifyWriterStatus.loop remaining i) := by
  intro remaining
  induction remaining with
  | zero => intro i; rw [VerifyWriterStatus.loop]; exact noDiv_pure _
  | succ k ih =>
    intro i
    rw [VerifyWriterStatus.loop]
    exact noDiv_bind (noDiv_call _) (fun _ => noDiv_bind (noDiv_throw_on_fail _ _) (fun _ => ih _))

theorem noDiv_VerifyWriterStatus (fuel : Nat) : NoDiv (VerifyWriterStatus (fuel + 1)) := by
  unfold VerifyWriterStatus
  repeat first
    | exact noDiv_throw_on_fail _ _
    | refine noDiv_bind (noDiv_call _) (fun _ => ?_)
    | refine noDiv_bind (noDiv_throw_on_fail _ _) (fun _ => ?_)
    | refine noDiv_bind (noDiv_CheckStatusAndCancellation _ _ _) (fun _ => ?_)
    | refine noDiv_bind (noDiv_VerifyWriterStatus_loop _ _) (fun _ => ?_)

theorem noDiv_doCopy (ipVolume opPath : String) : NoDiv (doCopy ipVolume opPath) := by
  unfold doCopy
  refine noDiv_bind (noDiv_call _) (fun fh => ?_)
  dsimp only
  split <;>
  repeat first
    | exact noDiv_throw_on_fail _ _
    | refine noDiv_bind (noDiv_call _) (fun _ => ?_)
    | refine noDiv_bind (noDiv_throw_on_fail _ _) (fun _ => ?_)
    | refine noDiv_bind (noDiv_pure _) (fun _ => ?_)

theorem noDiv_session (fuel : Nat) (ipVolume opPath : String) :
    NoDiv (doSnapshotCopy.session (fuel + 1) ipVolume opPath) := by
  unfold doSnapshotCopy.session
  repeat first
    | exact noDiv_VerifyWriterStatus _
    | refine noDiv_bind (noDiv_call _) (fun _ => ?_)
    | refine noDiv_bind (noDiv_throw_on_fail _ _) (fun _ => ?_)
    | refine noDiv_bind (noDiv_CheckStatusAndCancellation _ _ _) (fun _ => ?_)
    | refine noDiv_bind (noDiv_VerifyWriterStatus _) (fun _ => ?_)
    | refine noDiv_bind (noDiv_doCopy _ _) (fun _ => ?_)

/-- With fuel for one poll, `doSnapshotCopy` comes to an end (it returns or
raises) on every platform whose polls answer with a final status at once. -/
theorem doSnapshotCopy_not_diverged (unwind : Bool) (fuel : Nat) (ipVolume opPath : String) :
    NoDiv (doSnapshotCopy unwind (fuel + 1) ipVolume opPath) := by
  unfold doSnapshotCopy ComInit.ctor doSnapshotCopy.create ComInit.dtor CComPtr.dtor throw_if
  refine noDiv_bind (noDiv_bind (noDiv_call _) (fun _ => noDiv_throw_on_fail _ _)) (fun _ => ?_)
  refine noDiv_bind (noDiv_onThrow (noDiv_bind (noDiv_call _) (fun _ =>
    noDiv_bind (noDiv_throw_on_fail _ _) (fun _ => noDiv_throw_on_fail _ _)))) (fun _ => ?_)
  refine noDiv_bind (noDiv_onThrow (noDiv_session _ _ _)) (fun _ => ?_)
  refine noDiv_bind (noDiv_bind (noDiv_call _) (fun _ => noDiv_pure _)) (fun _ => ?_)
  exact noDiv_bind (noDiv_call _) (fun _ => noDiv_pure _)

/-! ### Theorems on `doSnapshotCopy` -/

/-- C2, as the code has it: a poll that reports the cancelled status makes
`doSnapshotCopy` raise; after that poll only passive events follow (sleep,
heartbeat, destructors), so no data copy is attempted after it; and a data copy
occurs in such a session only when the cancelled poll is that of
`BackupComplete` or of the writer verification after it (all fifteen phases
started), the two polled phases that come after the copy. -/
theorem doSnapshotCopy_cancel_aborts (unwind : Bool) (fuel : Nat) (ipVolume opPath : String)
    (s : Script) (pre post : List Event) (ev : Event) (pStatus : AsyncOp)
    (htrace : (doSnapshotCopy unwind fuel ipVolume opPath s 0).events = pre ++ ev :: post)
    (hcall : ev.call = .QueryStatus pStatus)
    (hcancel : ev.resp.async = VSS_S_ASYNC_CANCELLED) :
    (∃ m, (doSnapshotCopy unwind fuel ipVolume opPath s 0).res = .thrown m) ∧
    (∀ x ∈ post, x.call.isPassive = true) ∧
    (∀ x ∈ (doSnapshotCopy unwind fuel ipVolume opPath s 0).events,
      x.call.phase = some .DataCopy →
        pStatus = .BackupComplete ∨ (pStatus = .GatherWriterStatus ∧ phases pre = specPhases)) := by
  have hinv := inv_doSnapshotCopy unwind fuel ipVolume opPath s 0
  have hmon := (phaseMon_doSnapshotCopy unwind fuel ipVolume opPath s 0).2
  have hfail : failed ev = true := by
    rcases ev with ⟨c, r⟩
    dsimp only at hcall hcancel
    subst hcall
    simp [failed, hcancel]
  have hany : (doSnapshotCopy unwind fuel ipVolume opPath s 0).events.any failed = true := by
    rw [htrace, List.any_eq_true]
    exact ⟨ev, by simp, hfail⟩
  have hthrown : ∃ m, (doSnapshotCopy unwind fuel ipVolume opPath s 0).res = .thrown m := by
    by_contra hne
    have := hinv.2 (fun m hm => hne ⟨m, hm⟩)
    rw [hany] at this
    cases this
  obtain ⟨m, hm⟩ := hthrown
  have hfinal := (hinv.1 m hm).2
  rw [htrace] at hfinal hmon
  have hpost := FailFinal_split hfinal hfail
  refine ⟨⟨m, hm⟩, hpost, ?_⟩
  intro x hx hphase
  obtain ⟨k, k2, hk, hstep⟩ := runMon_split hmon
  have hpre := phases_of_runMon pre 0 k hk
  simp only [List.take_zero, List.nil_append] at hpre
  have hxpre : x ∈ pre := by
    rw [htrace] at hx
    rcases List.mem_append.1 hx with h | h
    · exact h
    · rcases List.mem_cons.1 h with h | h
      · subst h
        rw [hcall] at hphase
        cases hphase
      · have hp := hpost x h
        rcases x with ⟨c, r⟩
        cases c <;> simp_all [Call.isPassive, Call.phase]
  have hd : Phase.DataCopy ∈ specPhases.take k := by
    rw [← hpre]
    simp only [phases, List.mem_filterMap]
    exact ⟨x, hxpre, hphase⟩
  have hq : 0 < k ∧ specPhases[k - 1]? = some pStatus.phase := by
    simp only [phaseStep, hcall, Call.phase] at hstep
    by_contra hne
    rw [if_neg hne] at hstep
    cases hstep
  rcases poll_phase_cases k pStatus hq.2 hq.1 hd with h | ⟨h1, h2⟩
  · exact Or.inl h
  · refine Or.inr ⟨h1, ?_⟩
    rw [hpre, h2]
    rfl

/-- C2, witness: on the platform that cancels the poll of `GatherWriterMetadata`
(event 4), the session raises and no data copy takes place. -/
theorem doSnapshotCopy_cancel_aborts_witness :
    (∃ m, (doSnapshotCopy true 1 "g:\\" "u:\\out" (cancelAt 4) 0).res = .thrown m) ∧
    (∀ x ∈ (doSnapshotCopy true 1 "g:\\" "u:\\out" (cancelAt 4) 0).events.drop 5,
      x.call.isPassive = true) ∧
    (∀ x ∈ (doSnapshotCopy true 1 "g:\\" "u:\\out" (cancelAt 4) 0).events,
      x.call.phase = some .DataCopy →
        AsyncOp.GatherWriterMetadata = .BackupComplete ∨
          (AsyncOp.GatherWriterMetadata = .GatherWriterStatus ∧
            phases ((doSnapshotCopy true 1 "g:\\" "u:\\out" (cancelAt 4) 0).events.take 4)
              = specPhases)) :=
  doSnapshotCopy_cancel_aborts true 1 "g:\\" "u:\\out" (cancelAt 4)
    ((doSnapshotCopy true 1 "g:\\" "u:\\out" (cancelAt 4) 0).events.take 4)
    ((doSnapshotCopy true 1 "g:\\" "u:\\out" (cancelAt 4) 0).events.drop 5)
    ⟨.QueryStatus .GatherWriterMetadata, cancelAt 4 4⟩ .GatherWriterMetadata
    (by decide) rfl (by decide)

/-- C2, counterexample to the claim as stated: the platform cancels the poll of
`BackupComplete` (event 38), and the session has attempted the data copy. -/
theorem doSnapshotCopy_cancel_after_copy :
    (doSnapshotCopy true 1 "g:\\" "u:\\out" (cancelAt 38) 0).events.any
      (fun ev => decide (ev.call = .QueryStatus .BackupComplete) &&
        decide (ev.resp.async = VSS_S_ASYNC_CANCELLED)) = true ∧
    (doSnapshotCopy true 1 "g:\\" "u:\\out" (cancelAt 38) 0).events.any
      (fun ev => decide (ev.call.phase = some .DataCopy)) = true := by
  decide

theorem phases_of_ok (unwind : Bool) (fuel : Nat) (ipVolume opPath : String) (s : Script)
    (n : Nat) (h : (doSnapshotCopy unwind fuel ipVolume opPath s n).res = .ok ()) :
    phases (doSnapshotCopy unwind fuel ipVolume opPath s n).events = specPhases := by
  have hmon := (phaseMon_doSnapshotCopy unwind fuel ipVolume opPath s n).1 () h
  have := phases_of_runMon _ 0 15 hmon
  simpa [specPhases] using this

/-! ### The polls of the phases -/

/-- A poll that returns a status returns a final one. -/
theorem loop_returns_final (pStatus : AsyncOp) (ms : Nat) :
    ∀ (fuel : Nat) (a : HRESULT) (counter : Nat) (s : Script) (n : Nat) (a' : HRESULT),
      (CheckStatusAndCancellation.loop pStatus ms fuel a counter s n).res = .ok a' →
      a' = VSS_S_ASYNC_CANCELLED ∨ a' = VSS_S_ASYNC_FINISHED := by
  intro fuel
  induction fuel with
  | zero =>
    intro a counter s n a' h
    rw [CheckStatusAndCancellation.loop] at h
    by_cases hc : a ≠ VSS_S_ASYNC_CANCELLED ∧ a ≠ VSS_S_ASYNC_FINISHED
    · rw [if_pos hc] at h
      simp [diverge_run] at h
    · rw [if_neg hc] at h
      simp only [pure_run, Res.ok.injEq] at h
      subst h
      by_cases h1 : a = VSS_S_ASYNC_CANCELLED
      · exact Or.inl h1
      · exact Or.inr (by_contra fun h2 => hc ⟨h1, h2⟩)
  | succ fuel ih =>
    intro a counter s n a' h
    rw [CheckStatusAndCancellation.loop] at h
    by_cases hc : a ≠ VSS_S_ASYNC_CANCELLED ∧ a ≠ VSS_S_ASYNC_FINISHED
    · rw [if_pos hc] at h
      by_cases hr : ((s n).hr != S_OK) = true
      · simp [bind_run, call_run, throw_on_fail_run, hr] at h
      · by_cases h4 : counter % 4 = 0
        · refine ih (s n).async (counter + 1) s (n + 1 + 1 + 1) a' ?_
          simpa [bind_run, proc_bind_run, call_run, throw_on_fail_run, pure_run, hr, h4] using h
        · refine ih (s n).async (counter + 1) s (n + 1 + 1) a' ?_
          simpa [bind_run, proc_bind_run, call_run, throw_on_fail_run, pure_run, hr, h4] using h
    · rw [if_neg hc] at h
      simp only [pure_run, Res.ok.injEq] at h
      subst h
      by_cases h1 : a = VSS_S_ASYNC_CANCELLED
      · exact Or.inl h1
      · exact Or.inr (by_contra fun h2 => hc ⟨h1, h2⟩)

theorem pollMon_return (k : Nat) (a : HRESULT) :
    Mon pollStep (pure a : Proc HRESULT) (k, a == VSS_S_ASYNC_FINISHED)
      (fun a' => (k, a' == VSS_S_ASYNC_FINISHED)) := by
  intro s n
  simp [pure_run, runMon]

theorem pollMon_loop (pStatus : AsyncOp) (ms k : Nat) (h0 : 0 < k)
    (hk : specPhases[k - 1]? = some pStatus.phase) :
    ∀ (fuel : Nat) (a : HRESULT) (counter : Nat),
      Mon pollStep (CheckStatusAndCancellation.loop pStatus ms fuel a counter)
        (k, a == VSS_S_ASYNC_FINISHED) (fun a' => (k, a' == VSS_S_ASYNC_FINISHED)) := by
  intro fuel
  induction fuel with
  | zero =>
    intro a counter
    rw [CheckStatusAndCancellation.loop]
    split
    · exact mon_diverge _ _ _
    · exact pollMon_return k a
  | succ fuel ih =>
    intro a counter
    rw [CheckStatusAndCancellation.loop]
    by_cases hc : a ≠ VSS_S_ASYNC_CANCELLED ∧ a ≠ VSS_S_ASYNC_FINISHED
    · rw [if_pos hc]
      have ha : (a == VSS_S_ASYNC_FINISHED) = false := by simpa using hc.2
      rw [ha]
      have hQ : ∀ r, pollStep (k, false) ⟨.QueryStatus pStatus, r⟩
          = some (k, r.async == VSS_S_ASYNC_FINISHED) := by
        intro r
        simp [pollStep, Call.phase, h0, hk]
      refine mon_bind (mon_call hQ) (fun r => ?_)
      refine mon_bind (mon_throw_on_fail _ _ _ _) (fun _ => ?_)
      refine mon_bind (mon_call (fun _ => rfl)) (fun _ => ?_)
      dsimp only
      split
      · refine mon_bind (mon_call (fun _ => rfl)) (fun _ => ?_)
        exact mon_bind (mon_pure _ _ _) (fun _ => ih _ _)
      · exact mon_bind (mon_pure _ _ _) (fun _ => ih _ _)
    · rw [if_neg hc]
      exact pollMon_return k a

/-- A poll is issued only while the phase started last is not complete, and
when `CheckStatusAndCancellation` returns, the phase is complete. -/
theorem pollMon_CheckStatusAndCancellation (fuel : Nat) (pStatus : AsyncOp) (ms k : Nat)
    (h0 : 0 < k) (hk : specPhases[k - 1]? = some pStatus.phase) :
    Mon pollStep (CheckStatusAndCancellation fuel pStatus ms) (k, false) (fun _ => (k, true)) := by
  intro s n
  unfold CheckStatusAndCancellation
  rw [bind_run]
  have hl := pollMon_loop pStatus ms k h0 hk fuel E_FAIL 0 s n
  have hE : (E_FAIL == VSS_S_ASYNC_FINISHED) = false := by decide
  rw [hE] at hl
  have ht := loop_returns_final pStatus ms fuel E_FAIL 0 s n
  rcases hR : CheckStatusAndCancellation.loop pStatus ms fuel E_FAIL 0 s n with ⟨r, e, n'⟩
  rw [hR] at hl ht
  cases r with
  | ok a =>
    have h1 := hl.1 a rfl
    dsimp only at h1 ⊢
    rcases ht a rfl with ha | ha
    · subst ha
      simp only [throw_on_fail_run, beq_self_eq_true, if_true, List.append_nil]
      exact ⟨fun _ hm => (by cases hm), by rw [h1]; rfl⟩
    · subst ha
      have hb : (VSS_S_ASYNC_FINISHED == VSS_S_ASYNC_CANCELLED) = false := by decide
      have hself : (VSS_S_ASYNC_FINISHED == VSS_S_ASYNC_FINISHED) = true := by decide
      rw [hself] at h1
      simp only [throw_on_fail_run, hb, Bool.false_eq_true, if_false, List.append_nil]
      exact ⟨fun _ _ => h1, by rw [h1]; rfl⟩
  | thrown m => exact ⟨fun _ hm => (by cases hm), hl.2⟩
  | diverged => exact ⟨fun _ hm => (by cases hm), hl.2⟩

theorem pollMon_VerifyWriterStatus (fuel k : Nat)
    (h : specPhases[k]? = some Phase.WriterVerification) :
    Mon pollStep (VerifyWriterStatus fuel) (k, true) (fun _ => (k + 1, true)) := by
  have hG : ∀ r, pollStep (k, true) ⟨.GatherWriterStatus, r⟩ = some (k + 1, false) := by
    intro r
    simp [pollStep, Call.phase, h, Phase.isPolled]
  unfold VerifyWriterStatus
  refine mon_bind (mon_call hG) (fun _ => ?_)
  refine mon_bind (mon_throw_on_fail _ _ _ _) (fun _ => ?_)
  refine mon_bind (pollMon_CheckStatusAndCancellation _ _ _ _ (Nat.succ_pos k) ?_) (fun _ => ?_)
  · simpa [AsyncOp.phase] using h
  refine mon_bind (mon_call (fun _ => rfl)) (fun _ => ?_)
  refine mon_bind (mon_throw_on_fail _ _ _ _) (fun _ => ?_)
  refine mon_bind (mon_VerifyWriterStatus_loop (fun _ _ => rfl) _ _) (fun _ => ?_)
  refine mon_bind (mon_call (fun _ => rfl)) (fun _ => ?_)
  exact mon_throw_on_fail _ _ _ _

theorem pollMon_doCopy (ipVolume opPath : String) :
    Mon pollStep (doCopy ipVolume opPath) (12, true) (fun _ => (13, true)) := by
  unfold doCopy
  refine mon_bind (mon_call (fun _ => rfl)) (fun fh => ?_)
  dsimp only
  split
  · refine mon_bind (mon_call (fun _ => rfl)) (fun _ => ?_)
    refine mon_bind (mon_throw_on_fail _ _ _ _) (fun _ => ?_)
    refine mon_bind (mon_call (fun _ => rfl)) (fun _ => ?_)
    refine mon_bind (mon_pure _ _ _) (fun _ => ?_)
    refine mon_bind (mon_call (fun _ => rfl)) (fun _ => ?_)
    exact mon_throw_on_fail _ _ _ _
  · refine mon_bind (mon_pure _ _ _) (fun _ => ?_)
    refine mon_bind (mon_call (fun _ => rfl)) (fun _ => ?_)
    exact mon_throw_on_fail _ _ _ _

theorem pollMon_session (fuel : Nat) (ipVolume opPath : String) :
    Mon pollStep (doSnapshotCopy.session fuel ipVolume opPath) (2, true)
      (fun _ => (15, true)) := by
  unfold doSnapshotCopy.session
  -- [3] InitializeForBackup
  refine mon_bind (mon_call (fun _ => rfl)) (fun _ => ?_)
  refine mon_bind (mon_throw_on_fail _ _ _ _) (fun _ => ?_)
  -- [4] GatherWriterMetadata, polled
  refine mon_bind (mon_call (fun _ => rfl)) (fun _ => ?_)
  refine mon_bind (mon_throw_on_fail _ _ _ _) (fun _ => ?_)
  refine mon_bind (pollMon_CheckStatusAndCancellation _ _ _ 4 (by decide) rfl) (fun _ => ?_)
  -- [5] SetBackupState
  refine mon_bind (mon_call (fun _ => rfl)) (fun _ => ?_)
  refine mon_bind (mon_throw_on_fail _ _ _ _) (fun _ => ?_)
  -- [6] StartSnapshotSet
  refine mon_bind (mon_call (fun _ => rfl)) (fun _ => ?_)
  refine mon_bind (mon_throw_on_fail _ _ _ _) (fun _ => ?_)
  -- [7] AddToSnapshotSet
  refine mon_bind (mon_call (fun _ => rfl)) (fun _ => ?_)
  refine mon_bind (mon_throw_on_fail _ _ _ _) (fun _ => ?_)
  -- [8] PrepareForBackup, polled, and the first verification
  refine mon_bind (mon_call (fun _ => rfl)) (fun _ => ?_)
  refine mon_bind (mon_throw_on_fail _ _ _ _) (fun _ => ?_)
  refine mon_bind (pollMon_CheckStatusAndCancellation _ _ _ 8 (by decide) rfl) (fun _ => ?_)
  refine mon_bind (pollMon_VerifyWriterStatus _ 8 rfl) (fun _ => ?_)
  -- [9] DoSnapshotSet, polled, and the second verification
  refine mon_bind (mon_call (fun _ => rfl)) (fun _ => ?_)
  refine mon_bind (mon_throw_on_fail _ _ _ _) (fun _ => ?_)
  refine mon_bind (pollMon_CheckStatusAndCancellation _ _ _ 10 (by decide) rfl) (fun _ => ?_)
  refine mon_bind (pollMon_VerifyWriterStatus _ 10 rfl) (fun _ => ?_)
  -- [10] GetSnapshotProperties
  refine mon_bind (mon_call (fun _ => rfl)) (fun _ => ?_)
  refine mon_bind (mon_throw_on_fail _ _ _ _) (fun _ => ?_)
  refine mon_bind (mon_call (fun _ => rfl)) (fun _ => ?_)
  refine mon_bind (mon_throw_on_fail _ _ _ _) (fun _ => ?_)
  refine mon_bind (mon_call (fun _ => rfl)) (fun _ => ?_)
  -- [11] the copy
  refine mon_bind (pollMon_doCopy _ _) (fun _ => ?_)
  -- [12] BackupComplete, polled, and the last verification
  refine mon_bind (mon_call (fun _ => rfl)) (fun _ => ?_)
  refine mon_bind (mon_throw_on_fail _ _ _ _) (fun _ => ?_)
  refine mon_bind (pollMon_CheckStatusAndCancellation _ _ _ 14 (by decide) rfl) (fun _ => ?_)
  exact pollMon_VerifyWriterStatus _ 14 rfl

theorem pollMon_doSnapshotCopy (unwind : Bool) (fuel : Nat) (ipVolume opPath : String) :
    Mon pollStep (doSnapshotCopy unwind fuel ipVolume opPath) (0, true)
      (fun _ => (15, true)) := by
  unfold doSnapshotCopy ComInit.ctor doSnapshotCopy.create ComInit.dtor CComPtr.dtor throw_if
  refine mon_bind (mon_bind (mon_call (fun _ => rfl))
    (fun _ => mon_throw_on_fail _ _ _ _)) (fun _ => ?_)
  refine mon_bind (mon_onThrow (mon_bind (mon_call (fun _ => rfl))
    (fun _ => mon_bind (mon_throw_on_fail _ _ _ _) (fun _ => mon_throw_on_fail _ _ _ _)))
    (fun _ _ _ => rfl)) (fun _ => ?_)
  refine mon_bind (mon_onThrow (pollMon_session _ _ _) (fun _ _ _ => rfl)) (fun _ => ?_)
  refine mon_bind (mon_bind (mon_call (fun _ => rfl)) (fun _ => mon_pure _ _ _)) (fun _ => ?_)
  exact mon_bind (mon_call (fun _ => rfl)) (fun _ => mon_pure _ _ _)

/-! ### Reading the accepted trace -/

theorem runMon_split_some {σ : Type} {step : σ → Event → Option σ} {st fin : σ}
    {pre post : List Event} {ev : Event} (h : runMon step st (pre ++ ev :: post) = some fin) :
    ∃ st1 st2, runMon step st pre = some st1 ∧ step st1 ev = some st2 ∧
      runMon step st2 post = some fin := by
  rw [runMon_append] at h
  cases h1 : runMon step st pre with
  | none => rw [h1] at h; cases h
  | some st1 =>
    rw [h1] at h
    simp only [Option.some_bind, runMon] at h
    cases h2 : step st1 ev with
    | none => rw [h2] at h; cases h
    | some st2 =>
      rw [h2] at h
      exact ⟨st1, st2, rfl, h2, h⟩

theorem AsyncOp.phase_isPolled (op : AsyncOp) : op.phase.isPolled = true := by
  cases op <;> rfl

/-- An event that starts no phase and is no poll leaves the monitor state. -/
theorem pollStep_other {st st' : Nat × Bool} {ev : Event} (hp : ev.call.phase = none)
    (hq : ∀ op, ev.call ≠ .QueryStatus op) (h : pollStep st ev = some st') : st' = st := by
  rcases ev with ⟨c, r⟩
  cases c <;> simp_all [pollStep, Call.phase]

/-- While a polled phase is not complete, an accepted trace that ends with the
phase complete holds a poll of its operation with the finished status; before
it come only events that start no phase and polls that are not finished. -/
theorem poll_follows : ∀ (post : List Event) (k j : Nat),
    runMon pollStep (k, false) post = some (j, true) →
    ∃ mid q rest, post = mid ++ q :: rest ∧
      (∀ x ∈ mid, x.call.phase = none ∧
        ∀ op, x.call = .QueryStatus op → x.resp.async ≠ VSS_S_ASYNC_FINISHED) ∧
      (∃ op, q.call = .QueryStatus op ∧ specPhases[k - 1]? = some op.phase) ∧
      q.resp.async = VSS_S_ASYNC_FINISHED ∧
      runMon pollStep (k, true) rest = some (j, true) := by
  intro post
  induction post with
  | nil =>
    intro k j h
    simp only [runMon, Option.some.injEq, Prod.mk.injEq] at h
    exact absurd h.2 (by decide)
  | cons x rest ih =>
    intro k j h
    simp only [runMon] at h
    cases hs : pollStep (k, false) x with
    | none => rw [hs] at h; cases h
    | some st1 =>
      rw [hs] at h
      dsimp only at h
      cases hp : x.call.phase with
      | some ph =>
        simp [pollStep, hp] at hs
      | none =>
        by_cases hq : ∃ op, x.call = .QueryStatus op
        · obtain ⟨op, hop⟩ := hq
          have hs' : (if 0 < k ∧ specPhases[k - 1]? = some op.phase ∧ false = false then
              some (k, x.resp.async == VSS_S_ASYNC_FINISHED) else none) = some st1 := by
            have := hs
            unfold pollStep at this
            rw [hp] at this
            dsimp only at this
            rw [hop] at this
            exact this
          by_cases hc : 0 < k ∧ specPhases[k - 1]? = some op.phase ∧ false = false
          · rw [if_pos hc] at hs'
            simp only [Option.some.injEq] at hs'
            by_cases hf : x.resp.async = VSS_S_ASYNC_FINISHED
            · refine ⟨[], x, rest, rfl, fun _ hx => (by cases hx), ⟨op, hop, hc.2.1⟩, hf, ?_⟩
              rw [← hs', hf] at h
              exact h
            · have hb : (x.resp.async == VSS_S_ASYNC_FINISHED) = false := by simpa using hf
              rw [hb] at hs'
              rw [← hs'] at h
              obtain ⟨mid, q, rest', hrest, hmid, hq', hfin, hrun⟩ := ih k j h
              refine ⟨x :: mid, q, rest', by rw [hrest]; rfl, ?_, hq', hfin, hrun⟩
              intro y hy
              rcases List.mem_cons.1 hy with hy | hy
              · subst hy
                exact ⟨hp, fun _ _ => hf⟩
              · exact hmid y hy
          · rw [if_neg hc] at hs'
            cases hs'
        · have hq' : ∀ op, x.call ≠ .QueryStatus op := fun op e => hq ⟨op, e⟩
          have hst := pollStep_other hp hq' hs
          subst hst
          obtain ⟨mid, q, rest', hrest, hmid, hq2, hfin, hrun⟩ := ih k j h
          refine ⟨x :: mid, q, rest', by rw [hrest]; rfl, ?_, hq2, hfin, hrun⟩
          intro y hy
          rcases List.mem_cons.1 hy with hy | hy
          · subst hy
            exact ⟨hp, fun op e => absurd e (hq' op)⟩
          · exact hmid y hy

/-- Once the phase started last is complete, no poll is accepted before the
next phase starts. -/
theorem no_poll_when_complete : ∀ (r1 : List Event) (k : Nat) (y : Event) (r2 : List Event),
    (runMon pollStep (k, true) (r1 ++ y :: r2)).isSome = true →
    (∀ x ∈ r1, x.call.phase = none) → ∀ op, y.call ≠ .QueryStatus op := by
  intro r1
  induction r1 with
  | nil =>
    intro k y r2 h _ op hop
    simp only [List.nil_append, runMon] at h
    have hs : pollStep (k, true) y = none := by
      simp [pollStep, hop, Call.phase]
    rw [hs] at h
    cases h
  | cons x rest ih =>
    intro k y r2 h hall op hop
    simp only [List.cons_append, runMon] at h
    cases hs : pollStep (k, true) x with
    | none => rw [hs] at h; cases h
    | some st1 =>
      rw [hs] at h
      dsimp only at h
      have hp := hall x (List.mem_cons_self _ _)
      by_cases hq : ∃ op', x.call = .QueryStatus op'
      · obtain ⟨op', hop'⟩ := hq
        simp [pollStep, hop', Call.phase] at hs
      · have hst := pollStep_other hp (fun op' e => hq ⟨op', e⟩) hs
        subst hst
        exact ih k y r2 h (fun z hz => hall z (List.mem_cons_of_mem _ hz)) op hop

theorem getLast?_take_specPhases (k : Nat) (ph : Phase) (h0 : 0 < k)
    (h : specPhases[k - 1]? = some ph) : (specPhases.take k).getLast? = some ph := by
  have hk : k - 1 < 15 := by
    by_contra hne
    have : specPhases[k - 1]? = none := List.getElem?_eq_none (by
      have : specPhases.length = 15 := rfl
      omega)
    rw [this] at h
    cases h
  have hk' : k ≤ 15 := by omega
  interval_cases k <;> simp_all [specPhases]

/-- C3: in a run of `doSnapshotCopy` in which no platform call fails and the
polls come to an end, the function returns and the phases are started in
exactly the order of the state machine of the specification: none skipped, none
repeated, none out of place. The polls keep to that order: every `QueryStatus`
succeeds and polls the operation of the phase started last; after the call that
starts a polled phase (`GatherWriterMetadata`, `PrepareForBackup`,
`DoSnapshotSet`, `BackupComplete`, and `GatherWriterStatus` of each writer
verification) and before any other phase starts, its operation is polled until
a poll reports the finished status, the polls before that one report a status
that is not finished, and no poll follows it until the next phase starts; a
phase that is not polled is followed by no poll at all. -/
theorem doSnapshotCopy_phase_order (unwind : Bool) (fuel : Nat) (ipVolume opPath : String)
    (s : Script)
    (hok : (doSnapshotCopy unwind fuel ipVolume opPath s 0).events.any failed = false)
    (hterm : (doSnapshotCopy unwind fuel ipVolume opPath s 0).res ≠ .diverged) :
    (doSnapshotCopy unwind fuel ipVolume opPath s 0).res = .ok () ∧
    phases (doSnapshotCopy unwind fuel ipVolume opPath s 0).events =
      [.CoInitializeEx, .CreateVssBackupComponents, .InitializeForBackup,
       .GatherWriterMetadata, .SetBackupState, .StartSnapshotSet, .AddToSnapshotSet,
       .PrepareForBackup, .WriterVerification, .DoSnapshotSet, .WriterVerification,
       .GetSnapshotProperties, .DataCopy, .BackupComplete, .WriterVerification] ∧
    (∀ pre q post op,
      (doSnapshotCopy unwind fuel ipVolume opPath s 0).events = pre ++ q :: post →
      q.call = .QueryStatus op →
        (phases pre).getLast? = some op.phase ∧ q.resp.hr = S_OK ∧
          q.resp.async ≠ VSS_S_ASYNC_CANCELLED) ∧
    (∀ pre ev post ph,
      (doSnapshotCopy unwind fuel ipVolume opPath s 0).events = pre ++ ev :: post →
      ev.call.phase = some ph → ph.isPolled = true →
        ∃ mid q rest, post = mid ++ q :: rest ∧
          (∀ x ∈ mid, x.call.phase = none ∧
            ∀ op, x.call = .QueryStatus op → x.resp.async ≠ VSS_S_ASYNC_FINISHED) ∧
          (∃ op, q.call = .QueryStatus op ∧ op.phase = ph) ∧
          q.resp.async = VSS_S_ASYNC_FINISHED ∧
          (∀ r1 y r2, rest = r1 ++ y :: r2 → (∀ x ∈ r1, x.call.phase = none) →
            ∀ op, y.call ≠ .QueryStatus op)) ∧
    (∀ pre ev post ph,
      (doSnapshotCopy unwind fuel ipVolume opPath s 0).events = pre ++ ev :: post →
      ev.call.phase = some ph → ph.isPolled = false →
        ∀ r1 y r2, post = r1 ++ y :: r2 → (∀ x ∈ r1, x.call.phase = none) →
          ∀ op, y.call ≠ .QueryStatus op) := by
  have hinv := inv_doSnapshotCopy unwind fuel ipVolume opPath s 0
  have hres : (doSnapshotCopy unwind fuel ipVolume opPath s 0).res = .ok () := by
    cases hr : (doSnapshotCopy unwind fuel ipVolume opPath s 0).res with
    | ok a => rfl
    | thrown m =>
      have := (hinv.1 m hr).1
      rw [hok] at this
      cases this
    | diverged => exact absurd hr hterm
  have hmon := (pollMon_doSnapshotCopy unwind fuel ipVolume opPath s 0).1 () hres
  have hacc := (phaseMon_doSnapshotCopy unwind fuel ipVolume opPath s 0).2
  refine ⟨hres, phases_of_ok unwind fuel ipVolume opPath s 0 hres, ?_, ?_, ?_⟩
  · intro pre q post op hev hq
    rw [hev] at hacc
    obtain ⟨st1, st2, h1, h2⟩ := runMon_split hacc
    have hpre := phases_of_runMon pre 0 st1 h1
    have hpre' : phases pre = specPhases.take st1 := by simpa using hpre
    have hst : 0 < st1 ∧ specPhases[st1 - 1]? = some op.phase := by
      unfold phaseStep at h2
      rw [hq] at h2
      dsimp only [Call.phase] at h2
      by_contra hne
      rw [if_neg hne] at h2
      cases h2
    have hnf : failed q = false := by
      have hall := List.any_eq_false.1 hok q (by rw [hev]; simp)
      simpa using hall
    have hnf' : (q.resp.hr != S_OK || q.resp.async == VSS_S_ASYNC_CANCELLED) = false := by
      unfold failed at hnf
      rw [hq] at hnf
      exact hnf
    rw [Bool.or_eq_false_iff] at hnf'
    refine ⟨?_, by simpa using hnf'.1, by simpa using hnf'.2⟩
    rw [hpre']
    exact getLast?_take_specPhases st1 op.phase hst.1 hst.2
  · intro pre ev post ph hev hph hpolled
    rw [hev] at hmon
    obtain ⟨st1, st2, _, h2, h3⟩ := runMon_split_some hmon
    rcases st1 with ⟨k1, b1⟩
    unfold pollStep at h2
    rw [hph] at h2
    dsimp only at h2
    by_cases hc : specPhases[k1]? = some ph ∧ b1 = true
    · rw [if_pos hc, hpolled] at h2
      simp only [Bool.not_true, Option.some.injEq] at h2
      subst h2
      obtain ⟨mid, q, rest, hpost, hmid, ⟨op, hop, hk⟩, hfin, hrun⟩ := poll_follows post _ _ h3
      refine ⟨mid, q, rest, hpost, hmid, ⟨op, hop, ?_⟩, hfin, ?_⟩
      · rw [Nat.add_sub_cancel, hc.1] at hk
        exact (Option.some.inj hk).symm
      · intro r1 y r2 hrest hr1
        refine no_poll_when_complete r1 (k1 + 1) y r2 ?_ hr1
        rw [← hrest, hrun]
        rfl
    · rw [if_neg hc] at h2
      cases h2
  · intro pre ev post ph hev hph hpolled r1 y r2 hpost hr1
    rw [hev] at hmon
    obtain ⟨st1, st2, _, h2, h3⟩ := runMon_split_some hmon
    rcases st1 with ⟨k1, b1⟩
    unfold pollStep at h2
    rw [hph] at h2
    dsimp only at h2
    by_cases hc : specPhases[k1]? = some ph ∧ b1 = true
    · rw [if_pos hc, hpolled] at h2
      simp only [Bool.not_false, Option.some.injEq] at h2
      subst h2
      refine no_poll_when_complete r1 (k1 + 1) y r2 ?_ hr1
      rw [← hpost, h3]
      rfl
    · rw [if_neg hc] at h2
      cases h2

/-- C3, witness: the platform on which every call succeeds; each of the seven
polled operations is polled, in the order of the phases. -/
theorem doSnapshotCopy_phase_order_witness :
    (doSnapshotCopy true 1 "g:\\" "u:\\out" allSucceed 0).res = .ok () ∧
    phases (doSnapshotCopy true 1 "g:\\" "u:\\out" allSucceed 0).events =
      [.CoInitializeEx, .CreateVssBackupComponents, .InitializeForBackup,
       .GatherWriterMetadata, .SetBackupState, .StartSnapshotSet, .AddToSnapshotSet,
       .PrepareForBackup, .WriterVerification, .DoSnapshotSet, .WriterVerification,
       .GetSnapshotProperties, .DataCopy, .BackupComplete, .WriterVerification] ∧
    polls (doSnapshotCopy true 1 "g:\\" "u:\\out" allSucceed 0).events =
      [.GatherWriterMetadata, .PrepareForBackup, .GatherWriterStatus, .DoSnapshotSet,
       .GatherWriterStatus, .BackupComplete, .GatherWriterStatus] :=
  have hw := doSnapshotCopy_phase_order true 1 "g:\\" "u:\\out" allSucceed
    (by decide) (by decide)
  ⟨hw.1, hw.2.1, by decide⟩

/-- A platform that answers the first poll of `GatherWriterMetadata` with the
pending status: the operation is polled again, until it is finished, before
`SetBackupState` is called. -/
theorem doSnapshotCopy_polls_until_finished :
    ((doSnapshotCopy true 2 "g:\\" "u:\\out" (pendingUntil 5) 0).events.take 9).map
        (fun ev => (ev.call, ev.resp.async))
      = [(.CoInitializeEx, VSS_S_ASYNC_PENDING), (.CreateVssBackupComponents, VSS_S_ASYNC_PENDING),
         (.InitializeForBackup, VSS_S_ASYNC_PENDING), (.GatherWriterMetadata, VSS_S_ASYNC_PENDING),
         (.QueryStatus .GatherWriterMetadata, VSS_S_ASYNC_PENDING), (.Sleep 250, VSS_S_ASYNC_FINISHED),
         (.Heartbeat 0, VSS_S_ASYNC_FINISHED),
         (.QueryStatus .GatherWriterMetadata, VSS_S_ASYNC_FINISHED),
         (.Sleep 250, VSS_S_ASYNC_FINISHED)] := by
  decide

/-- C4: in every run of `doSnapshotCopy`, a checked platform call that fails
(a status other than `S_OK`, a `FALSE` of `DeviceIoControl` or `CopyFile`, a
cancelled poll) makes the function raise, and after it only passive events
follow (sleep, heartbeat, destructors): no call of a later phase is issued, in
particular no `BackupComplete` after a failed `CopyFile`. The function returns
only if no call failed, all fifteen phases were started in order, and the
`CopyFile` of the data copy was issued and returned `TRUE`. -/
theorem doSnapshotCopy_failure_aborts (unwind : Bool) (fuel : Nat) (ipVolume opPath : String)
    (s : Script) :
    (∀ pre ev post, (doSnapshotCopy unwind fuel ipVolume opPath s 0).events = pre ++ ev :: post →
      failed ev = true →
        (∃ m, (doSnapshotCopy unwind fuel ipVolume opPath s 0).res = .thrown m) ∧
        ∀ x ∈ post, x.call.isPassive = true) ∧
    ((doSnapshotCopy unwind fuel ipVolume opPath s 0).res = .ok () →
      (∀ x ∈ (doSnapshotCopy unwind fuel ipVolume opPath s 0).events, failed x = false) ∧
      phases (doSnapshotCopy unwind fuel ipVolume opPath s 0).events = specPhases ∧
      ∃ src dst r, (⟨.CopyFile src dst, r⟩ : Event) ∈
        (doSnapshotCopy unwind fuel ipVolume opPath s 0).events ∧ r.ok = true) := by
  have hinv := inv_doSnapshotCopy unwind fuel ipVolume opPath s 0
  constructor
  · intro pre ev post htrace hfail
    have hany : (doSnapshotCopy unwind fuel ipVolume opPath s 0).events.any failed = true := by
      rw [htrace, List.any_eq_true]
      exact ⟨ev, by simp, hfail⟩
    have hthrown : ∃ m, (doSnapshotCopy unwind fuel ipVolume opPath s 0).res = .thrown m := by
      by_contra hne
      have := hinv.2 (fun m hm => hne ⟨m, hm⟩)
      rw [hany] at this
      cases this
    obtain ⟨m, hm⟩ := hthrown
    have hfinal := (hinv.1 m hm).2
    rw [htrace] at hfinal
    exact ⟨⟨m, hm⟩, FailFinal_split hfinal hfail⟩
  · intro hres
    have hnone := hinv.2 (fun m hm => by rw [hres] at hm; cases hm)
    have hall : ∀ x ∈ (doSnapshotCopy unwind fuel ipVolume opPath s 0).events,
        failed x = false := by
      intro x hx
      cases hf : failed x with
      | false => rfl
      | true =>
        have : (doSnapshotCopy unwind fuel ipVolume opPath s 0).events.any failed = true :=
          List.any_eq_true.2 ⟨x, hx, hf⟩
        rw [hnone] at this
        cases this
    have hph := phases_of_ok unwind fuel ipVolume opPath s 0 hres
    refine ⟨hall, hph, ?_⟩
    have hmem : Phase.DataCopy ∈ phases (doSnapshotCopy unwind fuel ipVolume opPath s 0).events := by
      rw [hph]; decide
    simp only [phases, List.mem_filterMap] at hmem
    obtain ⟨x, hx, hp⟩ := hmem
    rcases x with ⟨c, r⟩
    cases c <;> simp only [Call.phase, Option.some.injEq] at hp <;> try cases hp
    rename_i src dst
    refine ⟨src, dst, r, hx, ?_⟩
    have := hall _ hx
    simpa [failed] using this

/-- C5: in every run of `doSnapshotCopy`, whenever `CopyFile` is called, an
`AddToSnapshotSet` for the caller's volume and a `GetSnapshotProperties` for
the snapshot id it produced precede it, and the source of the copy is `sg.zip`
beneath the device path that `GetSnapshotProperties` returned (the destination
is `sg.zip` beneath the destination directory); the path `doCopy` opens is that
device path itself. For one and the same platform, the result of the run and
the sources of its copies are the same whatever the source volume is. -/
theorem doSnapshotCopy_copies_from_snapshot (unwind : Bool) (fuel : Nat)
    (ipVolume ipVolume' opPath : String) (s : Script) :
    (∀ pre src dst r post,
      (doSnapshotCopy unwind fuel ipVolume opPath s 0).events
        = pre ++ (⟨.CopyFile src dst, r⟩ : Event) :: post →
      ∃ a g, (⟨.AddToSnapshotSet ipVolume, a⟩ : Event) ∈ pre ∧
        (⟨.GetSnapshotProperties a.id, g⟩ : Event) ∈ pre ∧
        src = withSeparator g.path ++ "sg.zip" ∧ dst = withSeparator opPath ++ "sg.zip") ∧
    (∀ pre path r post,
      (doSnapshotCopy unwind fuel ipVolume opPath s 0).events
        = pre ++ (⟨.CreateFile path, r⟩ : Event) :: post →
      ∃ a g, (⟨.AddToSnapshotSet ipVolume, a⟩ : Event) ∈ pre ∧
        (⟨.GetSnapshotProperties a.id, g⟩ : Event) ∈ pre ∧ path = g.path) ∧
    (doSnapshotCopy unwind fuel ipVolume opPath s 0).res
      = (doSnapshotCopy unwind fuel ipVolume' opPath s 0).res ∧
    copySources (doSnapshotCopy unwind fuel ipVolume opPath s 0).events
      = copySources (doSnapshotCopy unwind fuel ipVolume' opPath s 0).events := by
  refine ⟨?_, ?_, ?_, ?_⟩
  · intro pre src dst r post htrace
    have hacc := keyAcc_doSnapshotCopy unwind fuel ipVolume opPath s 0
    rw [htrace] at hacc
    obtain ⟨st1, st2, hrun, hstep⟩ := runMon_split hacc
    have hsound := keySound_run pre [] (none, none) st1 hrun
      ⟨fun a ha => (by cases ha), fun g hg => (by cases hg)⟩
    simp only [List.nil_append] at hsound
    simp only [keyStep] at hstep
    split at hstep
    · rename_i hc
      obtain ⟨h1, h2⟩ := hc
      cases hg : st1.2 with
      | none => rw [hg] at h1; cases h1
      | some g =>
        rw [hg] at h1
        simp only [Option.map_some', Option.some.injEq] at h1
        obtain ⟨a, ha1, ha2⟩ := hsound.2 g hg
        exact ⟨a, g, ha1, ha2, h1.symm, h2⟩
    · cases hstep
  · intro pre path r post htrace
    have hacc := keyAcc_doSnapshotCopy unwind fuel ipVolume opPath s 0
    rw [htrace] at hacc
    obtain ⟨st1, st2, hrun, hstep⟩ := runMon_split hacc
    have hsound := keySound_run pre [] (none, none) st1 hrun
      ⟨fun a ha => (by cases ha), fun g hg => (by cases hg)⟩
    simp only [List.nil_append] at hsound
    simp only [keyStep] at hstep
    split at hstep
    · rename_i hc
      cases hg : st1.2 with
      | none => rw [hg] at hc; cases hc
      | some g =>
        rw [hg] at hc
        simp only [Option.map_some', Option.some.injEq] at hc
        obtain ⟨a, ha1, ha2⟩ := hsound.2 g hg
        exact ⟨a, g, ha1, ha2, hc.symm⟩
    · cases hstep
  · exact (sim_doSnapshotCopy unwind fuel ipVolume ipVolume' opPath s 0).1
  · have h := (sim_doSnapshotCopy unwind fuel ipVolume ipVolume' opPath s 0).2.1
    rw [← copySources_eraseVolume, h, copySources_eraseVolume]

/-! ### The data copy and the snapshot set -/

theorem back_push (p : String) (c : Char) : (p.push c).back = c := by
  rw [String.back_eq, String.data_push]
  simp [List.getLastD_concat]

theorem withSeparator_of_back {p : String} (h : p.back = Char.ofNat 92) : withSeparator p = p := by
  unfold withSeparator
  rw [if_neg (by simpa using h)]

theorem withSeparator_of_not_back {p : String} (h : p.back ≠ Char.ofNat 92) :
    withSeparator p = p.push (Char.ofNat 92) := by
  unfold withSeparator
  rw [if_pos h]

theorem withSeparator_back (p : String) : (withSeparator p).back = Char.ofNat 92 := by
  by_cases h : p.back = Char.ofNat 92
  · rw [withSeparator_of_back h, h]
  · rw [withSeparator_of_not_back h, back_push]

theorem doCopy_events (ipVolume opPath : String) (s : Script) (n : Nat) :
    copiedFiles (doCopy ipVolume opPath s n).events =
      if (s n).ok = true ∧ (s (n + 1)).ok = false then []
      else [(withSeparator ipVolume ++ "sg.zip", withSeparator opPath ++ "sg.zip")] := by
  unfold doCopy
  cases h0 : (s n).ok <;> cases h1 : (s (n + 1)).ok
  all_goals
    simp [bind_run, proc_bind_run, call_run, throw_on_fail_run, pure_run, h0, h1, copiedFiles]
  all_goals
    split_ifs
    all_goals simp

/-- C15, as the code has it: for non-empty paths `doCopy` issues no `CopyFile`
when the snapshot device opens and its geometry query fails (it raises before
the copy), and otherwise exactly one `CopyFile`, from the source path with a
separator at its end followed by `sg.zip` to the destination path with a
separator at its end followed by `sg.zip`. The separator is appended exactly
when the path does not end in one already, so the result always ends in the
separator and normalising twice is normalising once. -/
theorem doCopy_single_copy (ipVolume opPath : String) (s : Script) (n : Nat)
    (_hi : ipVolume ≠ "") (_ho : opPath ≠ "") :
    (copiedFiles (doCopy ipVolume opPath s n).events =
      if (s n).ok = true ∧ (s (n + 1)).ok = false then []
      else [(withSeparator ipVolume ++ "sg.zip", withSeparator opPath ++ "sg.zip")]) ∧
    (∀ p ∈ [ipVolume, opPath],
      (p.back = Char.ofNat 92 → withSeparator p = p) ∧
      (p.back ≠ Char.ofNat 92 → withSeparator p = p.push (Char.ofNat 92)) ∧
      (withSeparator p).back = Char.ofNat 92 ∧
      withSeparator (withSeparator p) = withSeparator p) := by
  refine ⟨doCopy_events ipVolume opPath s n, ?_⟩
  intro p _
  exact ⟨withSeparator_of_back, withSeparator_of_not_back, withSeparator_back p,
    withSeparator_of_back (withSeparator_back p)⟩

/-- C15, witness: a snapshot device path without and a destination with a
separator at the end, on the platform on which every call succeeds. -/
theorem doCopy_single_copy_witness :
    "\\\\?\\GLOBALROOT\\Device\\HarddiskVolumeShadowCopy130" ≠ "" ∧ "D:\\out\\" ≠ "" ∧
    copiedFiles (doCopy "\\\\?\\GLOBALROOT\\Device\\HarddiskVolumeShadowCopy130" "D:\\out\\"
        allSucceed 0).events
      = [("\\\\?\\GLOBALROOT\\Device\\HarddiskVolumeShadowCopy130\\sg.zip", "D:\\out\\sg.zip")] :=
  ⟨by decide, by decide,
    (doCopy_single_copy "\\\\?\\GLOBALROOT\\Device\\HarddiskVolumeShadowCopy130" "D:\\out\\"
      allSucceed 0 (by decide) (by decide)).1.trans (by decide)⟩

/-- C15, counterexample to the claim as stated: when the snapshot device opens
and its geometry query fails, `doCopy` raises and no `CopyFile` is issued. -/
theorem doCopy_no_copy_after_geometry_failure :
    (doCopy "\\\\?\\GLOBALROOT\\Device\\HarddiskVolumeShadowCopy130" "D:\\out" (failAt 1) 0).res
      = .thrown "w32_vss.h(211): ::DeviceIoControl failure" ∧
    (doCopy "\\\\?\\GLOBALROOT\\Device\\HarddiskVolumeShadowCopy130" "D:\\out" (failAt 1) 0).events.map
        (fun ev => ev.call)
      = [.CreateFile "\\\\?\\GLOBALROOT\\Device\\HarddiskVolumeShadowCopy130", .DeviceIoControl] ∧
    copiedFiles
      (doCopy "\\\\?\\GLOBALROOT\\Device\\HarddiskVolumeShadowCopy130" "D:\\out" (failAt 1) 0).events
      = [] := by
  decide

theorem addedVolumes_length (e : List Event) :
    (addedVolumes e).length = (phases e).count Phase.AddToSnapshotSet := by
  induction e with
  | nil => rfl
  | cons ev rest ih =>
    rcases ev with ⟨c, r⟩
    cases c <;> simp [addedVolumes, phases, Call.phase] at ih ⊢ <;> exact ih

theorem addedVolumes_of_keyMon (ipVolume opPath : String) :
    ∀ (e : List Event) (st : Option Response × Option Response),
      (runMon (keyStep ipVolume opPath) st e).isSome = true →
      addedVolumes e = [] ∨ (st.1 = none ∧ addedVolumes e = [ipVolume]) := by
  intro e
  induction e with
  | nil => intro st _; exact Or.inl rfl
  | cons ev rest ih =>
    intro st h
    rcases ev with ⟨c, r⟩
    simp only [runMon] at h
    cases hs : keyStep ipVolume opPath st ⟨c, r⟩ with
    | none => rw [hs] at h; cases h
    | some st' =>
      rw [hs] at h
      have hrest := ih st' h
      cases c
      case AddToSnapshotSet v =>
        simp only [keyStep] at hs
        split at hs
        · rename_i hc
          simp only [Option.some.injEq] at hs
          subst hs
          rcases hrest with h0 | ⟨h1, _⟩
          · right
            refine ⟨hc.2, ?_⟩
            simp only [addedVolumes, List.filterMap_cons] at h0 ⊢
            rw [h0, hc.1]
          · cases h1
        · cases hs
      all_goals
        have hst : st'.1 = st.1 := by
          simp only [keyStep] at hs
          first
            | (simp only [Option.some.injEq] at hs; rw [← hs])
            | (split at hs
               · simp only [Option.some.injEq] at hs; rw [← hs]
               · cases hs)
        simp only [addedVolumes, List.filterMap_cons] at hrest ⊢
        rw [hst] at hrest
        exact hrest

/-- C17: in every run of `doSnapshotCopy`, `AddToSnapshotSet` is called at most
once and with no other volume than the caller's source volume; in a run that
returns it is called exactly once. -/
theorem doSnapshotCopy_adds_one_volume (unwind : Bool) (fuel : Nat)
    (ipVolume opPath : String) (s : Script) :
    (addedVolumes (doSnapshotCopy unwind fuel ipVolume opPath s 0).events = [] ∨
      addedVolumes (doSnapshotCopy unwind fuel ipVolume opPath s 0).events = [ipVolume]) ∧
    ((doSnapshotCopy unwind fuel ipVolume opPath s 0).res = .ok () →
      addedVolumes (doSnapshotCopy unwind fuel ipVolume opPath s 0).events = [ipVolume]) := by
  have hkey := addedVolumes_of_keyMon ipVolume opPath _ _
    (keyAcc_doSnapshotCopy unwind fuel ipVolume opPath s 0)
  refine ⟨hkey.imp id (fun h => h.2), ?_⟩
  intro hres
  rcases hkey with h | h
  · have hlen := addedVolumes_length (doSnapshotCopy unwind fuel ipVolume opPath s 0).events
    rw [phases_of_ok unwind fuel ipVolume opPath s 0 hres, h] at hlen
    have hcount : List.count Phase.AddToSnapshotSet specPhases = 1 := by decide
    rw [hcount] at hlen
    cases hlen
  · exact h.2

/-! ### The message of a fatal error -/

theorem blamed_extend {α : Type} {r : Res α} {e pre : List Event} (h : Blamed r e) :
    Blamed r (pre ++ e) := by
  intro m hm
  obtain ⟨ev, he, hf⟩ := h m hm
  exact ⟨ev, List.mem_append_right _ he, hf⟩

theorem blamed_extend_right {α : Type} {r : Res α} {e post : List Event} (h : Blamed r e) :
    Blamed r (e ++ post) := by
  intro m hm
  obtain ⟨ev, he, hf⟩ := h m hm
  exact ⟨ev, List.mem_append_left _ he, hf⟩

theorem blames_pure {α : Type} (a : α) : Blames (pure a : Proc α) := by
  intro s n m hm
  cases hm

theorem blames_diverge {α : Type} : Blames (diverge : Proc α) := by
  intro s n m hm
  cases hm

theorem blames_call (c : Call) : Blames (call c) := by
  intro s n m hm
  cases hm

theorem blames_bind {α β : Type} {p : Proc α} {f : α → Proc β} (hp : Blames p)
    (hf : ∀ a, Blames (f a)) : Blames (p >>= f) := by
  intro s n
  have h1 := hp s n
  rw [bind_run]
  rcases hpe : p s n with ⟨r, e, n'⟩
  rw [hpe] at h1
  cases r with
  | ok a => exact blamed_extend (hf a s n')
  | thrown m =>
    intro m' hm'
    cases hm'
    exact h1 m rfl
  | diverged =>
    intro m' hm'
    cases hm'

theorem blames_checked {β : Type} {c : Call} {msg : String} {cond : Response → Bool}
    {k : Response → Proc β}
    (h : ∀ r, cond r = true → failed ⟨c, r⟩ = true ∧ msg = failureMessage ⟨c, r⟩)
    (hk : ∀ r, Blames (k r)) :
    Blames (call c >>= fun r => throw_on_fail msg (cond r) >>= fun _ => k r) := by
  intro s n
  simp only [bind_run, call_run, throw_on_fail_run]
  by_cases hc : cond (s n) = true
  · simp only [hc, if_true]
    intro m hm
    cases hm
    exact ⟨⟨c, s n⟩, by simp, h _ hc⟩
  · simp only [hc]
    exact blamed_extend (blamed_extend (hk (s n) s _))

theorem blames_checked_last {c : Call} {msg : String} {cond : Response → Bool}
    (h : ∀ r, cond r = true → failed ⟨c, r⟩ = true ∧ msg = failureMessage ⟨c, r⟩) :
    Blames (call c >>= fun r => throw_on_fail msg (cond r)) := by
  intro s n
  simp only [bind_run, call_run, throw_on_fail_run]
  by_cases hc : cond (s n) = true
  · simp only [hc, if_true]
    intro m hm
    cases hm
    exact ⟨⟨c, s n⟩, by simp, h _ hc⟩
  · simp only [hc]
    intro m hm
    cases hm

theorem blames_onThrow {α : Type} {unwind : Bool} {dtors : Proc Unit} {body : Proc α}
    (hb : Blames body) : Blames (onThrow unwind dtors body) := by
  intro s n
  have h1 := hb s n
  unfold vss.onThrow
  rcases hpe : body s n with ⟨r, e, n'⟩
  rw [hpe] at h1
  cases r with
  | ok a => exact h1
  | diverged => exact h1
  | thrown m =>
    cases unwind with
    | false => exact h1
    | true => exact blamed_extend_right h1

theorem loopBlamed_extend {r : Res HRESULT} {e : List Event} (pre : List Event)
    (h : LoopBlamed r e) : LoopBlamed r (pre ++ e) := by
  refine ⟨blamed_extend h.1, fun hr => ?_⟩
  obtain ⟨ev, he, hf⟩ := h.2 hr
  exact ⟨ev, List.mem_append_right _ he, hf⟩

theorem blames_loop (pStatus : AsyncOp) (ms : Nat) : ∀ (fuel : Nat) (a : HRESULT) (counter : Nat)
    (s : Script) (n : Nat), a ≠ VSS_S_ASYNC_CANCELLED →
    LoopBlamed (CheckStatusAndCancellation.loop pStatus ms fuel a counter s n).res
      (CheckStatusAndCancellation.loop pStatus ms fuel a counter s n).events := by
  intro fuel
  induction fuel with
  | zero =>
    intro a counter s n ha
    rw [CheckStatusAndCancellation.loop]
    by_cases hc : a ≠ VSS_S_ASYNC_CANCELLED ∧ a ≠ VSS_S_ASYNC_FINISHED
    · rw [if_pos hc]
      simp [diverge_run, LoopBlamed, Blamed]
    · rw [if_neg hc]
      simp [pure_run, LoopBlamed, Blamed, ha]
  | succ fuel ih =>
    intro a counter s n ha
    rw [CheckStatusAndCancellation.loop]
    by_cases hc : a ≠ VSS_S_ASYNC_CANCELLED ∧ a ≠ VSS_S_ASYNC_FINISHED
    · rw [if_pos hc]
      by_cases hr : ((s n).hr != S_OK) = true
      · have hne : (s n).hr ≠ S_OK := by simpa using hr
        simp [bind_run, call_run, throw_on_fail_run, hr, hne, failed, failureMessage, LoopBlamed,
          Blamed]
      · by_cases hb : (s n).async = VSS_S_ASYNC_CANCELLED
        · have hq : failed ⟨Call.QueryStatus pStatus, s n⟩ = true := by
            simp [failed, hb]
          have hm : LFL 129 ++ "Operation was cancelled."
              = failureMessage ⟨Call.QueryStatus pStatus, s n⟩ := by
            simp only [failureMessage, hr]
            rfl
          by_cases h4 : counter % 4 = 0
          · simp [bind_run, proc_bind_run, call_run, throw_on_fail_run, pure_run, hr, h4, hb,
              loop_done]
            exact ⟨fun m hm' => (by cases hm'), fun _ => ⟨_, List.mem_cons_self _ _, hq, hm⟩⟩
          · simp [bind_run, proc_bind_run, call_run, throw_on_fail_run, pure_run, hr, h4, hb,
              loop_done]
            exact ⟨fun m hm' => (by cases hm'), fun _ => ⟨_, List.mem_cons_self _ _, hq, hm⟩⟩
        · by_cases h4 : counter % 4 = 0
          · have := loopBlamed_extend
              [⟨Call.QueryStatus pStatus, s n⟩, ⟨Call.Sleep ms, s (n + 1)⟩,
                ⟨Call.Heartbeat (counter / 4), s (n + 1 + 1)⟩]
              (ih (s n).async (counter + 1) s (n + 1 + 1 + 1) hb)
            simpa [bind_run, proc_bind_run, call_run, throw_on_fail_run, pure_run, hr, h4] using this
          · have := loopBlamed_extend
              [⟨Call.QueryStatus pStatus, s n⟩, ⟨Call.Sleep ms, s (n + 1)⟩]
              (ih (s n).async (counter + 1) s (n + 1 + 1) hb)
            simpa [bind_run, proc_bind_run, call_run, throw_on_fail_run, pure_run, hr, h4] using this
    · rw [if_neg hc]
      simp [pure_run, LoopBlamed, Blamed, ha]

theorem blames_CheckStatusAndCancellation (fuel : Nat) (pStatus : AsyncOp) (ms : Nat) :
    Blames (CheckStatusAndCancellation fuel pStatus ms) := by
  intro s n
  unfold CheckStatusAndCancellation
  rw [bind_run]
  have h := blames_loop pStatus ms fuel E_FAIL 0 s n (by decide)
  rcases hR : CheckStatusAndCancellation.loop pStatus ms fuel E_FAIL 0 s n with ⟨r, e, n'⟩
  rw [hR] at h
  cases r with
  | ok a =>
    by_cases ha : a = VSS_S_ASYNC_CANCELLED
    · subst ha
      have h3 := h.2 rfl
      simp only [throw_on_fail_run, beq_self_eq_true, if_true, List.append_nil]
      intro m hm
      cases hm
      exact h3
    · have hb : (a == VSS_S_ASYNC_CANCELLED) = false := by simpa using ha
      simp only [throw_on_fail_run, hb, List.append_nil]
      intro m hm
      simp at hm
  | thrown m =>
    intro m' hm'
    have hm2 : m = m' := by simpa using hm'
    subst hm2
    exact h.1 m rfl
  | diverged =>
    intro m hm
    cases hm

theorem blames_VerifyWriterStatus_loop : ∀ (remaining i : Nat),
    Blames (VerifyWriterStatus.loop remaining i) := by
  intro remaining
  induction remaining with
  | zero => intro i; rw [VerifyWriterStatus.loop]; exact blames_pure _
  | succ k ih =>
    intro i
    rw [VerifyWriterStatus.loop]
    exact blames_checked (fun _ h => ⟨h, rfl⟩) (fun _ => ih _)

theorem blames_VerifyWriterStatus (fuel : Nat) : Blames (VerifyWriterStatus fuel) := by
  unfold VerifyWriterStatus
  refine blames_checked (fun _ h => ⟨h, rfl⟩) (fun _ => ?_)
  refine blames_bind (blames_CheckStatusAndCancellation _ _ _) (fun _ => ?_)
  refine blames_checked (fun _ h => ⟨h, rfl⟩) (fun _ => ?_)
  refine blames_bind (blames_VerifyWriterStatus_loop _ _) (fun _ => ?_)
  exact blames_checked_last (fun _ h => ⟨h, rfl⟩)

theorem blames_doCopy (ipVolume opPath : String) : Blames (doCopy ipVolume opPath) := by
  unfold doCopy
  refine blames_bind (blames_call _) (fun fh => ?_)
  dsimp only
  split
  · refine blames_checked (fun _ h => ⟨h, rfl⟩) (fun _ => ?_)
    refine blames_bind (blames_call _) (fun _ => ?_)
    refine blames_bind (blames_pure _) (fun _ => ?_)
    exact blames_checked_last (fun _ h => ⟨h, rfl⟩)
  · refine blames_bind (blames_pure _) (fun _ => ?_)
    exact blames_checked_last (fun _ h => ⟨h, rfl⟩)

theorem blames_ComInit_ctor : Blames ComInit.ctor := by
  intro s n
  unfold ComInit.ctor throw_if
  simp only [bind_run, call_run]
  by_cases hc : ((s n).hr != S_OK) = true
  · simp only [hc, if_true]
    intro m hm
    cases hm
    exact ⟨⟨.CoInitializeEx, s n⟩, by simp, by simpa [failed] using hc, rfl⟩
  · simp only [hc]
    intro m hm
    cases hm

theorem blames_create : Blames doSnapshotCopy.create := by
  intro s n
  unfold doSnapshotCopy.create
  simp only [bind_run, call_run, throw_on_fail_run]
  by_cases h1 : ((s n).hr == E_ACCESSDENIED) = true
  · simp only [h1, if_true]
    intro m hm
    cases hm
    refine ⟨⟨.CreateVssBackupComponents, s n⟩, by simp, ?_, by simp [failureMessage, h1]⟩
    have : (s n).hr = E_ACCESSDENIED := by simpa using h1
    simp [failed, this, E_ACCESSDENIED, S_OK]
  · by_cases h2 : ((s n).hr != S_OK) = true
    · simp only [h1, h2, if_true]
      intro m hm
      simp only [Bool.false_eq_true, if_false] at hm
      cases hm
      exact ⟨⟨.CreateVssBackupComponents, s n⟩, by simp, by simpa [failed] using h2,
        by simp [failureMessage, h1]⟩
    · simp only [h1, h2]
      intro m hm
      simp at hm

theorem blames_session (fuel : Nat) (ipVolume opPath : String) :
    Blames (doSnapshotCopy.session fuel ipVolume opPath) := by
  unfold doSnapshotCopy.session
  repeat first
    | exact blames_checked_last (fun _ h => ⟨h, rfl⟩)
    | exact blames_CheckStatusAndCancellation _ _ _
    | exact blames_VerifyWriterStatus _
    | exact blames_doCopy _ _
    | exact blames_call _
    | refine blames_bind (blames_call Call.VssFreeSnapshotProperties) (fun _ => ?_)
    | refine blames_checked (fun _ h => ⟨h, rfl⟩) (fun _ => ?_)
    | refine blames_bind ?_ (fun _ => ?_)

theorem blames_doSnapshotCopy (unwind : Bool) (fuel : Nat) (ipVolume opPath : String) :
    Blames (doSnapshotCopy unwind fuel ipVolume opPath) := by
  unfold doSnapshotCopy
  refine blames_bind blames_ComInit_ctor (fun _ => ?_)
  refine blames_bind (blames_onThrow blames_create) (fun _ => ?_)
  refine blames_bind (blames_onThrow (blames_session _ _ _)) (fun _ => ?_)
  refine blames_bind ?_ (fun _ => ?_)
  · unfold ComInit.dtor
    exact blames_bind (blames_call _) (fun _ => blames_pure _)
  · unfold CComPtr.dtor
    exact blames_bind (blames_call _) (fun _ => blames_pure _)

/-- C18, as the code has it: a fatal error raised by `doSnapshotCopy` carries
the source position and the text of the check that failed, which the failed
call and its response determine. A phase call that fails is named in the
message. A cancellation reported by a polled wait always raises
`w32_vss.h(129): Operation was cancelled.` and a status query that fails always
raises `w32_vss.h(122): Unable to query vss async status`, whichever phase is
polled; a failure of `CoInitializeEx` raises the source position alone. -/
theorem doSnapshotCopy_failure_message (unwind : Bool) (fuel : Nat)
    (ipVolume opPath : String) (s : Script) :
    (∀ m, (doSnapshotCopy unwind fuel ipVolume opPath s 0).res = .thrown m →
      ∃ ev ∈ (doSnapshotCopy unwind fuel ipVolume opPath s 0).events,
        failed ev = true ∧ m = failureMessage ev) ∧
    (∀ (snapshotId : GUID) (r : Response),
      (phaseCalls ipVolume snapshotId).map (fun c => failureMessage ⟨c, r⟩) =
        ["w32_vss.h(282): InitializeForBackup", "w32_vss.h(288): GatherWriterMetadata",
         "w32_vss.h(295): SetBackupState", "w32_vss.h(302): StartSnapshotSet",
         "w32_vss.h(312): AddToSnapshotSet", "w32_vss.h(320): PrepareForBackup",
         "w32_vss.h(337): DoSnapshotSet", "w32_vss.h(351): GetSnapshotProperties",
         "w32_vss.h(383): BackupComplete"]) ∧
    (∀ (pStatus : AsyncOp) (r : Response),
      failureMessage ⟨.QueryStatus pStatus, r⟩ =
        if r.hr != S_OK then "w32_vss.h(122): Unable to query vss async status"
        else "w32_vss.h(129): Operation was cancelled.") ∧
    (∀ r : Response, failureMessage ⟨.CoInitializeEx, r⟩ = "w32_vss.h(57): ") := by
  refine ⟨blames_doSnapshotCopy unwind fuel ipVolume opPath s 0, ?_, ?_, ?_⟩
  · intro snapshotId r
    simp only [phaseCalls, List.map_cons, List.map_nil, failureMessage]
    decide
  · intro pStatus r
    simp only [failureMessage]
    split_ifs
    · decide
    · decide
  · intro r
    simp only [failureMessage]
    decide

/-- C18, counterexample to the claim as stated: a run cancelled while
`GatherWriterMetadata` is polled and a run cancelled while `PrepareForBackup` is
polled raise the same message, which names neither phase. -/
theorem doSnapshotCopy_cancel_message_same :
    (doSnapshotCopy true 3 "C:\\" "D:\\out" (cancelAt 4) 0).res
      = .thrown "w32_vss.h(129): Operation was cancelled." ∧
    (phases (doSnapshotCopy true 3 "C:\\" "D:\\out" (cancelAt 4) 0).events).getLast?
      = some Phase.GatherWriterMetadata ∧
    (doSnapshotCopy true 3 "C:\\" "D:\\out" (cancelAt 11) 0).res
      = .thrown "w32_vss.h(129): Operation was cancelled." ∧
    (phases (doSnapshotCopy true 3 "C:\\" "D:\\out" (cancelAt 11) 0).events).getLast?
      = some Phase.PrepareForBackup := by
  decide

/-! ### Independence of the writer reports -/

theorem withoutWriter_fields {r r' : Response} (h : r.withoutWriter = r'.withoutWriter) :
    r.hr = r'.hr ∧ r.async = r'.async ∧ r.count = r'.count := by
  rcases r with ⟨a1, a2, a3, a4, a5, a6, a7, a8⟩
  rcases r' with ⟨b1, b2, b3, b4, b5, b6, b7, b8⟩
  simp only [Response.withoutWriter, Response.mk.injEq] at h
  exact ⟨h.1, h.2.2.1, h.2.2.2.1⟩

theorem blind_pure {α : Type} {R : α → α → Prop} {a b : α} (h : R a b) :
    Blind R (pure a) (pure b) := by
  intro s s' n _
  exact ⟨h, rfl, rfl⟩

theorem blind_pure_unit {α : Type} (a b : α) :
    Blind (fun _ _ => True) (pure a) (pure b) :=
  blind_pure trivial

theorem blind_diverge {α : Type} {R : α → α → Prop} : Blind R (diverge : Proc α) diverge := by
  intro s s' n _
  exact ⟨trivial, rfl, rfl⟩

theorem blind_throw_on_fail (msg : String) (cond : Bool) :
    Blind (fun _ _ => True) (throw_on_fail msg cond) (throw_on_fail msg cond) := by
  intro s s' n _
  simp only [throw_on_fail_run]
  cases cond
  · exact ⟨trivial, rfl, rfl⟩
  · exact ⟨rfl, rfl, rfl⟩

theorem blind_call (c : Call) :
    Blind (fun r r' => r.withoutWriter = r'.withoutWriter) (call c) (call c) := by
  intro s s' n h
  simp only [call_run]
  refine ⟨h n, ?_, rfl⟩
  simp only [List.map_cons, List.map_nil, Event.withoutWriter, h n]

theorem blind_bind {α β : Type} {R : α → α → Prop} {R' : β → β → Prop} {p q : Proc α}
    {f g : α → Proc β} (hp : Blind R p q) (hf : ∀ a b, R a b → Blind R' (f a) (g b)) :
    Blind R' (p >>= f) (q >>= g) := by
  intro s s' n h
  have h1 := hp s s' n h
  rw [bind_run, bind_run]
  rcases hpe : p s n with ⟨r, e, n1⟩
  rcases hqe : q s' n with ⟨r', e', n1'⟩
  rw [hpe, hqe] at h1
  obtain ⟨hr, he, hn⟩ := h1
  dsimp only at hr he hn
  subst hn
  cases r <;> cases r' <;> try (exact absurd hr id)
  · rename_i a b
    have h2 := hf a b hr s s' n1 h
    exact ⟨h2.1, by simp only [List.map_append, he, h2.2.1], h2.2.2⟩
  · exact ⟨hr, he, rfl⟩
  · exact ⟨trivial, he, rfl⟩

theorem blind_weaken {α : Type} {R R' : α → α → Prop} {p q : Proc α} (h : Blind R p q)
    (hR : ∀ a b, R a b → R' a b) : Blind R' p q := by
  intro s s' n hs
  obtain ⟨h1, h2, h3⟩ := h s s' n hs
  refine ⟨?_, h2, h3⟩
  cases hx : (p s n).res <;> cases hy : (q s' n).res <;> rw [hx, hy] at h1 <;>
    first | exact hR _ _ h1 | exact h1

theorem blind_loop (pStatus : AsyncOp) (ms : Nat) : ∀ (fuel : Nat) (a : HRESULT) (counter : Nat),
    Blind Eq (CheckStatusAndCancellation.loop pStatus ms fuel a counter)
      (CheckStatusAndCancellation.loop pStatus ms fuel a counter) := by
  intro fuel
  induction fuel with
  | zero =>
    intro a counter
    rw [CheckStatusAndCancellation.loop]
    split_ifs
    · exact blind_diverge
    · exact blind_pure rfl
  | succ fuel ih =>
    intro a counter
    rw [CheckStatusAndCancellation.loop]
    by_cases hc : a ≠ VSS_S_ASYNC_CANCELLED ∧ a ≠ VSS_S_ASYNC_FINISHED
    · rw [if_pos hc]
      refine blind_bind (blind_call _) (fun r r' h => ?_)
      obtain ⟨h1, h2, _⟩ := withoutWriter_fields h
      rw [h1, h2]
      refine blind_bind (blind_throw_on_fail _ _) (fun _ _ _ => ?_)
      refine blind_bind (blind_call _) (fun _ _ _ => ?_)
      by_cases h4 : counter % 4 = 0
      · simp only [h4, if_true]
        exact blind_bind (blind_call _) (fun _ _ _ =>
          blind_bind (blind_pure_unit _ _) (fun _ _ _ => ih _ _))
      · simp only [h4, if_false]
        exact blind_bind (blind_pure_unit _ _) (fun _ _ _ => ih _ _)
    · rw [if_neg hc]
      exact blind_pure rfl

theorem blind_CheckStatusAndCancellation (fuel : Nat) (pStatus : AsyncOp) (ms : Nat) :
    Blind (fun _ _ => True) (CheckStatusAndCancellation fuel pStatus ms)
      (CheckStatusAndCancellation fuel pStatus ms) := by
  unfold CheckStatusAndCancellation
  refine blind_bind (blind_loop pStatus ms fuel E_FAIL 0) (fun a b h => ?_)
  subst h
  exact blind_throw_on_fail _ _

theorem blind_VerifyWriterStatus_loop : ∀ (remaining i : Nat),
    Blind (fun _ _ => True) (VerifyWriterStatus.loop remaining i)
      (VerifyWriterStatus.loop remaining i) := by
  intro remaining
  induction remaining with
  | zero => intro i; rw [VerifyWriterStatus.loop]; exact blind_pure trivial
  | succ k ih =>
    intro i
    rw [VerifyWriterStatus.loop]
    refine blind_bind (blind_call _) (fun r r' h => ?_)
    obtain ⟨h1, _, _⟩ := withoutWriter_fields h
    rw [h1]
    exact blind_bind (blind_throw_on_fail _ _) (fun _ _ _ => ih _)

theorem blind_VerifyWriterStatus (fuel : Nat) :
    Blind (fun _ _ => True) (VerifyWriterStatus fuel) (VerifyWriterStatus fuel) := by
  unfold VerifyWriterStatus
  refine blind_bind (blind_call _) (fun r r' h => ?_)
  rw [(withoutWriter_fields h).1]
  refine blind_bind (blind_throw_on_fail _ _) (fun _ _ _ => ?_)
  refine blind_bind (blind_CheckStatusAndCancellation _ _ _) (fun _ _ _ => ?_)
  refine blind_bind (blind_call _) (fun r r' h => ?_)
  rw [(withoutWriter_fields h).1, (withoutWriter_fields h).2.2]
  refine blind_bind (blind_throw_on_fail _ _) (fun _ _ _ => ?_)
  refine blind_bind (blind_VerifyWriterStatus_loop _ _) (fun _ _ _ => ?_)
  refine blind_bind (blind_call _) (fun r r' h => ?_)
  rw [(withoutWriter_fields h).1]
  exact blind_throw_on_fail _ _

theorem VerifyWriterStatus_loop_run (s : Script)
    (h : ∀ i, (s i).hr = S_OK ∧ (s i).async = VSS_S_ASYNC_FINISHED) :
    ∀ (remaining i n : Nat),
      (VerifyWriterStatus.loop remaining i s n).res = .ok () ∧
      (VerifyWriterStatus.loop remaining i s n).events.map (fun ev => ev.call)
        = (List.range remaining).map (fun j => Call.GetWriterStatus (i + j)) ∧
      (VerifyWriterStatus.loop remaining i s n).next = n + remaining := by
  intro remaining
  induction remaining with
  | zero => intro i n; rw [VerifyWriterStatus.loop]; exact ⟨rfl, rfl, rfl⟩
  | succ k ih =>
    intro i n
    rw [VerifyWriterStatus.loop]
    obtain ⟨h1, h2, h3⟩ := ih (i + 1) (n + 1)
    simp only [bind_run, call_run, throw_on_fail_run, (h n).1, bne_self_eq_false,
      Bool.false_eq_true, if_false, List.nil_append, h1, h3]
    refine ⟨trivial, ?_, by omega⟩
    rw [List.map_append, h2, List.range_succ_eq_map]
    simp only [List.map_cons, List.map_nil, List.singleton_append, Nat.add_zero,
      List.cons.injEq, true_and, List.map_map]
    apply List.map_congr_left
    intro j _
    simp only [Function.comp, Nat.succ_eq_add_one]
    congr 1
    omega

theorem CheckStatusAndCancellation_run_finished (s : Script)
    (h : ∀ i, (s i).hr = S_OK ∧ (s i).async = VSS_S_ASYNC_FINISHED)
    (fuel : Nat) (pStatus : AsyncOp) (ms n : Nat) :
    CheckStatusAndCancellation (fuel + 1) pStatus ms s n =
      ⟨.ok (), [⟨.QueryStatus pStatus, s n⟩, ⟨.Sleep ms, s (n + 1)⟩,
        ⟨.Heartbeat 0, s (n + 2)⟩], n + 3⟩ := by
  unfold CheckStatusAndCancellation
  rw [CheckStatusAndCancellation.loop, if_pos (by decide)]
  have hd := loop_done pStatus ms fuel VSS_S_ASYNC_FINISHED 1 s (n + 1 + 1 + 1) (by decide)
  simp only [Nat.zero_add] at hd
  have hne : VSS_S_ASYNC_FINISHED ≠ VSS_S_ASYNC_CANCELLED := by decide
  simp [bind_run, proc_bind_run, call_run, throw_on_fail_run, pure_run, (h n).1, (h n).2, hd, hne]

/-- C16: `VerifyWriterStatus` does not fail the session by itself. When every
coordination call succeeds and the poll is finished, it returns, whatever the
number of writers and whatever state and failure code each writer reports, and
it has asked for the status of every writer in turn. On two platforms that
differ at most in the writer states and failure codes reported, it ends the
same way (returns, raises the same message, or is still polling) after the same
calls. -/
theorem VerifyWriterStatus_ignores_writer_reports (fuel : Nat) (s s' : Script) (n : Nat) :
    ((∀ i, (s i).hr = S_OK ∧ (s i).async = VSS_S_ASYNC_FINISHED) →
      (VerifyWriterStatus (fuel + 1) s n).res = .ok () ∧
      (VerifyWriterStatus (fuel + 1) s n).events.map (fun ev => ev.call) =
        [Call.GatherWriterStatus, Call.QueryStatus AsyncOp.GatherWriterStatus, Call.Sleep 250,
          Call.Heartbeat 0, Call.GetWriterStatusCount]
        ++ (List.range (s (n + 4)).count).map (fun i => Call.GetWriterStatus i)
        ++ [Call.FreeWriterStatus]) ∧
    (SameButWriters s s' →
      (VerifyWriterStatus fuel s n).res = (VerifyWriterStatus fuel s' n).res ∧
      (VerifyWriterStatus fuel s n).events.map (fun ev => ev.call)
        = (VerifyWriterStatus fuel s' n).events.map (fun ev => ev.call) ∧
      (VerifyWriterStatus fuel s n).events.map Event.withoutWriter
        = (VerifyWriterStatus fuel s' n).events.map Event.withoutWriter) := by
  constructor
  · intro h
    have e4 : n + 1 + 3 = n + 4 := rfl
    obtain ⟨h1, h2, _⟩ := VerifyWriterStatus_loop_run s h (s (n + 4)).count 0 (n + 4 + 1)
    unfold VerifyWriterStatus
    simp only [bind_run, call_run, throw_on_fail_run, (h _).1, bne_self_eq_false,
      Bool.false_eq_true, if_false, List.nil_append,
      CheckStatusAndCancellation_run_finished s h, e4]
    rcases hL : VerifyWriterStatus.loop (s (n + 4)).count 0 s (n + 4 + 1) with ⟨r, e, n'⟩
    rw [hL] at h1 h2
    dsimp only at h1 h2
    subst h1
    simp [h2]
  · intro h
    obtain ⟨h1, h2, _⟩ := blind_VerifyWriterStatus fuel s s' n h
    refine ⟨?_, ?_, h2⟩
    · cases hx : (VerifyWriterStatus fuel s n).res <;>
        cases hy : (VerifyWriterStatus fuel s' n).res <;> rw [hx, hy] at h1 <;>
        first | rfl | exact absurd h1 id | (exact congrArg _ h1)
    · have := congrArg (List.map (fun ev : Event => ev.call)) h2
      simpa [List.map_map, Function.comp, Event.withoutWriter] using this

/-! ### The probe of the snapshot device -/

/-- C28: in `doCopy` the probe of the snapshot device bears on the copy in one
case only. When the device cannot be opened, the calls are the open and the
`CopyFile`. When it opens and the geometry query succeeds, the calls are the
open, the geometry query, the size query and the `CopyFile`, whatever the size
query answers. When it opens and the geometry query fails, `doCopy` raises the
error of that check and the calls are the open and the geometry query: no
`CopyFile` is issued. -/
theorem doCopy_probe_asymmetry (ipVolume opPath : String) (s : Script) (n : Nat) :
    ((s n).ok = false →
      (doCopy ipVolume opPath s n).events.map (fun ev => ev.call) =
        [Call.CreateFile ipVolume,
          Call.CopyFile (withSeparator ipVolume ++ "sg.zip") (withSeparator opPath ++ "sg.zip")] ∧
      (doCopy ipVolume opPath s n).res =
        if (s (n + 1)).ok then .ok () else .thrown "w32_vss.h(242): ::CopyFile failure") ∧
    ((s n).ok = true → (s (n + 1)).ok = true →
      (doCopy ipVolume opPath s n).events.map (fun ev => ev.call) =
        [Call.CreateFile ipVolume, Call.DeviceIoControl, Call.GetFileSizeEx,
          Call.CopyFile (withSeparator ipVolume ++ "sg.zip") (withSeparator opPath ++ "sg.zip")] ∧
      (doCopy ipVolume opPath s n).res =
        if (s (n + 3)).ok then .ok () else .thrown "w32_vss.h(242): ::CopyFile failure") ∧
    ((s n).ok = true → (s (n + 1)).ok = false →
      (doCopy ipVolume opPath s n).events.map (fun ev => ev.call) =
        [Call.CreateFile ipVolume, Call.DeviceIoControl] ∧
      (doCopy ipVolume opPath s n).res = .thrown "w32_vss.h(211): ::DeviceIoControl failure") := by
  have m242 : LFL 242 ++ "::CopyFile failure" = "w32_vss.h(242): ::CopyFile failure" := by decide
  have m211 : LFL 211 ++ "::DeviceIoControl failure"
      = "w32_vss.h(211): ::DeviceIoControl failure" := by decide
  refine ⟨?_, ?_, ?_⟩
  · intro h0
    unfold doCopy
    cases h1 : (s (n + 1)).ok <;>
      simp [bind_run, proc_bind_run, call_run, throw_on_fail_run, pure_run, h0, h1, m242]
  · intro h0 h1
    unfold doCopy
    cases h3 : (s (n + 3)).ok <;>
      simp [bind_run, proc_bind_run, call_run, throw_on_fail_run, pure_run, h0, h1, h3, m242]
  · intro h0 h1
    unfold doCopy
    simp [bind_run, proc_bind_run, call_run, throw_on_fail_run, pure_run, h0, h1, m211]

/-! ### The destructors -/

theorem counts_of_dtorStep : ∀ (e : List Event), (runMon dtorStep () e).isSome = true →
    uninitCount e = 0 ∧ releaseCount e = 0 := by
  intro e
  induction e with
  | nil => intro _; exact ⟨rfl, rfl⟩
  | cons ev rest ih =>
    intro h
    rcases ev with ⟨c, r⟩
    simp only [runMon] at h
    cases hs : dtorStep () ⟨c, r⟩ with
    | none => rw [hs] at h; cases h
    | some u =>
      rw [hs] at h
      obtain ⟨h1, h2⟩ := ih h
      simp only [uninitCount, releaseCount] at h1 h2 ⊢
      cases c <;> simp [dtorStep] at hs <;> simp [List.countP_cons, h1, h2]

theorem dtorMon_CheckStatusAndCancellation (fuel : Nat) (pStatus : AsyncOp) (ms : Nat) :
    Mon dtorStep (CheckStatusAndCancellation fuel pStatus ms) () (fun _ => ()) := by
  unfold CheckStatusAndCancellation
  refine mon_bind (mon_loop (fun _ => rfl) (fun _ => rfl) (fun _ _ => rfl) _ _ _) (fun _ => ?_)
  exact mon_throw_on_fail _ _ _ _

theorem dtorMon_VerifyWriterStatus (fuel : Nat) :
    Mon dtorStep (VerifyWriterStatus fuel) () (fun _ => ()) := by
  unfold VerifyWriterStatus
  refine mon_bind (mon_call (fun _ => rfl)) (fun _ => ?_)
  refine mon_bind (mon_throw_on_fail _ _ _ _) (fun _ => ?_)
  refine mon_bind (dtorMon_CheckStatusAndCancellation _ _ _) (fun _ => ?_)
  refine mon_bind (mon_call (fun _ => rfl)) (fun _ => ?_)
  refine mon_bind (mon_throw_on_fail _ _ _ _) (fun _ => ?_)
  refine mon_bind (mon_VerifyWriterStatus_loop (fun _ _ => rfl) _ _) (fun _ => ?_)
  refine mon_bind (mon_call (fun _ => rfl)) (fun _ => ?_)
  exact mon_throw_on_fail _ _ _ _

theorem dtorMon_doCopy (ipVolume opPath : String) :
    Mon dtorStep (doCopy ipVolume opPath) () (fun _ => ()) := by
  unfold doCopy
  refine mon_bind (mon_call (fun _ => rfl)) (fun fh => ?_)
  dsimp only
  split
  · refine mon_bind (mon_call (fun _ => rfl)) (fun _ => ?_)
    refine mon_bind (mon_throw_on_fail _ _ _ _) (fun _ => ?_)
    refine mon_bind (mon_call (fun _ => rfl)) (fun _ => ?_)
    refine mon_bind (mon_pure _ _ _) (fun _ => ?_)
    refine mon_bind (mon_call (fun _ => rfl)) (fun _ => ?_)
    exact mon_throw_on_fail _ _ _ _
  · refine mon_bind (mon_pure _ _ _) (fun _ => ?_)
    refine mon_bind (mon_call (fun _ => rfl)) (fun _ => ?_)
    exact mon_throw_on_fail _ _ _ _

theorem dtorMon_session (fuel : Nat) (ipVolume opPath : String) :
    Mon dtorStep (doSnapshotCopy.session fuel ipVolume opPath) () (fun _ => ()) := by
  unfold doSnapshotCopy.session
  repeat first
    | exact mon_throw_on_fail _ _ _ _
    | exact dtorMon_VerifyWriterStatus _
    | refine mon_bind (mon_throw_on_fail _ _ _ _) (fun _ => ?_)
    | refine mon_bind (dtorMon_CheckStatusAndCancellation _ _ _) (fun _ => ?_)
    | refine mon_bind (dtorMon_VerifyWriterStatus _) (fun _ => ?_)
    | refine mon_bind (dtorMon_doCopy _ _) (fun _ => ?_)
    | refine mon_bind (mon_call (fun _ => rfl)) (fun _ => ?_)

theorem ctor_run (s : Script) (n : Nat) :
    ComInit.ctor s n =
      ⟨if (s n).hr = S_OK then .ok () else .thrown (LFL 57), [⟨.CoInitializeEx, s n⟩], n + 1⟩ := by
  unfold ComInit.ctor throw_if
  by_cases h : (s n).hr = S_OK
  · simp [bind_run, call_run, throw_on_fail_run, h]
  · have hb : ((s n).hr != S_OK) = true := by simpa using h
    simp [bind_run, call_run, throw_on_fail_run, h, hb]

theorem create_run (s : Script) (n : Nat) :
    doSnapshotCopy.create s n =
      ⟨if (s n).hr = S_OK then .ok ()
        else if (s n).hr = E_ACCESSDENIED then
          .thrown (LFL 276 ++ "Failed to create the VSS backup components as access was denied. Is this being run with elevated permissions?")
        else .thrown (LFL 277 ++ "CreateVssBackupComponents"),
        [⟨.CreateVssBackupComponents, s n⟩], n + 1⟩ := by
  unfold doSnapshotCopy.create
  have hne : S_OK ≠ E_ACCESSDENIED := by decide
  by_cases h2 : (s n).hr = S_OK
  · simp [bind_run, call_run, throw_on_fail_run, h2, hne]
  · by_cases h1 : (s n).hr = E_ACCESSDENIED
    · simp [bind_run, call_run, throw_on_fail_run, h1, hne.symm]
    · simp [bind_run, call_run, throw_on_fail_run, h1, h2]

theorem ComInit_dtor_run (s : Script) (n : Nat) :
    ComInit.dtor s n = ⟨.ok (), [⟨Call.CoUninitialize, s n⟩], n + 1⟩ := by
  unfold ComInit.dtor
  simp [bind_run, call_run, pure_run]

theorem CComPtr_dtor_run (s : Script) (n : Nat) :
    CComPtr.dtor s n = ⟨.ok (), [⟨.Release, s n⟩], n + 1⟩ := by
  unfold CComPtr.dtor
  simp [bind_run, call_run, pure_run]

theorem dtors_run (s : Script) (n : Nat) :
    Proc.bind ComInit.dtor (fun _ => CComPtr.dtor) s n
      = ⟨.ok (), [⟨Call.CoUninitialize, s n⟩, ⟨.Release, s (n + 1)⟩], n + 1 + 1⟩ := by
  simp [proc_bind_run, ComInit_dtor_run, CComPtr_dtor_run]

/-- C22, the code: when `CoInitializeEx` succeeded and `doSnapshotCopy` comes to
its normal end, `CoUninitialize` and the `Release` of the backup components are
each called once, as the last two calls. When an error is raised after
`CoInitializeEx` succeeded, they are called once (the `Release` only if
`CreateVssBackupComponents` had succeeded) if the stack is unwound, and not at
all if it is not; the function is declared `throw()`, so unwinding is not
guaranteed. When `CoInitializeEx` fails neither is called. -/
theorem doSnapshotCopy_release (unwind : Bool) (fuel : Nat) (ipVolume opPath : String)
    (s : Script) :
    (((s 0).hr = S_OK →
      ((doSnapshotCopy unwind fuel ipVolume opPath s 0).res = .ok () →
        uninitCount (doSnapshotCopy unwind fuel ipVolume opPath s 0).events = 1 ∧
        releaseCount (doSnapshotCopy unwind fuel ipVolume opPath s 0).events = 1 ∧
        ((doSnapshotCopy unwind fuel ipVolume opPath s 0).events.map (fun ev => ev.call)).reverse.take 2
          = [Call.Release, Call.CoUninitialize]) ∧
      (∀ m, (doSnapshotCopy unwind fuel ipVolume opPath s 0).res = .thrown m →
        uninitCount (doSnapshotCopy unwind fuel ipVolume opPath s 0).events
          = (if unwind then 1 else 0) ∧
        releaseCount (doSnapshotCopy unwind fuel ipVolume opPath s 0).events
          = (if unwind = true ∧ (s 1).hr = S_OK then 1 else 0))) ∧
    ((s 0).hr ≠ S_OK →
      uninitCount (doSnapshotCopy unwind fuel ipVolume opPath s 0).events = 0 ∧
      releaseCount (doSnapshotCopy unwind fuel ipVolume opPath s 0).events = 0)) ∧
    ((doSnapshotCopy false 3 "C:\\" "D:\\out" (failAt 2) 0).res
        = .thrown "w32_vss.h(282): InitializeForBackup" ∧
      (doSnapshotCopy false 3 "C:\\" "D:\\out" (failAt 2) 0).events.map (fun ev => ev.call)
        = [Call.CoInitializeEx, Call.CreateVssBackupComponents, Call.InitializeForBackup]) := by
  refine ⟨?_, by decide⟩
  have hq : ∀ n, uninitCount (doSnapshotCopy.session fuel ipVolume opPath s n).events = 0 ∧
      releaseCount (doSnapshotCopy.session fuel ipVolume opPath s n).events = 0 :=
    fun n => counts_of_dtorStep _ (dtorMon_session fuel ipVolume opPath s n).2
  have hrun : doSnapshotCopy unwind fuel ipVolume opPath s 0 =
      (ComInit.ctor >>= fun _ => onThrow unwind ComInit.dtor doSnapshotCopy.create >>= fun _ =>
        onThrow unwind (do ComInit.dtor; CComPtr.dtor)
          (doSnapshotCopy.session fuel ipVolume opPath) >>= fun _ =>
        ComInit.dtor >>= fun _ => CComPtr.dtor) s 0 := rfl
  rw [hrun]
  simp only [bind_run, ctor_run, vss.onThrow, create_run, dtors_run, ComInit_dtor_run,
    CComPtr_dtor_run, Nat.zero_add]
  by_cases h0 : (s 0).hr = S_OK
  · simp only [h0, if_true, ne_eq, not_true_eq_false, false_implies, and_true, true_implies]
    by_cases h1 : (s 1).hr = S_OK
    · simp only [h1, if_true, and_true]
      have hq2 := hq (1 + 1)
      rcases hs : doSnapshotCopy.session fuel ipVolume opPath s (1 + 1) with ⟨rs, es, ns⟩
      rw [hs] at hq2
      dsimp only at hq2
      simp only [uninitCount, releaseCount] at hq2 ⊢
      cases rs with
      | ok u =>
        simp [List.countP_append, List.countP_cons, hq2.1, hq2.2]
      | diverged => simp
      | thrown m =>
        cases unwind <;> simp [List.countP_append, List.countP_cons, hq2.1, hq2.2]
    · simp only [h1, if_false, and_false]
      simp only [uninitCount, releaseCount]
      by_cases h2 : (s 1).hr = E_ACCESSDENIED
      · cases unwind <;> simp [h2, List.countP_cons]
      · cases unwind <;> simp [h2, List.countP_cons]
  · simp [h0, uninitCount, releaseCount, List.countP_cons]

/-! ### The polls of `CheckStatusAndCancellation` -/

theorem flatten_range_succ {α : Type} (f : Nat → List α) (K : Nat) :
    ((List.range (K + 1)).map f).flatten
      = f 0 ++ ((List.range K).map (fun k => f (k + 1))).flatten := by
  rw [List.range_succ_eq_map, List.map_cons, List.flatten_cons, List.map_map]
  rfl

theorem loop_polls (pStatus : AsyncOp) (ms : Nat) (s : Script) :
    ∀ (K fuel : Nat) (a : HRESULT) (c n : Nat), K < fuel →
      (a ≠ VSS_S_ASYNC_CANCELLED ∧ a ≠ VSS_S_ASYNC_FINISHED) →
      (∀ k, k < K → (s (queryIndex c n k)).hr = S_OK ∧
        (s (queryIndex c n k)).async ≠ VSS_S_ASYNC_CANCELLED ∧
        (s (queryIndex c n k)).async ≠ VSS_S_ASYNC_FINISHED) →
      ((s (queryIndex c n K)).hr ≠ S_OK ∨
        (s (queryIndex c n K)).async = VSS_S_ASYNC_CANCELLED ∨
        (s (queryIndex c n K)).async = VSS_S_ASYNC_FINISHED) →
      (CheckStatusAndCancellation.loop pStatus ms fuel a c s n).res =
        (if (s (queryIndex c n K)).hr ≠ S_OK then
          .thrown (LFL 122 ++ "Unable to query vss async status")
        else .ok (s (queryIndex c n K)).async) ∧
      (CheckStatusAndCancellation.loop pStatus ms fuel a c s n).events.map (fun ev => ev.call) =
        ((List.range K).map (fun k => pollCalls pStatus ms (c + k))).flatten ++
          (if (s (queryIndex c n K)).hr ≠ S_OK then [Call.QueryStatus pStatus]
           else pollCalls pStatus ms (c + K)) := by
  intro K
  induction K with
  | zero =>
    intro fuel a c n hf ha _ hstop
    cases fuel with
    | zero => omega
    | succ f =>
      simp only [queryIndex] at hstop ⊢
      rw [CheckStatusAndCancellation.loop, if_pos ha]
      by_cases hr : (s n).hr = S_OK
      · have hterm : ¬ ((s n).async ≠ VSS_S_ASYNC_CANCELLED ∧
            (s n).async ≠ VSS_S_ASYNC_FINISHED) := by
          rcases hstop with h | h | h
          · exact absurd hr h
          · exact fun hc => hc.1 h
          · exact fun hc => hc.2 h
        by_cases h4 : c % 4 = 0
        · simp [bind_run, proc_bind_run, call_run, throw_on_fail_run, pure_run, hr, h4,
            loop_done _ _ _ _ _ _ _ hterm, pollCalls]
        · simp [bind_run, proc_bind_run, call_run, throw_on_fail_run, pure_run, hr, h4,
            loop_done _ _ _ _ _ _ _ hterm, pollCalls]
      · have hb : ((s n).hr != S_OK) = true := by simpa using hr
        simp [bind_run, call_run, throw_on_fail_run, hr, hb]
  | succ K ih =>
    intro fuel a c n hf ha hbefore hstop
    cases fuel with
    | zero => omega
    | succ f =>
      have h0 := hbefore 0 (Nat.succ_pos K)
      simp only [queryIndex] at h0 hstop ⊢
      rw [CheckStatusAndCancellation.loop, if_pos ha]
      have hnext : ∀ k, k < K →
          (s (queryIndex (c + 1) (if c % 4 = 0 then n + 1 + 1 + 1 else n + 1 + 1) k)).hr = S_OK ∧
          (s (queryIndex (c + 1) (if c % 4 = 0 then n + 1 + 1 + 1 else n + 1 + 1) k)).async
            ≠ VSS_S_ASYNC_CANCELLED ∧
          (s (queryIndex (c + 1) (if c % 4 = 0 then n + 1 + 1 + 1 else n + 1 + 1) k)).async
            ≠ VSS_S_ASYNC_FINISHED := by
        intro k hk
        have := hbefore (k + 1) (by omega)
        simpa only [queryIndex] using this
      have hrec := ih f (s n).async (c + 1) (if c % 4 = 0 then n + 1 + 1 + 1 else n + 1 + 1)
        (by omega) ⟨h0.2.1, h0.2.2⟩ hnext hstop
      have hidx : ∀ k, c + 1 + k = c + (k + 1) := fun k => by omega
      rw [flatten_range_succ]
      simp only [hidx] at hrec
      simp only [Nat.add_zero]
      by_cases h4 : c % 4 = 0
      · simp only [h4, if_true] at hrec ⊢
        simp only [bind_run, proc_bind_run, call_run, throw_on_fail_run, pure_run, h0.1,
          bne_self_eq_false, Bool.false_eq_true, if_false, List.nil_append, hrec.1,
          List.map_append, List.map_cons, List.map_nil, hrec.2, pollCalls, h4, if_true]
        simp
      · simp only [h4, if_false] at hrec ⊢
        simp only [bind_run, proc_bind_run, call_run, throw_on_fail_run, pure_run, h0.1,
          bne_self_eq_false, Bool.false_eq_true, if_false, List.nil_append, hrec.1,
          List.map_append, List.map_cons, List.map_nil, hrec.2, pollCalls, h4]
        simp

theorem queryIndex_closed : ∀ (k c n : Nat),
    queryIndex c n k + (c + 3) / 4 = n + 2 * k + (c + k + 3) / 4 := by
  intro k
  induction k with
  | zero => intro c n; simp [queryIndex]
  | succ k ih =>
    intro c n
    rw [queryIndex]
    have h := ih (c + 1) (if c % 4 = 0 then n + 1 + 1 + 1 else n + 1 + 1)
    by_cases h4 : c % 4 = 0
    · simp only [h4, if_true] at h ⊢
      omega
    · simp only [h4, if_false] at h ⊢
      omega

/-- C25, as the code has it: `CheckStatusAndCancellation` always issues a first
query and goes on polling up to the first poll `K` whose query fails or
answers with the finished or the cancelled status; no query follows it. Every
poll before `K` is the query, the sleep of the fixed interval and, when its
index is a multiple of 4, the heartbeat that reports a quarter of the index as
seconds. Poll `K` is the same when its query succeeds, and is the query alone
when its query fails: the error is raised before the sleep and the heartbeat.
The function returns normally exactly when the query of poll `K` succeeds with
the finished status and raises a fatal error when that query fails or answers
with the cancelled status. -/
theorem CheckStatusAndCancellation_polls (fuel : Nat) (pStatus : AsyncOp) (ms : Nat) (s : Script)
    (n K : Nat) (hK : K < fuel)
    (hbefore : ∀ k, k < K → (s (queryIndex 0 n k)).hr = S_OK ∧
      (s (queryIndex 0 n k)).async ≠ VSS_S_ASYNC_CANCELLED ∧
      (s (queryIndex 0 n k)).async ≠ VSS_S_ASYNC_FINISHED)
    (hstop : (s (queryIndex 0 n K)).hr ≠ S_OK ∨
      (s (queryIndex 0 n K)).async = VSS_S_ASYNC_CANCELLED ∨
      (s (queryIndex 0 n K)).async = VSS_S_ASYNC_FINISHED) :
    ((CheckStatusAndCancellation fuel pStatus ms s n).events.map (fun ev => ev.call) =
      ((List.range K).map (pollCalls pStatus ms)).flatten ++
        (if (s (queryIndex 0 n K)).hr ≠ S_OK then [Call.QueryStatus pStatus]
         else pollCalls pStatus ms K)) ∧
    ((CheckStatusAndCancellation fuel pStatus ms s n).res =
      if (s (queryIndex 0 n K)).hr ≠ S_OK then
        .thrown "w32_vss.h(122): Unable to query vss async status"
      else if (s (queryIndex 0 n K)).async = VSS_S_ASYNC_CANCELLED then
        .thrown "w32_vss.h(129): Operation was cancelled."
      else .ok ()) ∧
    ((CheckStatusAndCancellation fuel pStatus ms s n).events.head?.map (fun ev => ev.call)
      = some (Call.QueryStatus pStatus)) ∧
    (∀ k, queryIndex 0 n k = n + 2 * k + (k + 3) / 4) := by
  have m122 : LFL 122 ++ "Unable to query vss async status"
      = "w32_vss.h(122): Unable to query vss async status" := by decide
  have m129 : LFL 129 ++ "Operation was cancelled."
      = "w32_vss.h(129): Operation was cancelled." := by decide
  obtain ⟨hres, hev⟩ := loop_polls pStatus ms s K fuel E_FAIL 0 n hK (by decide) hbefore hstop
  simp only [Nat.zero_add] at hev
  have hrun : CheckStatusAndCancellation fuel pStatus ms s n =
      (CheckStatusAndCancellation.loop pStatus ms fuel E_FAIL 0 >>= fun asyncResult =>
        throw_on_fail (LFL 129 ++ "Operation was cancelled.")
          (asyncResult == VSS_S_ASYNC_CANCELLED)) s n := rfl
  have hevents : (CheckStatusAndCancellation fuel pStatus ms s n).events.map (fun ev => ev.call) =
      ((List.range K).map (pollCalls pStatus ms)).flatten ++
        (if (s (queryIndex 0 n K)).hr ≠ S_OK then [Call.QueryStatus pStatus]
         else pollCalls pStatus ms K) := by
    rw [← hev, hrun, bind_run]
    rcases hL : CheckStatusAndCancellation.loop pStatus ms fuel E_FAIL 0 s n with ⟨r, e, n'⟩
    cases r with
    | ok a => cases hc : (a == VSS_S_ASYNC_CANCELLED) <;> simp [throw_on_fail_run, hc]
    | thrown m => rfl
    | diverged => rfl
  refine ⟨hevents, ?_, ?_, ?_⟩
  · rw [hrun, bind_run]
    rcases hL : CheckStatusAndCancellation.loop pStatus ms fuel E_FAIL 0 s n with ⟨r, e, n'⟩
    rw [hL] at hres
    dsimp only at hres
    by_cases hr : (s (queryIndex 0 n K)).hr = S_OK
    · simp only [hr, ne_eq, not_true_eq_false, if_false] at hres ⊢
      subst hres
      by_cases hc : (s (queryIndex 0 n K)).async = VSS_S_ASYNC_CANCELLED
      · simp [throw_on_fail_run, hc, m129]
      · have hb : ((s (queryIndex 0 n K)).async == VSS_S_ASYNC_CANCELLED) = false := by
          simpa using hc
        simp [throw_on_fail_run, hc, hb]
    · simp only [hr, ne_eq, not_false_eq_true, if_true] at hres ⊢
      subst hres
      simp [m122]
  · have hhead : ∀ (l : List Event), (l.map (fun ev => ev.call)).head?
        = l.head?.map (fun ev => ev.call) := by
      intro l
      cases l <;> rfl
    rw [← hhead, hevents]
    cases K with
    | zero =>
      by_cases hr : (s (queryIndex 0 n 0)).hr = S_OK
      · simp [hr, pollCalls]
      · simp [hr]
    | succ K =>
      rw [flatten_range_succ]
      simp [pollCalls]
  · intro k
    have := queryIndex_closed k 0 n
    omega

/-- C25, witness: the first poll answers with the pending status, the second
with the finished status. -/
theorem CheckStatusAndCancellation_polls_witness :
    (CheckStatusAndCancellation 3 AsyncOp.DoSnapshotSet 250 (pendingUntil 3) 0).events.map
        (fun ev => ev.call) =
      [Call.QueryStatus AsyncOp.DoSnapshotSet, Call.Sleep 250, Call.Heartbeat 0,
        Call.QueryStatus AsyncOp.DoSnapshotSet, Call.Sleep 250] ∧
    (CheckStatusAndCancellation 3 AsyncOp.DoSnapshotSet 250 (pendingUntil 3) 0).res = .ok () :=
  ⟨(CheckStatusAndCancellation_polls 3 AsyncOp.DoSnapshotSet 250 (pendingUntil 3) 0 1
      (by decide) (by decide) (by decide)).1.trans (by decide),
    (CheckStatusAndCancellation_polls 3 AsyncOp.DoSnapshotSet 250 (pendingUntil 3) 0 1
      (by decide) (by decide) (by decide)).2.1.trans (by decide)⟩

/-- C25, counterexample to the claim as stated: when the first query fails, the
poll with index 0 (a multiple of 4) is the query alone; no heartbeat is emitted
for it and no sleep follows. -/
theorem CheckStatusAndCancellation_no_heartbeat_on_failed_query :
    (CheckStatusAndCancellation 3 AsyncOp.DoSnapshotSet 250 (failAt 0) 0).events.map
        (fun ev => ev.call) = [Call.QueryStatus AsyncOp.DoSnapshotSet] ∧
    (CheckStatusAndCancellation 3 AsyncOp.DoSnapshotSet 250 (failAt 0) 0).res
      = .thrown "w32_vss.h(122): Unable to query vss async status" := by
  decide

end vss
